import Mathlib

/-!
# Parking session server: session engine of `Server::run_loop`

Embedding of the per-frame logic of `src/server/server.cpp` (the body of the
inner client loop of `Server::run_loop`, the seven prepared statements of
`Server::prepare_statements`, `read_n_nonblocking`, `load_prices_from_shm`,
`update_db_from_prices_file`, the signal handler `SigGuard::handle`), of
`utils::init_db_schema_and_seed` and `utils::json_get_string` in
`src/server/utils.cpp`, of `write_prices_to_shm` in
`src/server/price_updater.cpp`, of the frame written by
`src/BeagleBone/i2c_demon/i2c_daemon.c`, of `i2c_read_frame` in
`src/BeagleBone/i2c_demon/i2c_master.c` and of the frame sent by the
generator (`my_main.c`, `I2C_Coordinate_generator.c`).

Conventions of the embedding:

* a coordinate of a frame and of a `customer_data` row is a `CDouble`: a
  finite value, given as the exact rational it denotes, an infinity or NaN
  (NULL in a column); a comparison with an infinity or a NULL on one side is
  never true, as in SQL.  `round3` and the tolerance test are computed on the
  exact finite values; the catalog coordinates and the rates are finite
  (`ℚ`); the literal `0.0001` is `1 / 10000`;
* the fee of a close is computed with the rounding of the `double`
  operations of line 677 (`to_double`: 53 significant bits, round to nearest,
  ties to even; the exponent range is not limited);
* the rowid found by `sql_find_open` passes through the `int` of line 654
  (`sqlite3_column_int`: the low 32 bits in two's complement);
* columns hold a value of their declared type (`INTEGER` is `Int`, `TEXT` is
  `String`); only `ended_at` and, as NaN, the coordinates may be NULL.  A
  `city_code` is a C `int` (every writer of the column binds one) and the
  elapsed minutes of a session fit one, so `sqlite3_column_int` returns them
  as they are; a rowid is any positive 64-bit integer;
* a timestamp text `YYYY-MM-DD HH:MM:SS.sss` of the local wall clock is the
  number of milliseconds it denotes, so that the text order used by
  `ORDER BY created_at` is the numeric order;
* every `sqlite3_step` succeeds (a failing step ends the process through
  `CHECK_SQL`), except a step that a constraint of the schema rejects, and a
  table is the list of its rows in scan order;
* the relay and the server are little-endian hosts; a byte is a natural
  number below 256 and a `float` on the wire is its 32-bit pattern;
* the shared segment is its length, its count field and its records; a
  mapping gives access to whole pages of 4096 bytes, a read outside them
  has no defined result (`none`), and neither has a store beyond the end of
  the object;
* a C string is the list of its characters before the terminating NUL, and
  a buffer that is written is seen through the stores made to it.
-/

namespace ParkingServer

/-! ## Data model -/

/-- Local wall-clock time in milliseconds, the content of a
`YYYY-MM-DD HH:MM:SS.sss` text produced by `utils::current_local_time`. -/
abbrev Timestamp := Nat

/-- A C `double`, and the content of a `REAL` column: a finite value (the
rational it denotes), an infinity, or NaN.  `sqlite3_bind_double` stores a NaN
as NULL, so in a column `nan` stands for NULL. -/
inductive CDouble
  | fin (q : ℚ)
  | pos_inf
  | neg_inf
  | nan
deriving DecidableEq, Repr

/-- The fields of a received `gps_frame` after `ntohs` on the two 16-bit
fields and `float_from_big_endian` on the two coordinates (the values
`dev_id`, `status` and the arguments of `round3` in `Server::run_loop`).  A
coordinate is any value a 32-bit pattern can stand for. -/
structure DecodedFrame where
  dev_id : Nat
  cord_x : CDouble
  cord_y : CDouble
  status : Nat
deriving DecidableEq, Repr

/-- A row of table `prices` (schema in `init_db_schema_and_seed`). -/
structure PriceRow where
  city : String
  city_code : Int
  gps_lat : ℚ
  gps_lng : ℚ
  price_per_hour : ℚ
  created_at : Timestamp
deriving DecidableEq, Repr

/-- A row of table `customer_data`; `id` is the `INTEGER PRIMARY KEY
AUTOINCREMENT` column, which is the rowid. -/
structure CustomerRow where
  id : Nat
  customer_id : String
  city_code : Int
  gps_lat : CDouble
  gps_lng : CDouble
  status : Int
  parking_duration_minutes : Int
  ticket_fee : ℚ
  created_at : Timestamp
  ended_at : Option Timestamp
deriving DecidableEq, Repr

/-- The database file: both tables, and the `sqlite_sequence` counter kept
for `customer_data` by AUTOINCREMENT (largest rowid ever handed out). -/
structure Db where
  prices : List PriceRow
  customer_data : List CustomerRow
  customer_seq : Nat
deriving DecidableEq, Repr

/-- The global `prices_cache` (`std::unordered_map<int,double>`), as an
association list read by first match. -/
abbrev PriceCache := List (Int × ℚ)

/-! ## Arithmetic helpers of `server.cpp` -/

/-- The function `std::round`: nearest integer, halfway cases away from zero. -/
def c_round (v : ℚ) : ℚ :=
  if 0 ≤ v then (⌊v + 1 / 2⌋ : Int) else -(⌊-v + 1 / 2⌋ : Int)

/-- The function `round3` on a finite value:
`std::round(val * 1000.0) / 1000.0`. -/
def round3 (val : ℚ) : ℚ := c_round (val * 1000) / 1000

/-- The function `round3` on any `double`: an infinity and NaN pass through
the multiplication, `std::round` and the division unchanged. -/
def CDouble.round3 : CDouble → CDouble
  | CDouble.fin q => CDouble.fin (ParkingServer.round3 q)
  | CDouble.pos_inf => CDouble.pos_inf
  | CDouble.neg_inf => CDouble.neg_inf
  | CDouble.nan => CDouble.nan

/-- The value `sqlite3_column_int` returns for a 64-bit integer: its low 32
bits read as a signed `int`. -/
def sqlite3_column_int (v : Int) : Int := (v + 2147483648) % 4294967296 - 2147483648

/-- The text `customer_id` printed by `snprintf(customer_id, 64, "%u", dev_id)`. -/
def customer_id_of (dev_id : Nat) : String := toString dev_id

/-! ## Prepared statements -/

/-- The SQL test `ABS(col - ?) < 0.0001` on two finite values. -/
def near (col v : ℚ) : Bool := decide (|col - v| < 1 / 10000)

/-- The SQL test `ABS(col - ?) < 0.0001` on a column value and a bound
`double`.  With an infinity on one side the difference is infinite, with
infinities on both sides or a NULL it is NULL: the test is true only for two
finite values. -/
def CDouble.near : CDouble → CDouble → Bool
  | CDouble.fin col, CDouble.fin v => ParkingServer.near col v
  | _, _ => false

/-- Statement `sql_find_city`: `SELECT city_code FROM prices WHERE
ABS(gps_lat - ?1)<0.0001 AND ABS(gps_lng - ?2)<0.0001 LIMIT 1`. -/
def sql_find_city (prices : List PriceRow) (x y : ℚ) : Option Int :=
  (prices.find? (fun p => near p.gps_lat x && near p.gps_lng y)).map (fun p => p.city_code)

/-- The shared WHERE clause of `sql_check_open` and `sql_find_open`:
`customer_id=?1 AND city_code=?2 AND ABS(gps_lat - ?3)<0.0001 AND
ABS(gps_lng - ?4)<0.0001 AND status=1`. -/
def open_where (customer_id : String) (city_code : Int) (x y : CDouble) (r : CustomerRow) :
    Bool :=
  decide (r.customer_id = customer_id) && decide (r.city_code = city_code)
    && r.gps_lat.near x && r.gps_lng.near y && decide (r.status = 1)

/-- Statement `sql_check_open`: `SELECT rowid ... LIMIT 1`. -/
def sql_check_open (rows : List CustomerRow) (customer_id : String) (city_code : Int)
    (x y : CDouble) : Option Nat :=
  (rows.find? (open_where customer_id city_code x y)).map (fun r => r.id)

/-- First row of `ORDER BY created_at DESC`: a row with the greatest
`created_at`; among equal timestamps the earliest in scan order is taken. -/
def latest : List CustomerRow → Option CustomerRow
  | [] => none
  | r :: rs =>
    match latest rs with
    | none => some r
    | some b => if r.created_at < b.created_at then some b else some r

/-- Statement `sql_find_open`: `SELECT rowid, created_at ... ORDER BY
created_at DESC LIMIT 1`. -/
def sql_find_open (rows : List CustomerRow) (customer_id : String) (city_code : Int)
    (x y : CDouble) : Option (Nat × Timestamp) :=
  (latest (rows.filter (open_where customer_id city_code x y))).map
    (fun r => (r.id, r.created_at))

/-- The SQL value `strftime('%s', t)`: whole seconds of a timestamp. -/
def strftime_s (t : Timestamp) : Int := ((t / 1000 : Nat) : Int)

/-- Statement `sql_minutes`: `SELECT CAST((strftime('%s','now','localtime') -
strftime('%s', ?1)) / 60 AS INTEGER)`; `/` on two SQL integers truncates
toward zero.  `sql_now` is the clock of the database engine. -/
def sql_minutes (sql_now created_at : Timestamp) : Int :=
  Int.tdiv (strftime_s sql_now - strftime_s created_at) 60

/-- Statement `sql_price`: `SELECT price_per_hour FROM prices WHERE
city_code=?1 LIMIT 1`. -/
def sql_price (prices : List PriceRow) (city_code : Int) : Option ℚ :=
  (prices.find? (fun p => decide (p.city_code = city_code))).map (fun p => p.price_per_hour)

/-- Largest rowid present in `customer_data` (0 for the empty table). -/
def max_rowid (rows : List CustomerRow) : Nat :=
  (rows.map (fun r => r.id)).foldr max 0

/-- The rowid AUTOINCREMENT gives to the next inserted row: one more than
the largest rowid that ever existed in the table. -/
def next_rowid (db : Db) : Nat := max db.customer_seq (max_rowid db.customer_data) + 1

/-- The row written by `sql_insert_open`: `VALUES (?1, ?2, ?3, ?4, 1, 0, 0.0, ?5)`,
`ended_at` left NULL. -/
def open_row (id : Nat) (customer_id : String) (city_code : Int) (x y : CDouble)
    (now : Timestamp) : CustomerRow :=
  { id := id, customer_id := customer_id, city_code := city_code, gps_lat := x, gps_lng := y,
    status := 1, parking_duration_minutes := 0, ticket_fee := 0, created_at := now,
    ended_at := none }

/-- Statement `sql_insert_open` run on the database. -/
def sql_insert_open (db : Db) (customer_id : String) (city_code : Int) (x y : CDouble)
    (now : Timestamp) : Db :=
  { db with
    customer_data :=
      db.customer_data ++ [open_row (next_rowid db) customer_id city_code x y now]
    customer_seq := next_rowid db }

/-- The assignment of `sql_update_close` to one row: `SET status=0,
parking_duration_minutes=?1, ticket_fee=?2, ended_at=?3`. -/
def close_row (r : CustomerRow) (minutes : Int) (fee : ℚ) (ended_at : Timestamp) :
    CustomerRow :=
  { r with status := 0, parking_duration_minutes := minutes, ticket_fee := fee,
           ended_at := some ended_at }

/-- Statement `sql_update_close`: `UPDATE customer_data SET ... WHERE rowid=?4`,
the rowid being bound with `sqlite3_bind_int`. -/
def sql_update_close (rows : List CustomerRow) (minutes : Int) (fee : ℚ)
    (ended_at : Timestamp) (rowid : Int) : List CustomerRow :=
  rows.map (fun r => if (r.id : Int) = rowid then close_row r minutes fee ended_at else r)

/-! ## Frame processing in `Server::run_loop` -/

/-- Lookup `prices_cache.find(city_code)`. -/
def cache_find (cache : PriceCache) (city_code : Int) : Option ℚ :=
  (cache.find? (fun kv => decide (kv.1 = city_code))).map (fun kv => kv.2)

/-- The hourly price of lines 665-674: the `sql_price` row or `0.0`,
replaced by the cache entry when `prices_cache` has the code. -/
def price_per_hour (cache : PriceCache) (prices : List PriceRow) (city_code : Int) : ℚ :=
  let from_table := (sql_price prices city_code).getD 0
  match cache_find cache city_code with
  | some cached => cached
  | none => from_table

/-- Nearest integer, a tie going to the even one. -/
def round_half_even (v : ℚ) : Int :=
  if v - ⌊v⌋ < 1 / 2 then ⌊v⌋
  else if 1 / 2 < v - ⌊v⌋ then ⌊v⌋ + 1
  else if ⌊v⌋ % 2 = 0 then ⌊v⌋ else ⌊v⌋ + 1

/-- The `double` nearest to a number, that is the result of a `double`
operation whose exact result is `v`: 53 significant bits, round to nearest,
ties to even.  The limits of the exponent range (overflow, subnormal
numbers) are not represented. -/
def to_double (v : ℚ) : ℚ :=
  if v = 0 then 0
  else (round_half_even (v / 2 ^ (Int.log 2 |v| - 52)) : ℚ) * 2 ^ (Int.log 2 |v| - 52)

/-- The fee of line 677:
`std::round(price_per_hour * parking_minutes / 60.0 * 100.0) / 100.0`, the
product, the quotient by `60.0` and the product by `100.0` each rounded to a
`double`; `price_per_hour` is the `double` read from the table or the cache.
The last quotient is written as the decimal it is the nearest `double` to. -/
def ticket_fee (price_per_hour : ℚ) (parking_minutes : Int) : ℚ :=
  c_round
    (to_double (to_double (to_double (to_double price_per_hour * parking_minutes) / 60) * 100))
    / 100

/-- The acknowledgement sent after a close. -/
def ok_closed : String := "OK CLOSED\n"

/-- The city code of lines 603-610: `0` unless `sql_find_city` yields a row.
With an infinity or a NaN (bound as NULL) among the two bound values no row
satisfies the WHERE clause. -/
def resolve_city (prices : List PriceRow) (x y : CDouble) : Int :=
  match x, y with
  | CDouble.fin a, CDouble.fin b => (sql_find_city prices a b).getD 0
  | _, _ => 0

/-- One pass of the inner loop of `Server::run_loop` for a received frame
(lines 590-697): the new database and the bytes sent on the connection.
`now` is the clock read by `utils::current_local_time`, `sql_now` the clock
read by the `sql_minutes` statement.  The rowid found is held in an `int`
(`int rowid = sqlite3_column_int(...)`). -/
def handle_frame (cache : PriceCache) (sql_now now : Timestamp) (db : Db)
    (f : DecodedFrame) : Db × String :=
  let x := f.cord_x.round3
  let y := f.cord_y.round3
  let customer_id := customer_id_of f.dev_id
  let city_code := resolve_city db.prices x y
  if f.status = 1 then
    match sql_check_open db.customer_data customer_id city_code x y with
    | some _ => (db, "")
    | none => (sql_insert_open db customer_id city_code x y now, "")
  else if f.status = 0 then
    match sql_find_open db.customer_data customer_id city_code x y with
    | some (id, created_at) =>
      let rowid := sqlite3_column_int id
      let parking_minutes := sql_minutes sql_now created_at
      let rate := price_per_hour cache db.prices city_code
      let fee := ticket_fee rate parking_minutes
      ({ db with
          customer_data := sql_update_close db.customer_data parking_minutes fee now rowid },
        ok_closed)
    | none => (db, "")
  else (db, "")

/-! ## Seeded catalog of `init_db_schema_and_seed` -/

/-- The array `cities` of `init_db_schema_and_seed` as rows of `prices`,
all stamped with the time `t` of the seeding. -/
def seed_prices (t : Timestamp) : List PriceRow :=
  [ ⟨"Rishon Lezion", 8300, 31962 / 1000, 34802 / 1000, 5, t⟩,
    ⟨"Tel Aviv", 5000, 32087 / 1000, 34789 / 1000, 5, t⟩,
    ⟨"Jerusalem", 3000, 31749 / 1000, 35170 / 1000, 7, t⟩,
    ⟨"Eilat", 2600, 29549 / 1000, 34954 / 1000, 10, t⟩,
    ⟨"Dimona", 2200, 31073 / 1000, 35044 / 1000, 6, t⟩,
    ⟨"Nahariyya", 9100, 32999 / 1000, 35091 / 1000, 9, t⟩,
    ⟨"Qiryat Shemona", 2800, 33174 / 1000, 35574 / 1000, 4, t⟩,
    ⟨"Hadera", 6500, 32422 / 1000, 34909 / 1000, 5, t⟩,
    ⟨"Rehovot", 8400, 31883 / 1000, 34794 / 1000, 8, t⟩,
    ⟨"Arad", 2560, 31255 / 1000, 35166 / 1000, 6, t⟩ ]

/-! ## Session key -/

/-- The WHERE clause of `sql_check_open` and `sql_find_open` as a proposition
on a row: `r` is an Open session for the key, that is, it has the given
`customer_id` and `city_code`, its `gps_lat` and `gps_lng` are each within
`0.0001` of `x` and `y`, and its `status` is 1. -/
def OpenKeyMatch (r : CustomerRow) (customer_id : String) (city_code : Int) (x y : CDouble) :
    Prop :=
  r.customer_id = customer_id ∧ r.city_code = city_code ∧ r.gps_lat.near x = true
    ∧ r.gps_lng.near y = true ∧ r.status = 1

/-! ## Sample data -/

/-- A closed session of device 1610 in Rishon Lezion (30 minutes, fee 2.50). -/
def sample_closed_row : CustomerRow :=
  { id := 1, customer_id := "1610", city_code := 8300, gps_lat := .fin (31962 / 1000),
    gps_lng := .fin (34802 / 1000), status := 0, parking_duration_minutes := 30,
    ticket_fee := 5 / 2, created_at := 1000, ended_at := some 1801000 }

/-- An open session of device 1610 in Rishon Lezion, begun at second 100. -/
def sample_open_row : CustomerRow :=
  open_row 2 "1610" 8300 (.fin (31962 / 1000)) (.fin (34802 / 1000)) 100000

/-- Seeded catalog and a ledger holding one closed session. -/
def sample_db_closed : Db := ⟨seed_prices 0, [sample_closed_row], 1⟩

/-- Seeded catalog and a ledger holding a closed and an open session. -/
def sample_db_open : Db := ⟨seed_prices 0, [sample_closed_row, sample_open_row], 2⟩

/-- Open frame of device 1610 at the Rishon Lezion entry. -/
def sample_open_frame : DecodedFrame := ⟨1610, .fin (31962 / 1000), .fin (34802 / 1000), 1⟩

/-- Close frame of device 1610 at the Rishon Lezion entry. -/
def sample_close_frame : DecodedFrame := ⟨1610, .fin (31962 / 1000), .fin (34802 / 1000), 0⟩

/-- An open session of device 7 at (0, 0), a place no catalog entry covers,
begun at time 0 with city code 0. -/
def sample_unmapped_db : Db := ⟨seed_prices 0, [open_row 1 "7" 0 (.fin 0) (.fin 0) 0], 1⟩

/-- Close frame of device 7 at (0, 0). -/
def sample_unmapped_close : DecodedFrame := ⟨7, .fin 0, .fin 0, 0⟩

/-- Open frame of device 1610 whose two coordinates are `+inf` (the 32-bit
pattern `0x7F800000`). -/
def sample_inf_open : DecodedFrame := ⟨1610, .pos_inf, .pos_inf, 1⟩

/-- Close frame of device 1610 with the same coordinates. -/
def sample_inf_close : DecodedFrame := ⟨1610, .pos_inf, .pos_inf, 0⟩

/-- Seeded catalog and a ledger whose only row is an Open session of device
1610 at the Rishon Lezion entry with rowid 2147483653 (above the range of an
`int`). -/
def sample_db_big_rowid : Db :=
  ⟨seed_prices 0,
    [open_row 2147483653 "1610" 8300 (.fin (31962 / 1000)) (.fin (34802 / 1000)) 100000],
    2147483653⟩

/-- Seeded catalog and a ledger holding the closed session of rowid 1 and an
Open session of device 1610 at the Rishon Lezion entry with rowid 4294967297
(`2^32 + 1`). -/
def sample_db_wrapped_rowid : Db :=
  ⟨seed_prices 0,
    [sample_closed_row,
      open_row 4294967297 "1610" 8300 (.fin (31962 / 1000)) (.fin (34802 / 1000)) 100000],
    4294967297⟩

/-! ## Ledger invariants and frame sequences -/

/-- Two rows are Open sessions of one key: both have `status = 1`, the same
`customer_id` and `city_code`, and `gps_lat`, `gps_lng` within `0.0001` of
each other by the test of the statements, `ABS(a - b) < 0.0001`, which no
infinity and no NULL passes. -/
def OpenConflict (a b : CustomerRow) : Prop :=
  a.status = 1 ∧ b.status = 1 ∧ a.customer_id = b.customer_id ∧ a.city_code = b.city_code
    ∧ a.gps_lat.near b.gps_lat = true ∧ a.gps_lng.near b.gps_lng = true

/-- No two rows of the table (at different positions) are Open sessions of
one key. -/
def SingleOpen (rows : List CustomerRow) : Prop :=
  rows.Pairwise (fun a b => ¬ OpenConflict a b)

/-- The coordinates of the row, where finite, are whole thousandths, as
`round3` produces. -/
def OnGrid (r : CustomerRow) : Prop :=
  (∀ a : ℚ, r.gps_lat = .fin a → ∃ k : Int, a = k / 1000)
    ∧ (∀ b : ℚ, r.gps_lng = .fin b → ∃ l : Int, b = l / 1000)

/-- One received frame together with what the server finds when it handles
it: the content of table `prices`, the price cache and the two clocks. -/
structure FrameEvent where
  prices : List PriceRow
  cache : PriceCache
  sql_now : Timestamp
  now : Timestamp
  frame : DecodedFrame

/-- The frames of a list handled one after the other by `handle_frame`, the
table `prices` being replaced by the event's content before each frame. -/
def run_frames (db : Db) : List FrameEvent → Db
  | [] => db
  | e :: es =>
    run_frames (handle_frame e.cache e.sql_now e.now { db with prices := e.prices } e.frame).1 es

/-- The tolerance windows of two catalog entries overlap: some pair of
coordinates is within `0.0001` of both entries on both axes. -/
def WindowsOverlap (p q : PriceRow) : Prop :=
  ∃ x y : ℚ, (|p.gps_lat - x| < 1 / 10000 ∧ |p.gps_lng - y| < 1 / 10000)
    ∧ (|q.gps_lat - x| < 1 / 10000 ∧ |q.gps_lng - y| < 1 / 10000)

/-- The invariant of the catalog: no two entries (at different positions of
the table) have overlapping tolerance windows. -/
def NoOverlap (prices : List PriceRow) : Prop :=
  prices.Pairwise (fun p q => ¬ WindowsOverlap p q)

/-! ## Wire frame

Both the relay (`i2c_daemon.c`) and the server run on little-endian hosts: a
16-bit or 32-bit value lies in memory lowest byte first, and `htons`, `ntohs`
and `ntohl` exchange the bytes of a value.  A byte is a natural number below
256, a `float` is its 32-bit pattern. -/

/-- The library function `htons` on a little-endian host. -/
def htons (v : Nat) : Nat := (v % 256) * 256 + v / 256 % 256

/-- The library function `ntohs` on a little-endian host. -/
def ntohs (v : Nat) : Nat := (v % 256) * 256 + v / 256 % 256

/-- The library function `ntohl` on a little-endian host. -/
def ntohl (v : Nat) : Nat :=
  (v % 256) * 16777216 + (v / 256 % 256) * 65536 + (v / 65536 % 256) * 256 + v / 16777216 % 256

/-- The function `float_from_big_endian` on bit patterns: the union reads the
float as a `uint32_t`, `ntohl` is applied to it, and the result is read back
as a float. -/
def float_from_big_endian (bits : Nat) : Nat := ntohl bits

/-- The two bytes of a 16-bit value in memory. -/
def le16 (v : Nat) : List Nat := [v % 256, v / 256 % 256]

/-- The four bytes of a 32-bit value in memory. -/
def le32 (v : Nat) : List Nat := [v % 256, v / 256 % 256, v / 65536 % 256, v / 16777216 % 256]

/-- The value whose bytes in memory are the given ones. -/
def of_le_bytes : List Nat → Nat
  | [] => 0
  | b :: bs => b + 256 * of_le_bytes bs

/-- The values `id`, `x`, `y`, `status` the relay holds after
`i2c_read_frame` (the two floats as bit patterns). -/
structure SensorReading where
  id : Nat
  x_bits : Nat
  y_bits : Nat
  status : Nat
deriving DecidableEq, Repr

/-- The 12 bytes of the packed `gps_frame` that `main` of `i2c_daemon.c`
fills (lines 139-142: `device_id = htons(id)`, `cord_x = x`, `cord_y = y`,
`status = htons(status)`) and writes to the pipe; the TCP client forwards
them unchanged. -/
def relay_encode (r : SensorReading) : List Nat :=
  le16 (htons r.id) ++ le32 r.x_bits ++ le32 r.y_bits ++ le16 (htons r.status)

/-- The fields the server takes out of the 12 bytes of `raw`, the
coordinates still as float bit patterns. -/
structure RawFields where
  dev_id : Nat
  x_bits : Nat
  y_bits : Nat
  status : Nat
deriving DecidableEq, Repr

/-- Lines 591-594 of `Server::run_loop` up to the float patterns:
`ntohs(raw.device_id)`, `ntohs(raw.status)` and `float_from_big_endian` of
`raw.cord_x`, `raw.cord_y`, the fields of the packed struct lying at offsets
0, 2, 6 and 10. -/
def server_decode (raw : List Nat) : RawFields :=
  { dev_id := ntohs (of_le_bytes (raw.take 2))
    x_bits := float_from_big_endian (of_le_bytes ((raw.drop 2).take 4))
    y_bits := float_from_big_endian (of_le_bytes ((raw.drop 6).take 4))
    status := ntohs (of_le_bytes ((raw.drop 10).take 2)) }

/-- The value of a `float` with the given 32-bit pattern (IEEE 754 binary32:
sign bit, 8 exponent bits, 23 fraction bits), as the `double` it converts to. -/
def float_of_bits (bits : Nat) : CDouble :=
  let negative := bits / 2147483648 % 2 = 1
  let exponent := bits / 8388608 % 256
  let fraction := bits % 8388608
  if exponent = 255 then
    if fraction = 0 then (if negative then CDouble.neg_inf else CDouble.pos_inf)
    else CDouble.nan
  else if exponent = 0 then
    CDouble.fin ((if negative then -1 else 1) * (fraction : ℚ) / 2 ^ 149)
  else
    CDouble.fin ((if negative then -1 else 1) * ((8388608 + fraction : Nat) : ℚ)
      * 2 ^ ((exponent : Int) - 150))

/-- The decoded frame handed to the session logic; `float_value` gives the
number a float bit pattern stands for. -/
def decode_frame (float_value : Nat → CDouble) (raw : List Nat) : DecodedFrame :=
  { dev_id := (server_decode raw).dev_id
    cord_x := float_value (server_decode raw).x_bits
    cord_y := float_value (server_decode raw).y_bits
    status := (server_decode raw).status }

/-! ## Shared price segment -/

/-- The constant `SHM_SIZE` of `server.cpp`: the bytes the server maps. -/
def SHM_SIZE : Nat := 1024

/-- The constant `SHM_SIZE` of `price_updater.cpp`: the bytes the updater
maps. -/
def UPDATER_SHM_SIZE : Nat := 2048

/-- The shared memory object `/prices_shm`: its length in bytes, the `size_t`
stored at offset 0, and the 12-byte records `(int code, double rate)` stored
from offset 8 on; the object holds zero bytes after the last listed record. -/
structure ShmSegment where
  size : Nat
  count : Nat
  records : List (Int × ℚ)
deriving DecidableEq, Repr

/-- Offset of record `i`: `sizeof(size_t) + i * (sizeof(int) + sizeof(double))`. -/
def record_offset (i : Nat) : Nat := 8 + 12 * i

/-- The pair copied out of record `i` by the two `memcpy` calls. -/
def read_record (seg : ShmSegment) (i : Nat) : Int × ℚ := seg.records.getD i (0, 0)

/-- The assignment `prices_cache[code] = price`. -/
def cache_assign (cache : PriceCache) (code : Int) (price : ℚ) : PriceCache :=
  (code, price) :: cache.filter (fun kv => !decide (kv.1 = code))

/-- The page size of the hosts. -/
def PAGE_SIZE : Nat := 4096

/-- A length rounded up to whole pages. -/
def page_ceil (n : Nat) : Nat := (n + (PAGE_SIZE - 1)) / PAGE_SIZE * PAGE_SIZE

/-- The bytes that can be read through a mapping of `length` bytes of an
object of `size` bytes: `mmap` maps whole pages, and the pages up to the one
holding the last byte of the object are accessible (beyond the end of the
object they hold zero bytes). -/
def readable_bytes (length size : Nat) : Nat := min (page_ceil length) (page_ceil size)

/-- The loop `for (size_t i = 0; i < count; i++)` of `load_prices_from_shm`
from index `i` on, `todo` iterations being left.  An iteration reads the 12
bytes of record `i`, which have to lie inside the `mapped` bytes that can be
read: a read outside them has no defined result (`none`). -/
def load_loop (seg : ShmSegment) (mapped : Nat) : Nat → Nat → PriceCache → Option PriceCache
  | 0, _, cache => some cache
  | todo + 1, i, cache =>
    if record_offset i + 12 ≤ mapped then
      load_loop seg mapped todo (i + 1)
        (cache_assign cache (read_record seg i).1 (read_record seg i).2)
    else none

/-- The function `load_prices_from_shm`: the segment afterwards and the new
`prices_cache`.  Without a segment (`shm_open` with `O_RDONLY` fails) one of
`SHM_SIZE` zero bytes is created, count 0 is written and the function
returns, the cache being left as it is.  Otherwise `SHM_SIZE` bytes are
mapped, the cache is cleared, the count is read and the records are loaded;
what can be read is the whole pages of the mapping, see `readable_bytes`. -/
def load_prices_from_shm (shm : Option ShmSegment) (cache : PriceCache) :
    Option (ShmSegment × PriceCache) :=
  match shm with
  | none => some (⟨SHM_SIZE, 0, []⟩, cache)
  | some seg =>
    if 8 ≤ readable_bytes SHM_SIZE seg.size then
      (load_loop seg (readable_bytes SHM_SIZE seg.size) seg.count 0 []).map (fun c => (seg, c))
    else none

/-- The function `write_prices_to_shm` of `price_updater.cpp`: the segment is
created if need be and set to 2048 bytes, `prices.size()` is stored at offset
0 and entry `i` of the map, in iteration order, in record `i`; records
beyond keep what the segment held.  A store beyond the 2048 bytes of the
object is not carried to the object and has no defined result (`none`). -/
def write_prices_to_shm (prices : PriceCache) (shm : Option ShmSegment) : Option ShmSegment :=
  if record_offset prices.length ≤ UPDATER_SHM_SIZE then
    some ⟨UPDATER_SHM_SIZE, prices.length,
      prices ++ ((shm.map (fun seg => seg.records)).getD []).drop prices.length⟩
  else none

/-- The first `count` records of the segment, as read. -/
def segment_records (seg : ShmSegment) : List (Int × ℚ) :=
  (List.range seg.count).map (read_record seg)

/-! ## Re-sync from the snapshot file and reload -/

/-- A line of `prices.txt` as `ss >> code >> comma >> price` reads it: `none`
for an empty line and for a line on which the extraction fails. -/
abbrev SnapshotLine := Option (Int × ℚ)

/-- Statement `UPDATE prices SET price_per_hour=?1 WHERE city_code=?2`. -/
def sql_update_price (prices : List PriceRow) (price : ℚ) (code : Int) : List PriceRow :=
  prices.map (fun p => if p.city_code = code then { p with price_per_hour := price } else p)

/-- The value of `sqlite3_changes` after that UPDATE: the rows it changed. -/
def update_changes (prices : List PriceRow) (code : Int) : Nat :=
  (prices.filter (fun p => decide (p.city_code = code))).length

/-- Statement `INSERT INTO prices(city_code, price_per_hour) VALUES(?1, ?2)`.
It gives no value to column `city`, which the schema of
`init_db_schema_and_seed` declares `TEXT NOT NULL`: the step fails on the
constraint (the failure is logged) and the table is left as it is. -/
def sql_insert_price (prices : List PriceRow) (_code : Int) (_price : ℚ) : List PriceRow :=
  prices

/-- The body of the `while(std::getline(f, line))` loop of
`update_db_from_prices_file` on table `prices` and the cache. -/
def sync_line (st : List PriceRow × PriceCache) (line : SnapshotLine) :
    List PriceRow × PriceCache :=
  match line with
  | none => st
  | some (code, price) =>
    let updated := sql_update_price st.1 price code
    let table := if update_changes st.1 code = 0 then sql_insert_price updated code price
      else updated
    (table, cache_assign st.2 code price)

/-- The function `update_db_from_prices_file`; `file` is `none` when
`prices.txt` cannot be opened. -/
def update_db_from_prices_file (file : Option (List SnapshotLine)) (db : Db)
    (cache : PriceCache) : Db × PriceCache :=
  match file with
  | none => (db, cache)
  | some lines =>
    ({ db with prices := (lines.foldl sync_line (db.prices, cache)).1 },
      (lines.foldl sync_line (db.prices, cache)).2)

/-- The state a reload works on: the database, `prices_cache` and the shared
segment (`none` when it does not exist). -/
structure ServerState where
  db : Db
  prices_cache : PriceCache
  shm : Option ShmSegment
deriving DecidableEq, Repr

/-- The reload of `Server::run_loop` (lines 508-514, again 554-560 and
572-578): `update_db_from_prices_file(db_.db, prices_cache)` followed by
`load_prices_from_shm()`. -/
def reload (file : Option (List SnapshotLine)) (s : ServerState) : Option ServerState :=
  (load_prices_from_shm s.shm (update_db_from_prices_file file s.db s.prices_cache).2).map
    (fun r =>
      { db := (update_db_from_prices_file file s.db s.prices_cache).1
        prices_cache := r.2
        shm := some r.1 })

/-! ## Receiving a frame -/

/-- What a `recv` call may meet apart from the state of the socket. -/
inductive RecvFault
  | no_fault
  | eintr
  | failed
deriving DecidableEq, Repr

/-- What one pass of the loop `while(got < n)` of `read_n_nonblocking` meets:
the two flags at the top of the pass, the bytes that reached the socket and
whether the peer closed before the `recv`, a fault of the `recv`, and whether
`need_update_prices()` was seen set in the five checks after `EAGAIN`. -/
structure Pass where
  stop : Bool
  update : Bool
  arrive : List Nat
  peer_closes : Bool
  fault : RecvFault
  update_in_spin : Bool
deriving DecidableEq, Repr

/-- The receiving side of the connection: bytes received by the host and not
yet read, and whether the peer has closed. -/
structure Socket where
  inbuf : List Nat
  closed : Bool
deriving DecidableEq, Repr

/-- The function `read_n_nonblocking`: the return value, the bytes stored at
the start of `buf`, the socket and the passes left, or `none` while the call
is still waiting at the end of the listed passes. -/
def read_n_nonblocking (n : Nat) :
    List Pass → Socket → List Nat → Option (Int × List Nat × Socket × List Pass)
  | [], sock, got => if got.length < n then none else some (got.length, got, sock, [])
  | p :: ps, sock, got =>
    if got.length < n then
      let inbuf := sock.inbuf ++ p.arrive
      let closed := sock.closed || p.peer_closes
      if p.stop then some (-1, got, ⟨inbuf, closed⟩, ps)
      else if p.update then some (-2, got, ⟨inbuf, closed⟩, ps)
      else
        match p.fault with
        | RecvFault.eintr => read_n_nonblocking n ps ⟨inbuf, closed⟩ got
        | RecvFault.failed => some (-1, got, ⟨inbuf, closed⟩, ps)
        | RecvFault.no_fault =>
          if inbuf.isEmpty then
            if closed then some (got.length, got, ⟨inbuf, closed⟩, ps)
            else if p.update_in_spin then some (-2, got, ⟨inbuf, closed⟩, ps)
            else read_n_nonblocking n ps ⟨inbuf, closed⟩ got
          else
            read_n_nonblocking n ps ⟨inbuf.drop (n - got.length), closed⟩
              (got ++ inbuf.take (n - got.length))
    else some (got.length, got, sock, p :: ps)

/-- The 12 bytes of the local `gps_frame raw` after the call: the bytes
received, then what the uninitialised buffer held before. -/
def raw_after (stale got : List Nat) : List Nat := got ++ stale.drop got.length

/-- What the inner loop of `Server::run_loop` does with the value `n`
returned by `read_n_nonblocking` (lines 572-697): the new state, the bytes
sent and whether the client loop goes on.  `-2` reloads and continues,
another `n <= 0` leaves the loop, every other value decodes `raw` and handles
the frame.  The result is `none` when the reload has none. -/
def after_read (float_value : Nat → CDouble) (file : Option (List SnapshotLine))
    (sql_now now : Timestamp) (stale : List Nat) (s : ServerState) (n : Int)
    (got : List Nat) : Option (ServerState × String × Bool) :=
  if n = -2 then (reload file s).map (fun s1 => (s1, "", true))
  else if n ≤ 0 then some (s, "", false)
  else
    some
      ({ s with
          db := (handle_frame s.prices_cache sql_now now s.db
            (decode_frame float_value (raw_after stale got))).1 },
        (handle_frame s.prices_cache sql_now now s.db
          (decode_frame float_value (raw_after stale got))).2,
        true)

/-! ## Sample frames, segments and reads -/

/-- The reading of device 1610 at (31.962, 34.802) with status 1, the floats
as the bit patterns `0x41FFB22D` and `0x420B353F`. -/
def sample_reading : SensorReading := ⟨1610, 1107276333, 1108030783, 1⟩

/-- A segment of the updater holding the single record `(8300, 6.0)`. -/
def sample_segment : ShmSegment := ⟨2048, 1, [(8300, 6)]⟩

/-- A map of 85 codes, 0 to 84, each with rate 1.0. -/
def sample_map_85 : PriceCache :=
  (List.range 85).map (fun (i : Nat) => ((i : Int), (1 : ℚ)))

/-- A pass in which five bytes, the start of a frame of device 1610, reach
the socket. -/
def sample_short_pass : Pass := ⟨false, false, [6, 74, 0, 0, 0], false, RecvFault.no_fault, false⟩

/-- A pass in which the peer closes the connection. -/
def sample_close_pass : Pass := ⟨false, false, [], true, RecvFault.no_fault, false⟩

/-- A content of the 12 bytes of `raw` before the call whose last two bytes
are those of status 1. -/
def sample_stale_raw : List Nat := [0, 0, 0, 0, 0, 0, 0, 0, 0, 0, 0, 1]

/-- A server with an empty database, an empty cache and no segment. -/
def sample_empty_server : ServerState := ⟨⟨[], [], 0⟩, [], none⟩

/-- A server with the seeded catalog, a cache holding 5.0 for code 5000 and
no shared segment. -/
def sample_server_no_shm : ServerState := ⟨⟨seed_prices 0, [], 0⟩, [(5000, 5)], none⟩

/-! ## Schema creation and seeding in `utils::init_db_schema_and_seed` -/

/-- An element of the array `cities` of `init_db_schema_and_seed`. -/
structure City where
  name : String
  code : Int
  lat : ℚ
  lng : ℚ
  price : ℚ
deriving DecidableEq, Repr

/-- The array `cities` (utils.cpp lines 230-241). -/
def cities : List City :=
  [ ⟨"Rishon Lezion", 8300, 31962 / 1000, 34802 / 1000, 5⟩,
    ⟨"Tel Aviv", 5000, 32087 / 1000, 34789 / 1000, 5⟩,
    ⟨"Jerusalem", 3000, 31749 / 1000, 35170 / 1000, 7⟩,
    ⟨"Eilat", 2600, 29549 / 1000, 34954 / 1000, 10⟩,
    ⟨"Dimona", 2200, 31073 / 1000, 35044 / 1000, 6⟩,
    ⟨"Nahariyya", 9100, 32999 / 1000, 35091 / 1000, 9⟩,
    ⟨"Qiryat Shemona", 2800, 33174 / 1000, 35574 / 1000, 4⟩,
    ⟨"Hadera", 6500, 32422 / 1000, 34909 / 1000, 5⟩,
    ⟨"Rehovot", 8400, 31883 / 1000, 34794 / 1000, 8⟩,
    ⟨"Arad", 2560, 31255 / 1000, 35166 / 1000, 6⟩ ]

/-- Statement `find_sql`: `SELECT COUNT(*) FROM prices WHERE ABS(gps_lat - ?1)
< 0.0001 AND ABS(gps_lng - ?2) < 0.0001`. -/
def seed_count (prices : List PriceRow) (lat lng : ℚ) : Nat :=
  (prices.filter (fun p => near p.gps_lat lat && near p.gps_lng lng)).length

/-- Statement `insert_sql`: `INSERT INTO prices (city, city_code, gps_lat,
gps_lng, price_per_hour, created_at) VALUES (?1, ?2, ?3, ?4, ?5, ?6)` with
the fields of a city and the time read by `current_local_time`. -/
def seed_insert (prices : List PriceRow) (c : City) (now : Timestamp) : List PriceRow :=
  prices ++ [⟨c.name, c.code, c.lat, c.lng, c.price, now⟩]

/-- The loop `for(size_t i = 0; i < 10; ++i)` of `init_db_schema_and_seed`
from index `i` on: a city is inserted when the count of rows near its
coordinates is 0.  `clock i` is the local time read in iteration `i`. -/
def seed_loop (clock : Nat → Timestamp) : Nat → List City → List PriceRow → List PriceRow
  | _, [], prices => prices
  | i, c :: cs, prices =>
    seed_loop clock (i + 1) cs
      (if seed_count prices c.lat c.lng = 0 then seed_insert prices c (clock i) else prices)

/-- The function `init_db_schema_and_seed`: both `CREATE TABLE IF NOT EXISTS`
statements leave existing tables as they are (a table that does not exist
yet is the empty list), then the catalog is seeded. -/
def init_db_schema_and_seed (clock : Nat → Timestamp) (db : Db) : Db :=
  { db with prices := seed_loop clock 0 cities db.prices }

/-! ## Signal flags of `SignalHandlerRAII::SigGuard` -/

/-- Signal number `SIGHUP`. -/
def SIGHUP : Int := 1

/-- Signal number `SIGINT`. -/
def SIGINT : Int := 2

/-- Signal number `SIGQUIT`. -/
def SIGQUIT : Int := 3

/-- Signal number `SIGTERM`. -/
def SIGTERM : Int := 15

/-- The three static flags of `SigGuard`. -/
structure SigGuard where
  stop : Bool
  sig_received : Int
  update_prices : Bool
deriving DecidableEq, Repr

/-- The handler `SigGuard::handle(int sig)` as a change of the three flags. -/
def SigGuard.handle (sig : Int) (g : SigGuard) : SigGuard :=
  if sig = SIGHUP then { g with update_prices := true }
  else { g with stop := true, sig_received := sig }

/-- Seeded catalog and a ledger holding two Open sessions of device 1610 at
the Rishon Lezion entry, begun at seconds 100 and 200. -/
def sample_db_two_open : Db :=
  ⟨seed_prices 0,
    [sample_open_row, open_row 3 "1610" 8300 (.fin (31962 / 1000)) (.fin (34802 / 1000)) 200000], 3⟩

/-! ## The frames of a connection -/

/-- The inner client loop of `Server::run_loop` (lines 548-697) seen from the
byte stream: the contents of `raw` that are decoded as frames, in order.
Every iteration calls `read_n_nonblocking(fd, &raw, sizeof(raw))`, which
starts with `got = 0`; on `-2` the loop reloads the prices and continues, on
another `n <= 0` it ends, otherwise `raw` is decoded.  `stale` is what the
bytes of `raw` hold before the call.  The tests of `stop` and of
`need_update_prices()` at the head of the loop body are followed by the same
tests at the top of `read_n_nonblocking`, before any byte is received; they
are the `stop` and `update` of the first pass of the call.  The list ends
where the passes end (the call is still waiting).  The first argument bounds
the iterations; a call uses up at least one pass, so one more than the number
of passes is enough. -/
def client_frames : Nat → List Pass → Socket → List Nat → List (List Nat)
  | 0, _, _, _ => []
  | fuel + 1, passes, sock, stale =>
    match read_n_nonblocking 12 passes sock [] with
    | none => []
    | some (n, got, sock1, rest) =>
      if n = -2 then client_frames fuel rest sock1 (raw_after stale got)
      else if n ≤ 0 then []
      else raw_after stale got :: client_frames fuel rest sock1 (raw_after stale got)

/-- The frames decoded on a connection for the given passes. -/
def run_loop_frames (passes : List Pass) (sock : Socket) (stale : List Nat) : List (List Nat) :=
  client_frames (passes.length + 1) passes sock stale

/-- The close of the session of `sample_reading`: same device and place,
status 0. -/
def sample_reading_close : SensorReading := ⟨1610, 1107276333, 1108030783, 0⟩

/-- The 24 bytes of an open frame followed by a close frame of device 1610. -/
def sample_stream : List Nat := relay_encode sample_reading ++ relay_encode sample_reading_close

/-- The first five bytes of the stream arrive; then a reload request is seen
at the top of the next pass; then the other 19 bytes arrive. -/
def sample_reload_passes : List Pass :=
  [ ⟨false, false, sample_stream.take 5, false, RecvFault.no_fault, false⟩,
    ⟨false, true, [], false, RecvFault.no_fault, false⟩,
    ⟨false, false, sample_stream.drop 5, false, RecvFault.no_fault, false⟩ ]

/-- The same arrivals without the reload request. -/
def sample_plain_passes : List Pass :=
  [ ⟨false, false, sample_stream.take 5, false, RecvFault.no_fault, false⟩,
    ⟨false, false, sample_stream.drop 5, false, RecvFault.no_fault, false⟩ ]

/-- The bytes that reach the socket during the listed passes, in order. -/
def arrivals (passes : List Pass) : List Nat :=
  passes.foldr (fun p acc => p.arrive ++ acc) []

/-- A pass in which nothing but the arrival of bytes happens: no stop and no
reload request is seen, the peer does not close and `recv` does not fail
(an interrupted `recv` is allowed). -/
def QuietPass (p : Pass) : Prop :=
  p.stop = false ∧ p.update = false ∧ p.update_in_spin = false ∧ p.peer_closes = false
    ∧ p.fault ≠ RecvFault.failed

/-! ## Reads of the shared segment -/

/-- The reads of `load_prices_from_shm` from the mapping for a stored count,
each as offset and length: the `memcpy` of the `size_t` at offset 0, then for
every `i < count` the `memcpy` of the `int` at `p` and of the `double` at
`p + 4`, `p` starting at offset 8 and advancing by 12 per record. -/
def load_reads : Nat → List (Nat × Nat)
  | 0 => [(0, 8)]
  | count + 1 => load_reads count ++ [(record_offset count, 4), (record_offset count + 4, 8)]

/-! ## Sensor bus: the generator (`my_main.c`) and `i2c_read_frame`

The STM32 generator and the BeagleBone relay are little-endian hosts. -/

/-- The 12 bytes `memcpy(data_arry, &data, sizeof(gps_frame))` copies out of
the packed struct: `device_id`, `cord_x`, `cord_y`, `status`, each lowest
byte first. -/
def gps_frame_bytes (r : SensorReading) : List Nat :=
  le16 r.id ++ le32 r.x_bits ++ le32 r.y_bits ++ le16 r.status

/-- The function `SwapEndian(data, length)`: for `i` from 0 up to
`length / 2`, `data[i]` and `data[length - i - 1]` are exchanged. -/
def SwapEndian (data : List Nat) (length : Nat) : List Nat :=
  (List.range (length / 2)).foldl
    (fun d i => (d.set i (d.getD (length - i - 1) 0)).set (length - i - 1) (d.getD i 0)) data

/-- The bytes the generator hands to `I2C2_Send_Data` (lines 22-26 of
`my_main.c`). -/
def generator_send (r : SensorReading) : List Nat := SwapEndian (gps_frame_bytes r) 12

/-- The function `swap16`: `(v >> 8) | (v << 8)` converted to `uint16_t`. -/
def swap16 (v : Nat) : Nat := ((v >>> 8) ||| (v <<< 8)) % 65536

/-- The function `swap_float` on bit patterns: the float whose bytes in
memory are `b[3]`, `b[2]`, `b[1]`, `b[0]`. -/
def swap_float (b : List Nat) : Nat :=
  of_le_bytes [b.getD 3 0, b.getD 2 0, b.getD 1 0, b.getD 0 0]

/-- The function `i2c_read_frame` on the bytes `read` delivered: `none`
stands for the return value -1 (fewer than 12 bytes), otherwise the four
values stored through the pointers. -/
def i2c_read_frame (raw : List Nat) : Option SensorReading :=
  if raw.length ≠ 12 then none
  else
    some
      { status := swap16 (of_le_bytes (raw.take 2))
        y_bits := swap_float (raw.drop 2)
        x_bits := swap_float (raw.drop 6)
        id := swap16 (of_le_bytes ((raw.drop 10).take 2)) }

/-! ## The JSON helper `utils::json_get_string`

A C string is the list of its characters before the terminating NUL; reading
at the end of the list yields NUL.  The output buffer is seen through the
stores made to it: index and character, in program order. -/

/-- The terminating character of a C string. -/
def NUL : Char := Char.ofNat 0

/-- The function `skip_ws`: the string from its first character that is not
a blank, a tab, a line feed or a carriage return. -/
def skip_ws : List Char → List Char
  | [] => []
  | c :: s =>
    if c = ' ' ∨ c = '\t' ∨ c = '\n' ∨ c = '\r' then skip_ws s else c :: s

/-- The library function `strstr`: the rest of `hay` from the first
occurrence of `pat` on, `none` for a null pointer. -/
def strstr : List Char → List Char → Option (List Char)
  | [], pat => if pat.isEmpty then some [] else none
  | c :: hay, pat =>
    if pat.isPrefixOf (c :: hay) then some (c :: hay) else strstr hay pat

/-- The library function `strchr` for a character other than NUL: the rest
of `s` from the first occurrence of `c` on, `none` for a null pointer. -/
def strchr : List Char → Char → Option (List Char)
  | [], _ => none
  | d :: s, c => if d = c then some (d :: s) else strchr s c

/-- The buffer `pat` after `snprintf(pat, sizeof(pat), "\"%s\"", key)`: the
key between two double quotes, cut to the 127 characters that fit before the
NUL in `char pat[128]`. -/
def key_pattern (key : List Char) : List Char :=
  (['"'] ++ key ++ ['"']).take 127

/-- The function `find_key`: the text after the first `':'` that follows the
first occurrence of the pattern, `none` for `nullptr`. -/
def find_key (json key : List Char) : Option (List Char) :=
  match strstr json (key_pattern key) with
  | none => none
  | some p =>
    match strchr (p.drop (key_pattern key).length) ':' with
    | none => none
    | some q => some (q.drop 1)

/-- The loop `while (*p && *p != '"' && i + 1 < out_sz) out[i++] = *p++` of
`json_get_string`: the text left at `p`, the index `i` and the stores made,
appended to `stores`. -/
def copy_value : List Char → Nat → Nat → List (Nat × Char) → List Char × Nat × List (Nat × Char)
  | [], i, _, stores => ([], i, stores)
  | c :: p, i, out_sz, stores =>
    if c ≠ NUL ∧ c ≠ '"' ∧ i + 1 < out_sz then copy_value p (i + 1) out_sz (stores ++ [(i, c)])
    else (c :: p, i, stores)

/-- The function `json_get_string`: the value returned and the stores made
to `out`, each as index and character. -/
def json_get_string (json key : List Char) (out_sz : Nat) : Bool × List (Nat × Char) :=
  match find_key json key with
  | none => (false, [])
  | some p =>
    match skip_ws p with
    | [] => (false, [])
    | c :: v =>
      if c ≠ '"' then (false, [])
      else
        match copy_value v 0 out_sz [] with
        | (rest, i, stores) =>
          if rest.head? ≠ some '"' then (false, stores)
          else (true, stores ++ [(i, NUL)])

/-- The JSON text of a single member `k` whose value is the empty string. -/
def sample_json_empty_value : List Char := "\x7b\"k\":\"\"\x7d".toList

/-- The 12 bytes of a frame of device 1610 whose status field is 2. -/
def sample_other_raw : List Nat := [6, 74, 0, 0, 0, 0, 0, 0, 0, 0, 0, 2]

/-! ## Lemmas on the prepared statements -/

theorem near_iff (col v : ℚ) : near col v = true ↔ |col - v| < 1 / 10000 := by
  simp [near]

theorem near_self (v : ℚ) : near v v = true := by
  simp [near]

theorem near_fin (col v : ℚ) : (CDouble.fin col).near (CDouble.fin v) = near col v := rfl

theorem near_fin_iff (col v : ℚ) :
    (CDouble.fin col).near (CDouble.fin v) = true ↔ |col - v| < 1 / 10000 := by
  rw [near_fin, near_iff]

theorem near_eq_true_iff (a b : CDouble) :
    a.near b = true ↔ ∃ p q : ℚ, a = .fin p ∧ b = .fin q ∧ |p - q| < 1 / 10000 := by
  cases a <;> cases b <;> simp [CDouble.near, near]

theorem near_left_finite (a b : CDouble) (h : a.near b = true) : ∃ p : ℚ, a = .fin p := by
  obtain ⟨p, _, hp, _, _⟩ := (near_eq_true_iff a b).mp h
  exact ⟨p, hp⟩

theorem near_right_finite (a b : CDouble) (h : a.near b = true) : ∃ q : ℚ, b = .fin q := by
  obtain ⟨_, q, _, hq, _⟩ := (near_eq_true_iff a b).mp h
  exact ⟨q, hq⟩

theorem round3_fin (q : ℚ) : (CDouble.fin q).round3 = .fin (round3 q) := rfl

theorem round3_finite_iff (v : CDouble) (a : ℚ) :
    v.round3 = .fin a ↔ ∃ q : ℚ, v = .fin q ∧ round3 q = a := by
  cases v <;> simp [CDouble.round3]

theorem resolve_city_fin (prices : List PriceRow) (a b : ℚ) :
    resolve_city prices (.fin a) (.fin b) = (sql_find_city prices a b).getD 0 := rfl

theorem sqlite3_column_int_small (id : Nat) (h : id < 2147483648) :
    sqlite3_column_int id = id := by
  unfold sqlite3_column_int
  omega

theorem open_where_iff (customer_id : String) (city_code : Int) (x y : CDouble)
    (r : CustomerRow) :
    open_where customer_id city_code x y r = true ↔
      (r.customer_id = customer_id ∧ r.city_code = city_code ∧ r.gps_lat.near x = true
        ∧ r.gps_lng.near y = true ∧ r.status = 1) := by
  simp [open_where, and_assoc]

theorem openKeyMatch_iff (r : CustomerRow) (customer_id : String) (city_code : Int)
    (x y : CDouble) :
    OpenKeyMatch r customer_id city_code x y ↔
      open_where customer_id city_code x y r = true := by
  simp [OpenKeyMatch, open_where, and_assoc]

theorem not_openKeyMatch_iff (r : CustomerRow) (customer_id : String) (city_code : Int)
    (x y : CDouble) :
    ¬ OpenKeyMatch r customer_id city_code x y ↔
      open_where customer_id city_code x y r = false := by
  rw [openKeyMatch_iff]; simp

theorem open_where_open_row (id : Nat) (customer_id : String) (city_code : Int) (a b : ℚ)
    (now : Timestamp) :
    open_where customer_id city_code (.fin a) (.fin b)
      (open_row id customer_id city_code (.fin a) (.fin b) now) = true := by
  simp [open_where, open_row, near_fin, near_self]

theorem open_where_nonfinite (customer_id : String) (city_code : Int) (x y : CDouble)
    (r : CustomerRow) (h : (∀ a : ℚ, x ≠ .fin a) ∨ (∀ b : ℚ, y ≠ .fin b)) :
    open_where customer_id city_code x y r = false := by
  rw [← Bool.not_eq_true, open_where_iff]
  rintro ⟨_, _, h1, h2, _⟩
  rcases h with h | h
  · obtain ⟨q, hq⟩ := near_right_finite _ _ h1
    exact h q hq
  · obtain ⟨q, hq⟩ := near_right_finite _ _ h2
    exact h q hq

theorem latest_eq_none_iff (l : List CustomerRow) : latest l = none ↔ l = [] := by
  cases l with
  | nil => simp [latest]
  | cons r rs =>
    simp only [latest]
    cases latest rs with
    | none => simp
    | some b => by_cases h : r.created_at < b.created_at <;> simp [h]

theorem latest_mem (l : List CustomerRow) (r : CustomerRow) (h : latest l = some r) : r ∈ l := by
  induction l generalizing r with
  | nil => simp [latest] at h
  | cons a rs ih =>
    simp only [latest] at h
    cases hl : latest rs with
    | none =>
      rw [hl] at h
      simp only [Option.some.injEq] at h
      simp [h]
    | some b =>
      rw [hl] at h
      by_cases hc : a.created_at < b.created_at
      · simp only [hc, if_true, Option.some.injEq] at h
        subst h
        exact List.mem_cons_of_mem _ (ih b hl)
      · simp only [hc, if_false, Option.some.injEq] at h
        simp [h]

theorem latest_singleton (r : CustomerRow) : latest [r] = some r := by
  simp [latest]

theorem sql_check_open_eq_none_iff (rows : List CustomerRow) (customer_id : String)
    (city_code : Int) (x y : CDouble) :
    sql_check_open rows customer_id city_code x y = none ↔
      ∀ r ∈ rows, open_where customer_id city_code x y r = false := by
  simp [sql_check_open, List.find?_eq_none]

theorem sql_find_open_eq_none_iff (rows : List CustomerRow) (customer_id : String)
    (city_code : Int) (x y : CDouble) :
    sql_find_open rows customer_id city_code x y = none ↔
      ∀ r ∈ rows, open_where customer_id city_code x y r = false := by
  simp [sql_find_open, latest_eq_none_iff, List.filter_eq_nil_iff]

theorem sql_find_open_some (rows : List CustomerRow) (customer_id : String)
    (city_code : Int) (x y : CDouble) (rowid : Nat) (created_at : Timestamp)
    (h : sql_find_open rows customer_id city_code x y = some (rowid, created_at)) :
    ∃ r ∈ rows, open_where customer_id city_code x y r = true ∧ r.id = rowid
      ∧ r.created_at = created_at := by
  unfold sql_find_open at h
  cases hl : latest (rows.filter (open_where customer_id city_code x y)) with
  | none => rw [hl] at h; simp at h
  | some r =>
    rw [hl] at h
    simp only [Option.map_some', Option.some.injEq, Prod.mk.injEq] at h
    have hm := latest_mem _ _ hl
    rw [List.mem_filter] at hm
    exact ⟨r, hm.1, hm.2, h.1, h.2⟩

theorem sql_find_open_append_fresh (rows : List CustomerRow) (customer_id : String)
    (city_code : Int) (a b : ℚ) (id : Nat) (now : Timestamp)
    (h : ∀ r ∈ rows, open_where customer_id city_code (.fin a) (.fin b) r = false) :
    sql_find_open (rows ++ [open_row id customer_id city_code (.fin a) (.fin b) now])
        customer_id city_code (.fin a) (.fin b)
      = some (id, now) := by
  have hf : rows.filter (open_where customer_id city_code (.fin a) (.fin b)) = [] := by
    rw [List.filter_eq_nil_iff]
    intro r hr
    simp [h r hr]
  have hs : [open_row id customer_id city_code (.fin a) (.fin b) now].filter
      (open_where customer_id city_code (.fin a) (.fin b))
      = [open_row id customer_id city_code (.fin a) (.fin b) now] := by
    simp [open_where_open_row]
  unfold sql_find_open
  rw [List.filter_append, hf, hs, List.nil_append, latest_singleton]
  rfl

theorem le_max_rowid (rows : List CustomerRow) (r : CustomerRow) (h : r ∈ rows) :
    r.id ≤ max_rowid rows := by
  induction rows with
  | nil => simp at h
  | cons a rs ih =>
    simp only [max_rowid, List.map_cons, List.foldr_cons]
    rcases List.mem_cons.mp h with h | h
    · subst h; exact le_max_left _ _
    · exact le_trans (ih h) (le_max_right _ _)

theorem id_lt_next_rowid (db : Db) (r : CustomerRow) (h : r ∈ db.customer_data) :
    r.id < next_rowid db := by
  have := le_max_rowid _ _ h
  unfold next_rowid
  omega

theorem sql_update_close_fresh (rows : List CustomerRow) (minutes : Int) (fee : ℚ)
    (ended_at : Timestamp) (rowid : Int) (h : ∀ r ∈ rows, (r.id : Int) ≠ rowid) :
    sql_update_close rows minutes fee ended_at rowid = rows := by
  unfold sql_update_close
  conv_rhs => rw [← List.map_id rows]
  apply List.map_congr_left
  intro r hr
  simp [h r hr]

theorem sql_update_close_append_fresh (rows : List CustomerRow) (r : CustomerRow)
    (minutes : Int) (fee : ℚ) (ended_at : Timestamp) (h : ∀ q ∈ rows, q.id ≠ r.id) :
    sql_update_close (rows ++ [r]) minutes fee ended_at r.id
      = rows ++ [close_row r minutes fee ended_at] := by
  have h1 := sql_update_close_fresh rows minutes fee ended_at r.id
    (fun q hq => by exact_mod_cast h q hq)
  unfold sql_update_close at h1 ⊢
  rw [List.map_append, h1]
  simp

theorem sql_update_close_closed (rows : List CustomerRow) (minutes : Int) (fee : ℚ)
    (ended_at : Timestamp) (rowid : Int) (q : CustomerRow)
    (hq : q ∈ sql_update_close rows minutes fee ended_at rowid) (hid : (q.id : Int) = rowid) :
    q.status = 0 ∧ q.parking_duration_minutes = minutes ∧ q.ticket_fee = fee := by
  unfold sql_update_close at hq
  rw [List.mem_map] at hq
  obtain ⟨q0, _, hq0⟩ := hq
  by_cases h : (q0.id : Int) = rowid
  · rw [if_pos h] at hq0
    subst hq0
    simp [close_row]
  · rw [if_neg h] at hq0
    subst hq0
    exact absurd hid h

theorem sql_price_eq_none_iff (prices : List PriceRow) (city_code : Int) :
    sql_price prices city_code = none ↔ ∀ p ∈ prices, p.city_code ≠ city_code := by
  simp [sql_price, List.find?_eq_none]

theorem sql_price_some (prices : List PriceRow) (city_code : Int) (v : ℚ)
    (h : sql_price prices city_code = some v) :
    ∃ p ∈ prices, p.city_code = city_code ∧ p.price_per_hour = v := by
  unfold sql_price at h
  cases hf : prices.find? (fun p => decide (p.city_code = city_code)) with
  | none => rw [hf] at h; simp at h
  | some p =>
    rw [hf] at h
    simp only [Option.map_some', Option.some.injEq] at h
    have hm := List.mem_of_find?_eq_some hf
    have hp := List.find?_some hf
    exact ⟨p, hm, by simpa using hp, h⟩

theorem resolve_city_cases (prices : List PriceRow) (x y : ℚ) :
    (∃ p ∈ prices, |p.gps_lat - x| < 1 / 10000 ∧ |p.gps_lng - y| < 1 / 10000
        ∧ resolve_city prices (.fin x) (.fin y) = p.city_code)
    ∨ ((∀ p ∈ prices, ¬ (|p.gps_lat - x| < 1 / 10000 ∧ |p.gps_lng - y| < 1 / 10000))
        ∧ resolve_city prices (.fin x) (.fin y) = 0) := by
  rw [resolve_city_fin]
  unfold sql_find_city
  cases hf : prices.find? (fun p => near p.gps_lat x && near p.gps_lng y) with
  | none =>
    right
    rw [List.find?_eq_none] at hf
    refine ⟨fun p hp hc => hf p hp ?_, rfl⟩
    rw [Bool.and_eq_true, near_iff, near_iff]
    exact hc
  | some p =>
    left
    have hm := List.mem_of_find?_eq_some hf
    have hp := List.find?_some hf
    simp only [Bool.and_eq_true, near_iff] at hp
    exact ⟨p, hm, hp.1, hp.2, rfl⟩

/-! ## Rounding and elapsed time -/

theorem c_round_int (v : ℚ) : ∃ k : Int, c_round v = k := by
  unfold c_round
  split_ifs
  · exact ⟨_, rfl⟩
  · exact ⟨-⌊-v + 1 / 2⌋, by push_cast; rfl⟩

theorem round_half_even_eq (v : ℚ) (m : Int) (h1 : -(1 / 2) < v - m) (h2 : v - m < 1 / 2) :
    round_half_even v = m := by
  unfold round_half_even
  by_cases hc : (m : ℚ) ≤ v
  · have hf : ⌊v⌋ = m := by
      rw [Int.floor_eq_iff]; constructor
      · exact hc
      · linarith
    rw [hf, if_pos (by linarith)]
  · have hf : ⌊v⌋ = m - 1 := by
      rw [Int.floor_eq_iff]; push_cast; constructor
      · linarith
      · push_neg at hc; linarith
    rw [hf]
    push_cast
    rw [if_neg (by linarith), if_pos (by linarith)]
    ring

theorem to_double_eq (v : ℚ) (e m : Int) (h1 : (2 : ℚ) ^ e ≤ v) (h2 : v < (2 : ℚ) ^ (e + 1))
    (h3 : -(1 / 2) < v / 2 ^ (e - 52) - m) (h4 : v / 2 ^ (e - 52) - m < 1 / 2) :
    to_double v = m * 2 ^ (e - 52) := by
  have hpos : 0 < v := lt_of_lt_of_le (by positivity) h1
  have habs : |v| = v := abs_of_pos hpos
  have hlog : Int.log 2 |v| = e := by
    rw [habs]
    have ha := (Int.zpow_le_iff_le_log (by norm_num : 1 < 2) hpos).mp (by exact_mod_cast h1)
    have hb := (Int.lt_zpow_iff_log_lt (by norm_num : 1 < 2) hpos).mp (by exact_mod_cast h2)
    omega
  unfold to_double
  rw [if_neg (ne_of_gt hpos), hlog, round_half_even_eq _ m h3 h4]

theorem to_double_zero : to_double 0 = 0 := by
  simp [to_double]

theorem ticket_fee_zero_rate (minutes : Int) : ticket_fee 0 minutes = 0 := by
  norm_num [ticket_fee, to_double_zero, c_round]

theorem ticket_fee_5_60 : ticket_fee (5) 60 = 500 / 100 := by
  have e1 : to_double (5) = 5 := by
    rw [to_double_eq _ 2 5629499534213120 (by norm_num) (by norm_num) (by norm_num) (by norm_num)]
    norm_num
  have e2 : to_double (5 * ((60 : Int) : ℚ)) = 300 := by
    rw [to_double_eq _ 8 5277655813324800 (by norm_num) (by norm_num) (by norm_num) (by norm_num)]
    norm_num
  have e3 : to_double (300 / 60) = 5 := by
    rw [to_double_eq _ 2 5629499534213120 (by norm_num) (by norm_num) (by norm_num) (by norm_num)]
    norm_num
  have e4 : to_double (5 * 100) = 500 := by
    rw [to_double_eq _ 8 8796093022208000 (by norm_num) (by norm_num) (by norm_num) (by norm_num)]
    norm_num
  unfold ticket_fee
  rw [e1, e2, e3, e4]
  norm_num [c_round, Int.floor_eq_iff]

theorem ticket_fee_6_60 : ticket_fee (6) 60 = 600 / 100 := by
  have e1 : to_double (6) = 6 := by
    rw [to_double_eq _ 2 6755399441055744 (by norm_num) (by norm_num) (by norm_num) (by norm_num)]
    norm_num
  have e2 : to_double (6 * ((60 : Int) : ℚ)) = 360 := by
    rw [to_double_eq _ 8 6333186975989760 (by norm_num) (by norm_num) (by norm_num) (by norm_num)]
    norm_num
  have e3 : to_double (360 / 60) = 6 := by
    rw [to_double_eq _ 2 6755399441055744 (by norm_num) (by norm_num) (by norm_num) (by norm_num)]
    norm_num
  have e4 : to_double (6 * 100) = 600 := by
    rw [to_double_eq _ 9 5277655813324800 (by norm_num) (by norm_num) (by norm_num) (by norm_num)]
    norm_num
  unfold ticket_fee
  rw [e1, e2, e3, e4]
  norm_num [c_round, Int.floor_eq_iff]

theorem ticket_fee_5_58 : ticket_fee (5) 58 = 483 / 100 := by
  have e1 : to_double (5) = 5 := by
    rw [to_double_eq _ 2 5629499534213120 (by norm_num) (by norm_num) (by norm_num) (by norm_num)]
    norm_num
  have e2 : to_double (5 * ((58 : Int) : ℚ)) = 290 := by
    rw [to_double_eq _ 8 5101733952880640 (by norm_num) (by norm_num) (by norm_num) (by norm_num)]
    norm_num
  have e3 : to_double (290 / 60) = 5441849549739349 / 1125899906842624 := by
    rw [to_double_eq _ 2 5441849549739349 (by norm_num) (by norm_num) (by norm_num) (by norm_num)]
    norm_num
  have e4 : to_double (5441849549739349 / 1125899906842624 * 100) = 8502889921467733 / 17592186044416 := by
    rw [to_double_eq _ 8 8502889921467733 (by norm_num) (by norm_num) (by norm_num) (by norm_num)]
    norm_num
  unfold ticket_fee
  rw [e1, e2, e3, e4]
  norm_num [c_round, Int.floor_eq_iff]

theorem round3_zero : round3 0 = 0 := by
  norm_num [round3, c_round]

theorem round3_rishon_lat : round3 (31962 / 1000) = 31962 / 1000 := by
  norm_num [round3, c_round, Int.floor_eq_iff]

theorem round3_rishon_lng : round3 (34802 / 1000) = 34802 / 1000 := by
  norm_num [round3, c_round, Int.floor_eq_iff]

theorem sql_minutes_after_hour (t0 : Nat) : sql_minutes (t0 + 3600000) t0 = 60 := by
  simp only [sql_minutes, strftime_s]
  have h : (t0 + 3600000) / 1000 = t0 / 1000 + 3600 := by omega
  rw [h]
  push_cast
  simp only [add_sub_cancel_left]
  decide

theorem sql_minutes_nonneg_floor (sql_now created_at : Timestamp)
    (h : strftime_s created_at ≤ strftime_s sql_now) :
    sql_minutes sql_now created_at
      = ⌊((strftime_s sql_now - strftime_s created_at : Int) : ℚ) / 60⌋ := by
  unfold sql_minutes
  rw [Int.tdiv_eq_ediv (by omega) (by norm_num)]
  have := Rat.floor_intCast_div_natCast (strftime_s sql_now - strftime_s created_at) 60
  simpa using this.symm

theorem sql_minutes_neg_ceil (sql_now created_at : Timestamp)
    (h : strftime_s sql_now < strftime_s created_at) :
    sql_minutes sql_now created_at
      = ⌈((strftime_s sql_now - strftime_s created_at : Int) : ℚ) / 60⌉ := by
  unfold sql_minutes
  have ha : strftime_s sql_now - strftime_s created_at < 0 := by omega
  generalize strftime_s sql_now - strftime_s created_at = a at ha ⊢
  have h1 : Int.tdiv a 60 = -(Int.tdiv (-a) 60) := by rw [Int.neg_tdiv]; simp
  rw [h1, Int.tdiv_eq_ediv (by omega) (by norm_num)]
  have h3 := Rat.floor_intCast_div_natCast (-a) 60
  have h2 : ⌈(a : ℚ) / 60⌉ = -⌊((-a : Int) : ℚ) / ((60 : Nat) : ℚ)⌋ := by
    rw [← Int.ceil_neg]; congr 1; push_cast; ring
  rw [h2, h3]
  simp

/-! ## Branches of `handle_frame` -/

theorem handle_frame_prices (cache : PriceCache) (sql_now now : Timestamp) (db : Db)
    (f : DecodedFrame) : (handle_frame cache sql_now now db f).1.prices = db.prices := by
  unfold handle_frame
  simp only []
  split_ifs
  · split <;> simp [sql_insert_open]
  · split <;> simp
  · rfl

theorem handle_open_absent (cache : PriceCache) (sql_now now : Timestamp) (db : Db)
    (f : DecodedFrame) (hs : f.status = 1)
    (h : ∀ r ∈ db.customer_data,
      open_where (customer_id_of f.dev_id)
        (resolve_city db.prices f.cord_x.round3 f.cord_y.round3)
        f.cord_x.round3 f.cord_y.round3 r = false) :
    handle_frame cache sql_now now db f =
      (sql_insert_open db (customer_id_of f.dev_id)
        (resolve_city db.prices f.cord_x.round3 f.cord_y.round3)
        f.cord_x.round3 f.cord_y.round3 now, "") := by
  have hn := (sql_check_open_eq_none_iff _ _ _ _ _).mpr h
  simp [handle_frame, hs, hn]

theorem handle_open_present (cache : PriceCache) (sql_now now : Timestamp) (db : Db)
    (f : DecodedFrame) (hs : f.status = 1) (r : CustomerRow) (hr : r ∈ db.customer_data)
    (h : open_where (customer_id_of f.dev_id)
        (resolve_city db.prices f.cord_x.round3 f.cord_y.round3)
        f.cord_x.round3 f.cord_y.round3 r = true) :
    handle_frame cache sql_now now db f = (db, "") := by
  cases hc : sql_check_open db.customer_data (customer_id_of f.dev_id)
      (resolve_city db.prices f.cord_x.round3 f.cord_y.round3)
      f.cord_x.round3 f.cord_y.round3 with
  | none =>
    have := (sql_check_open_eq_none_iff _ _ _ _ _).mp hc r hr
    rw [h] at this
    exact absurd this (by simp)
  | some id => simp [handle_frame, hs, hc]

theorem handle_close_absent (cache : PriceCache) (sql_now now : Timestamp) (db : Db)
    (f : DecodedFrame) (hs : f.status = 0)
    (h : ∀ r ∈ db.customer_data,
      open_where (customer_id_of f.dev_id)
        (resolve_city db.prices f.cord_x.round3 f.cord_y.round3)
        f.cord_x.round3 f.cord_y.round3 r = false) :
    handle_frame cache sql_now now db f = (db, "") := by
  have hn := (sql_find_open_eq_none_iff _ _ _ _ _).mpr h
  simp [handle_frame, hs, hn]

theorem handle_close_found (cache : PriceCache) (sql_now now : Timestamp) (db : Db)
    (f : DecodedFrame) (hs : f.status = 0) (rowid : Nat) (created_at : Timestamp)
    (h : sql_find_open db.customer_data (customer_id_of f.dev_id)
        (resolve_city db.prices f.cord_x.round3 f.cord_y.round3)
        f.cord_x.round3 f.cord_y.round3 = some (rowid, created_at)) :
    handle_frame cache sql_now now db f =
      ({ db with
          customer_data :=
            sql_update_close db.customer_data (sql_minutes sql_now created_at)
              (ticket_fee
                (price_per_hour cache db.prices
                  (resolve_city db.prices f.cord_x.round3 f.cord_y.round3))
                (sql_minutes sql_now created_at))
              now (sqlite3_column_int rowid) },
        ok_closed) := by
  simp [handle_frame, hs, h]

theorem handle_close_present (cache : PriceCache) (sql_now now : Timestamp) (db : Db)
    (f : DecodedFrame) (hs : f.status = 0)
    (hex : ∃ r ∈ db.customer_data,
      open_where (customer_id_of f.dev_id)
        (resolve_city db.prices f.cord_x.round3 f.cord_y.round3)
        f.cord_x.round3 f.cord_y.round3 r = true) :
    ∃ r ∈ db.customer_data,
      open_where (customer_id_of f.dev_id)
        (resolve_city db.prices f.cord_x.round3 f.cord_y.round3)
        f.cord_x.round3 f.cord_y.round3 r = true
      ∧ handle_frame cache sql_now now db f =
        ({ db with
            customer_data :=
              sql_update_close db.customer_data (sql_minutes sql_now r.created_at)
                (ticket_fee
                  (price_per_hour cache db.prices
                    (resolve_city db.prices f.cord_x.round3 f.cord_y.round3))
                  (sql_minutes sql_now r.created_at))
                now (sqlite3_column_int r.id) },
          ok_closed) := by
  cases hf : sql_find_open db.customer_data (customer_id_of f.dev_id)
      (resolve_city db.prices f.cord_x.round3 f.cord_y.round3)
      f.cord_x.round3 f.cord_y.round3 with
  | none =>
    obtain ⟨r, hr, hm⟩ := hex
    have := (sql_find_open_eq_none_iff _ _ _ _ _).mp hf r hr
    rw [hm] at this
    exact absurd this (by simp)
  | some p =>
    obtain ⟨rowid, created_at⟩ := p
    obtain ⟨r, hr, hm, hid, hc⟩ := sql_find_open_some _ _ _ _ _ _ _ hf
    refine ⟨r, hr, hm, ?_⟩
    rw [hid, hc]
    exact handle_close_found cache sql_now now db f hs rowid created_at hf

theorem handle_frame_other_status (cache : PriceCache) (sql_now now : Timestamp) (db : Db)
    (f : DecodedFrame) (h1 : f.status ≠ 1) (h0 : f.status ≠ 0) :
    handle_frame cache sql_now now db f = (db, "") := by
  simp [handle_frame, h1, h0]

/-! ## Evaluation on the seeded catalog -/

theorem customer_id_of_1610 : customer_id_of 1610 = "1610" := by decide

theorem customer_id_of_7 : customer_id_of 7 = "7" := by decide

theorem resolve_city_seed_rishon (t : Timestamp) :
    resolve_city (seed_prices t) (.fin (31962 / 1000)) (.fin (34802 / 1000)) = 8300 := by
  simp [resolve_city, sql_find_city, seed_prices, near]

theorem round3_fin_rishon_lat :
    (CDouble.fin (31962 / 1000)).round3 = .fin (31962 / 1000) := by
  rw [round3_fin, round3_rishon_lat]

theorem round3_fin_rishon_lng :
    (CDouble.fin (34802 / 1000)).round3 = .fin (34802 / 1000) := by
  rw [round3_fin, round3_rishon_lng]

theorem round3_fin_zero : (CDouble.fin 0).round3 = .fin 0 := by
  rw [round3_fin, round3_zero]

theorem sql_price_seed_rishon (t : Timestamp) : sql_price (seed_prices t) 8300 = some 5 := by
  simp [sql_price, seed_prices]

theorem sql_find_city_seed_origin : sql_find_city (seed_prices 0) 0 0 = none := by
  norm_num [sql_find_city, seed_prices, near, abs_lt]

theorem resolve_city_seed_origin : resolve_city (seed_prices 0) (.fin 0) (.fin 0) = 0 := by
  rw [resolve_city_fin, sql_find_city_seed_origin]
  rfl

theorem seed_prices_no_code_zero (t : Timestamp) : ∀ p ∈ seed_prices t, p.city_code ≠ 0 := by
  intro p hp
  simp only [seed_prices, List.mem_cons, List.mem_singleton, List.not_mem_nil, or_false] at hp
  rcases hp with rfl | rfl | rfl | rfl | rfl | rfl | rfl | rfl | rfl | rfl <;> simp

theorem sample_unmapped_matches :
    OpenKeyMatch (open_row 1 "7" 0 (.fin 0) (.fin 0) 0) (customer_id_of sample_unmapped_close.dev_id)
      (resolve_city sample_unmapped_db.prices sample_unmapped_close.cord_x.round3
        sample_unmapped_close.cord_y.round3)
      sample_unmapped_close.cord_x.round3 sample_unmapped_close.cord_y.round3 := by
  simp only [sample_unmapped_close, sample_unmapped_db, round3_fin_zero,
    resolve_city_seed_origin, customer_id_of_7]
  simp [OpenKeyMatch, open_row, near_fin, near_self]

theorem seeded_open (cache : PriceCache) (sql_now t0 t : Timestamp) (seq : Nat) :
    handle_frame cache sql_now t0 ⟨seed_prices t, [], seq⟩ sample_open_frame
      = (⟨seed_prices t,
          [open_row (seq + 1) "1610" 8300 (.fin (31962 / 1000)) (.fin (34802 / 1000)) t0], seq + 1⟩, "") := by
  have h := handle_open_absent cache sql_now t0 ⟨seed_prices t, [], seq⟩ sample_open_frame rfl
    (by intro r hr; simp at hr)
  rw [h]
  simp only [sample_open_frame, round3_fin_rishon_lat, round3_fin_rishon_lng,
    resolve_city_seed_rishon, customer_id_of_1610]
  simp [sql_insert_open, next_rowid, max_rowid]

theorem seeded_close (cache : PriceCache) (now2 t0 t : Timestamp) (seq : Nat)
    (hseq : seq + 1 < 2147483648) :
    handle_frame cache (t0 + 3600000) now2
        ⟨seed_prices t,
          [open_row (seq + 1) "1610" 8300 (.fin (31962 / 1000)) (.fin (34802 / 1000)) t0], seq + 1⟩
        sample_close_frame
      = (⟨seed_prices t,
          [close_row (open_row (seq + 1) "1610" 8300 (.fin (31962 / 1000)) (.fin (34802 / 1000)) t0) 60
            (ticket_fee (price_per_hour cache (seed_prices t) 8300) 60) now2], seq + 1⟩,
        ok_closed) := by
  have hfind := sql_find_open_append_fresh [] "1610" 8300 (31962 / 1000) (34802 / 1000)
    (seq + 1) t0 (by intro r hr; simp at hr)
  have hint : sqlite3_column_int ((seq + 1 : Nat) : Int) = ((seq + 1 : Nat) : Int) :=
    sqlite3_column_int_small (seq + 1) hseq
  have h := handle_close_found cache (t0 + 3600000) now2
    ⟨seed_prices t,
      [open_row (seq + 1) "1610" 8300 (.fin (31962 / 1000)) (.fin (34802 / 1000)) t0], seq + 1⟩
    sample_close_frame rfl (seq + 1) t0
    (by
      simp only [sample_close_frame, round3_fin_rishon_lat, round3_fin_rishon_lng,
        resolve_city_seed_rishon, customer_id_of_1610]
      simpa using hfind)
  rw [h, hint]
  simp only [sample_close_frame, round3_fin_rishon_lat, round3_fin_rishon_lng,
    resolve_city_seed_rishon, sql_minutes_after_hour]
  simp [sql_update_close, open_row]

/-! ## The fee in `double` arithmetic -/

theorem float_of_bits_inf : float_of_bits 2139095040 = CDouble.pos_inf := by
  simp [float_of_bits]

theorem handle_inf_open (cache : PriceCache) (sql_now now : Timestamp) (db : Db) :
    handle_frame cache sql_now now db sample_inf_open
      = (sql_insert_open db "1610" 0 .pos_inf .pos_inf now, "") := by
  rw [handle_open_absent cache sql_now now db sample_inf_open rfl
    (fun r _ => open_where_nonfinite _ _ _ _ r (Or.inl (fun a h => by cases h)))]
  rw [customer_id_of_1610.symm]
  rfl

theorem handle_inf_close (cache : PriceCache) (sql_now now : Timestamp) (db : Db) :
    handle_frame cache sql_now now db sample_inf_close = (db, "") :=
  handle_close_absent cache sql_now now db sample_inf_close rfl
    (fun r _ => open_where_nonfinite _ _ _ _ r (Or.inl (fun a h => by cases h)))

/-- For a frame with finite coordinates and a ledger whose next rowid fits
an `int`: on a ledger with no Open row matching the key, a `status=1` frame
followed by a `status=0` frame with the same device id and coordinates (same
catalog) appends exactly one row to `customer_data`: it is Open after the
first frame and is the same row set to closed after the second, while all
earlier rows are as before. -/
theorem open_then_close_finite (cache1 cache2 : PriceCache)
    (sql_now1 now1 sql_now2 now2 : Timestamp) (db : Db) (dev_id : Nat) (cx cy : ℚ)
    (hid : next_rowid db < 2147483648)
    (hno : ∀ r ∈ db.customer_data,
      ¬ OpenKeyMatch r (customer_id_of dev_id)
          (resolve_city db.prices (.fin (round3 cx)) (.fin (round3 cy)))
          (.fin (round3 cx)) (.fin (round3 cy))) :
    ∃ (r : CustomerRow) (minutes : Int) (fee : ℚ),
      r = open_row (next_rowid db) (customer_id_of dev_id)
            (resolve_city db.prices (.fin (round3 cx)) (.fin (round3 cy)))
            (.fin (round3 cx)) (.fin (round3 cy)) now1
      ∧ (handle_frame cache1 sql_now1 now1 db ⟨dev_id, .fin cx, .fin cy, 1⟩).1.customer_data
          = db.customer_data ++ [r]
      ∧ r.status = 1
      ∧ (handle_frame cache2 sql_now2 now2
            (handle_frame cache1 sql_now1 now1 db ⟨dev_id, .fin cx, .fin cy, 1⟩).1
            ⟨dev_id, .fin cx, .fin cy, 0⟩).1.customer_data
          = db.customer_data ++ [close_row r minutes fee now2]
      ∧ (close_row r minutes fee now2).status = 0
      ∧ (close_row r minutes fee now2).id = r.id := by
  have hno' : ∀ r ∈ db.customer_data,
      open_where (customer_id_of dev_id)
        (resolve_city db.prices (.fin (round3 cx)) (.fin (round3 cy)))
        (.fin (round3 cx)) (.fin (round3 cy)) r = false :=
    fun r hr => (not_openKeyMatch_iff _ _ _ _ _).mp (hno r hr)
  have h1 := handle_open_absent cache1 sql_now1 now1 db ⟨dev_id, .fin cx, .fin cy, 1⟩ rfl hno'
  simp only [round3_fin] at h1
  have hfind := sql_find_open_append_fresh db.customer_data (customer_id_of dev_id)
    (resolve_city db.prices (.fin (round3 cx)) (.fin (round3 cy))) (round3 cx) (round3 cy)
    (next_rowid db) now1 hno'
  have h2 := handle_close_found cache2 sql_now2 now2
    (sql_insert_open db (customer_id_of dev_id)
      (resolve_city db.prices (.fin (round3 cx)) (.fin (round3 cy)))
      (.fin (round3 cx)) (.fin (round3 cy)) now1)
    ⟨dev_id, .fin cx, .fin cy, 0⟩ rfl (next_rowid db) now1 hfind
  rw [sqlite3_column_int_small _ hid] at h2
  have hfresh : ∀ q ∈ db.customer_data,
      q.id ≠ (open_row (next_rowid db) (customer_id_of dev_id)
        (resolve_city db.prices (.fin (round3 cx)) (.fin (round3 cy)))
        (.fin (round3 cx)) (.fin (round3 cy)) now1).id :=
    fun q hq => Nat.ne_of_lt (id_lt_next_rowid db q hq)
  refine ⟨_, sql_minutes sql_now2 now1,
    ticket_fee (price_per_hour cache2 db.prices
      (resolve_city db.prices (.fin (round3 cx)) (.fin (round3 cy))))
      (sql_minutes sql_now2 now1),
    rfl, ?_, rfl, ?_, rfl, rfl⟩
  · rw [h1]; rfl
  · rw [h1, h2]
    exact sql_update_close_append_fresh db.customer_data _ _ _ now2 hfresh

/-- C1 (what the code does): a frame whose coordinates are `+inf` (pattern
`0x7F800000`) matches no row, not even the row it has just written, because
`ABS(inf - inf) < 0.0001` is NULL.  On the seeded catalog and an empty ledger
the open frame inserts a row (city code 0), and the close frame with the
same device id and coordinates finds no Open row: nothing is updated,
nothing is sent, and the row stays Open. -/
theorem nonfinite_open_is_never_closed :
    float_of_bits 2139095040 = CDouble.pos_inf
    ∧ handle_frame [] 0 0 ⟨seed_prices 0, [], 0⟩ sample_inf_open
      = (⟨seed_prices 0, [open_row 1 "1610" 0 .pos_inf .pos_inf 0], 1⟩, "")
    ∧ handle_frame [] 3600000 3600000
        (handle_frame [] 0 0 ⟨seed_prices 0, [], 0⟩ sample_inf_open).1 sample_inf_close
      = (⟨seed_prices 0, [open_row 1 "1610" 0 .pos_inf .pos_inf 0], 1⟩, "")
    ∧ (open_row 1 "1610" 0 .pos_inf .pos_inf 0).status = 1 := by
  refine ⟨float_of_bits_inf, ?_, ?_, rfl⟩
  · rw [handle_inf_open]
    simp [sql_insert_open, next_rowid, max_rowid]
  · rw [handle_inf_open, handle_inf_close]
    simp [sql_insert_open, next_rowid, max_rowid]

/-- For a `status=1` frame: if an Open row matching its key exists, the
database is left as it is and nothing is sent; and when the coordinates of
the frame are finite, handling the same frame a second time gives the
database obtained after the first time, with nothing sent. -/
theorem duplicate_open_finite (cache cache2 : PriceCache)
    (sql_now now sql_now2 now2 : Timestamp) (db : Db) (f : DecodedFrame) (hs : f.status = 1) :
    ((∃ r ∈ db.customer_data,
        OpenKeyMatch r (customer_id_of f.dev_id)
          (resolve_city db.prices f.cord_x.round3 f.cord_y.round3)
          f.cord_x.round3 f.cord_y.round3) →
      handle_frame cache sql_now now db f = (db, ""))
    ∧ ((∃ a b : ℚ, f.cord_x = .fin a ∧ f.cord_y = .fin b) →
      handle_frame cache2 sql_now2 now2 (handle_frame cache sql_now now db f).1 f
        = ((handle_frame cache sql_now now db f).1, "")) := by
  constructor
  · rintro ⟨r, hr, hm⟩
    exact handle_open_present cache sql_now now db f hs r hr ((openKeyMatch_iff _ _ _ _ _).mp hm)
  · rintro ⟨a, b, ha, hb⟩
    by_cases hex : ∃ r ∈ db.customer_data,
        open_where (customer_id_of f.dev_id)
          (resolve_city db.prices f.cord_x.round3 f.cord_y.round3)
          f.cord_x.round3 f.cord_y.round3 r = true
    · obtain ⟨r, hr, hm⟩ := hex
      have h1 := handle_open_present cache sql_now now db f hs r hr hm
      rw [h1]
      exact handle_open_present cache2 sql_now2 now2 db f hs r hr hm
    · have hno : ∀ r ∈ db.customer_data,
          open_where (customer_id_of f.dev_id)
            (resolve_city db.prices f.cord_x.round3 f.cord_y.round3)
            f.cord_x.round3 f.cord_y.round3 r = false := by
        intro r hr
        by_contra hc
        exact hex ⟨r, hr, by simpa using hc⟩
      have h1 := handle_open_absent cache sql_now now db f hs hno
      rw [h1]
      refine handle_open_present cache2 sql_now2 now2 _ f hs
        (open_row (next_rowid db) (customer_id_of f.dev_id)
          (resolve_city db.prices f.cord_x.round3 f.cord_y.round3)
          f.cord_x.round3 f.cord_y.round3 now) ?_ ?_
      · simp [sql_insert_open]
      · rw [ha, hb, round3_fin, round3_fin]
        exact open_where_open_row _ _ _ _ _ _

/-- C2 (what the code does): the open frame of device 1610 with coordinates
`+inf` handled twice on an empty ledger inserts two rows: the second time
the row written the first time is not found (`ABS(inf - inf) < 0.0001` is
NULL), so the ledger after two frames, two Open rows with the same customer
id, city code and coordinates, differs from the ledger after one. -/
theorem nonfinite_open_is_inserted_twice :
    (handle_frame [] 0 0 ⟨seed_prices 0, [], 0⟩ sample_inf_open).1.customer_data
      = [open_row 1 "1610" 0 .pos_inf .pos_inf 0]
    ∧ (handle_frame [] 0 1000
        (handle_frame [] 0 0 ⟨seed_prices 0, [], 0⟩ sample_inf_open).1
        sample_inf_open).1.customer_data
      = [open_row 1 "1610" 0 .pos_inf .pos_inf 0, open_row 2 "1610" 0 .pos_inf .pos_inf 1000]
    ∧ decode_frame float_of_bits [6, 74, 127, 128, 0, 0, 127, 128, 0, 0, 0, 1]
      = sample_inf_open := by
  refine ⟨?_, ?_, ?_⟩
  · rw [handle_inf_open]
    simp [sql_insert_open, next_rowid, max_rowid]
  · rw [handle_inf_open, handle_inf_open]
    simp [sql_insert_open, next_rowid, max_rowid, open_row]
  · simp [decode_frame, server_decode, sample_inf_open, of_le_bytes, ntohs, ntohl,
      float_from_big_endian, float_of_bits]

/-- C3: a `status=0` frame on a ledger with no Open row matching its
customer id, resolved city code and coordinates (within `0.0001` on both
axes) leaves the whole database unchanged (no insert, no update) and sends
nothing on the connection. -/
theorem orphan_close_is_discarded (cache : PriceCache) (sql_now now : Timestamp) (db : Db)
    (f : DecodedFrame) (hs : f.status = 0)
    (hno : ∀ r ∈ db.customer_data,
      ¬ OpenKeyMatch r (customer_id_of f.dev_id)
          (resolve_city db.prices f.cord_x.round3 f.cord_y.round3)
          f.cord_x.round3 f.cord_y.round3) :
    handle_frame cache sql_now now db f = (db, "") :=
  handle_close_absent cache sql_now now db f hs
    (fun r hr => (not_openKeyMatch_iff _ _ _ _ _).mp (hno r hr))

/-- Witness of C3: a close of device 1610 on a ledger holding only a closed session. -/
theorem orphan_close_is_discarded_witness :
    sample_close_frame.status = 0
    ∧ (∀ r ∈ sample_db_closed.customer_data,
      ¬ OpenKeyMatch r (customer_id_of sample_close_frame.dev_id)
          (resolve_city sample_db_closed.prices sample_close_frame.cord_x.round3
            sample_close_frame.cord_y.round3)
          sample_close_frame.cord_x.round3 sample_close_frame.cord_y.round3)
    ∧ handle_frame [] 7200000 7200000 sample_db_closed sample_close_frame
        = (sample_db_closed, "") :=
  have hno : ∀ r ∈ sample_db_closed.customer_data,
      ¬ OpenKeyMatch r (customer_id_of sample_close_frame.dev_id)
          (resolve_city sample_db_closed.prices sample_close_frame.cord_x.round3
            sample_close_frame.cord_y.round3)
          sample_close_frame.cord_x.round3 sample_close_frame.cord_y.round3 := by
    intro r hr
    simp only [sample_db_closed, List.mem_singleton] at hr
    subst hr
    simp [OpenKeyMatch, sample_closed_row]
  ⟨rfl, hno,
    orphan_close_is_discarded [] 7200000 7200000 sample_db_closed sample_close_frame rfl hno⟩

/-- C5 (as it holds): from the seeded catalog and an empty ledger, with a
price cache that has no entry for code 8300 or holds 5.0 for it, the open
frame of device 1610 at (31.962, 34.802) creates one Open row with city
code 8300, and the close frame handled when the database clock is 60 minutes
past the open sets that row to 60 minutes and fee 5.00 and sends the
acknowledgement.  The rowid sequence of the empty ledger may stand at any
value whose successor fits an `int` (0 on a new database). -/
theorem seeded_scenario (cache1 cache2 : PriceCache) (sql_now1 t0 now2 t : Timestamp)
    (seq : Nat) (hseq : seq + 1 < 2147483648)
    (hc : cache_find cache2 8300 = none ∨ cache_find cache2 8300 = some 5) :
    handle_frame cache1 sql_now1 t0 ⟨seed_prices t, [], seq⟩
        ⟨1610, .fin (31962 / 1000), .fin (34802 / 1000), 1⟩
      = (⟨seed_prices t,
          [{ id := seq + 1, customer_id := "1610", city_code := 8300,
             gps_lat := .fin (31962 / 1000), gps_lng := .fin (34802 / 1000), status := 1,
             parking_duration_minutes := 0, ticket_fee := 0, created_at := t0,
             ended_at := none }], seq + 1⟩, "")
    ∧ handle_frame cache2 (t0 + 3600000) now2
        (handle_frame cache1 sql_now1 t0 ⟨seed_prices t, [], seq⟩
          ⟨1610, .fin (31962 / 1000), .fin (34802 / 1000), 1⟩).1
        ⟨1610, .fin (31962 / 1000), .fin (34802 / 1000), 0⟩
      = (⟨seed_prices t,
          [{ id := seq + 1, customer_id := "1610", city_code := 8300,
             gps_lat := .fin (31962 / 1000), gps_lng := .fin (34802 / 1000), status := 0,
             parking_duration_minutes := 60, ticket_fee := 5, created_at := t0,
             ended_at := some now2 }], seq + 1⟩, "OK CLOSED\n") := by
  have h1 := seeded_open cache1 sql_now1 t0 t seq
  have h2 := seeded_close cache2 now2 t0 t seq hseq
  have hp : price_per_hour cache2 (seed_prices t) 8300 = 5 := by
    unfold price_per_hour
    rcases hc with hc | hc <;> simp [hc, sql_price_seed_rishon]
  have hfee : ticket_fee 5 60 = 5 := by rw [ticket_fee_5_60]; norm_num
  rw [hp, hfee] at h2
  simp only [sample_open_frame] at h1
  simp only [sample_close_frame] at h2
  rw [h1]
  exact ⟨rfl, h2⟩

/-- Witness of C5: the scenario on a new database with an empty price cache. -/
theorem seeded_scenario_witness :
    (0 + 1 < 2147483648)
    ∧ (cache_find [] 8300 = none ∨ cache_find [] 8300 = some 5)
    ∧ handle_frame [] 3600000 3600500
        (handle_frame [] 0 0 ⟨seed_prices 0, [], 0⟩
          ⟨1610, .fin (31962 / 1000), .fin (34802 / 1000), 1⟩).1
        ⟨1610, .fin (31962 / 1000), .fin (34802 / 1000), 0⟩
      = (⟨seed_prices 0,
          [{ id := 1, customer_id := "1610", city_code := 8300,
             gps_lat := .fin (31962 / 1000), gps_lng := .fin (34802 / 1000), status := 0,
             parking_duration_minutes := 60, ticket_fee := 5, created_at := 0,
             ended_at := some 3600500 }], 1⟩, "OK CLOSED\n") :=
  ⟨by decide, Or.inl rfl,
    (seeded_scenario [] [] 0 0 3600500 0 0 (by decide) (Or.inl rfl)).2⟩

/-- C5 (as stated) fails: with the seeded catalog (rate 5.0 for 8300) and an
empty ledger but a price cache holding 6.0 for code 8300, the close handled
60 minutes after the open stores fee 6.00, not 5.00. -/
theorem stale_cache_rate_is_billed :
    (handle_frame [(8300, 6)] 3600000 3600000
        (handle_frame [(8300, 6)] 0 0 ⟨seed_prices 0, [], 0⟩
          ⟨1610, .fin (31962 / 1000), .fin (34802 / 1000), 1⟩).1
        ⟨1610, .fin (31962 / 1000), .fin (34802 / 1000), 0⟩).1.customer_data
      = [{ id := 1, customer_id := "1610", city_code := 8300,
           gps_lat := .fin (31962 / 1000), gps_lng := .fin (34802 / 1000), status := 0,
           parking_duration_minutes := 60, ticket_fee := 6, created_at := 0,
           ended_at := some 3600000 }] := by
  have h1 := seeded_open [(8300, 6)] 0 0 0 0
  have h2 := seeded_close [(8300, 6)] 3600000 0 0 0 (by decide)
  have hp : price_per_hour [(8300, 6)] (seed_prices 0) 8300 = 6 := by
    simp [price_per_hour, cache_find]
  have hfee : ticket_fee 6 60 = 6 := by rw [ticket_fee_6_60]; norm_num
  rw [hp, hfee] at h2
  simp only [sample_open_frame] at h1
  simp only [sample_close_frame] at h2
  rw [h1]
  simp only [zero_add] at h2
  rw [h2]
  rfl

theorem sample_big_rowid_close (cache : PriceCache) (sql_now now : Timestamp) :
    handle_frame cache sql_now now sample_db_big_rowid sample_close_frame
      = (sample_db_big_rowid, "OK CLOSED\n") := by
  have hfind := sql_find_open_append_fresh [] "1610" 8300 (31962 / 1000) (34802 / 1000)
    2147483653 100000 (by intro r hr; simp at hr)
  have h := handle_close_found cache sql_now now sample_db_big_rowid sample_close_frame rfl
    2147483653 100000
    (by
      simp only [sample_close_frame, sample_db_big_rowid, round3_fin_rishon_lat,
        round3_fin_rishon_lng, resolve_city_seed_rishon, customer_id_of_1610]
      simpa using hfind)
  have hint : sqlite3_column_int ((2147483653 : Nat) : Int) = -2147483643 := by decide
  rw [h, hint]
  simp [sql_update_close, sample_db_big_rowid, open_row, ok_closed]

theorem sample_big_rowid_matches :
    OpenKeyMatch
      (open_row 2147483653 "1610" 8300 (.fin (31962 / 1000)) (.fin (34802 / 1000)) 100000)
      (customer_id_of sample_close_frame.dev_id)
      (resolve_city sample_db_big_rowid.prices sample_close_frame.cord_x.round3
        sample_close_frame.cord_y.round3)
      sample_close_frame.cord_x.round3 sample_close_frame.cord_y.round3 := by
  simp only [sample_close_frame, sample_db_big_rowid, round3_fin_rishon_lat,
    round3_fin_rishon_lng, resolve_city_seed_rishon, customer_id_of_1610]
  simp [OpenKeyMatch, open_row, near_fin, near_self]

theorem ack_iff_open_match (cache : PriceCache) (sql_now now : Timestamp) (db : Db)
    (f : DecodedFrame) :
    ((handle_frame cache sql_now now db f).2 = "OK CLOSED\n" ↔
      (f.status = 0 ∧ ∃ r ∈ db.customer_data,
        OpenKeyMatch r (customer_id_of f.dev_id)
          (resolve_city db.prices f.cord_x.round3 f.cord_y.round3)
          f.cord_x.round3 f.cord_y.round3))
    ∧ ((handle_frame cache sql_now now db f).2 = "OK CLOSED\n"
        ∨ (handle_frame cache sql_now now db f).2 = "") := by
  by_cases hex : ∃ r ∈ db.customer_data,
      open_where (customer_id_of f.dev_id)
        (resolve_city db.prices f.cord_x.round3 f.cord_y.round3)
        f.cord_x.round3 f.cord_y.round3 r = true
  · by_cases hs : f.status = 0
    · obtain ⟨r, hr, hm, hres⟩ := handle_close_present cache sql_now now db f hs hex
      rw [hres]
      exact ⟨⟨fun _ => ⟨hs, r, hr, (openKeyMatch_iff _ _ _ _ _).mpr hm⟩, fun _ => rfl⟩,
        Or.inl rfl⟩
    · have hout : (handle_frame cache sql_now now db f).2 = "" := by
        by_cases h1 : f.status = 1
        · obtain ⟨r, hr, hm⟩ := hex
          rw [handle_open_present cache sql_now now db f h1 r hr hm]
        · rw [handle_frame_other_status cache sql_now now db f h1 hs]
      rw [hout]
      exact ⟨⟨fun h => absurd h (by decide), fun h => absurd h.1 hs⟩, Or.inr rfl⟩
  · have hno : ∀ r ∈ db.customer_data,
        open_where (customer_id_of f.dev_id)
          (resolve_city db.prices f.cord_x.round3 f.cord_y.round3)
          f.cord_x.round3 f.cord_y.round3 r = false := by
      intro r hr
      by_contra hc
      exact hex ⟨r, hr, by simpa using hc⟩
    have hout : (handle_frame cache sql_now now db f).2 = "" := by
      by_cases h1 : f.status = 1
      · rw [handle_open_absent cache sql_now now db f h1 hno]
      · by_cases h0 : f.status = 0
        · rw [handle_close_absent cache sql_now now db f h0 hno]
        · rw [handle_frame_other_status cache sql_now now db f h1 h0]
    rw [hout]
    refine ⟨⟨fun h => absurd h (by decide), ?_⟩, Or.inr rfl⟩
    rintro ⟨_, r, hr, hm⟩
    exact absurd ((openKeyMatch_iff _ _ _ _ _).mp hm) (by rw [hno r hr]; simp)

/-- C7 (the code at the failing input): the only row of the ledger is an Open
session of device 1610 with rowid 2147483653; the close frame of the device
finds it, `sqlite3_column_int` turns the rowid into -2147483643, the UPDATE
bound to that value changes no row (the session is still Open), and
`"OK CLOSED\n"` is sent all the same. -/
theorem ack_sent_without_update :
    sample_close_frame.status = 0
    ∧ sample_db_big_rowid.customer_data
        = [open_row 2147483653 "1610" 8300 (.fin (31962 / 1000)) (.fin (34802 / 1000)) 100000]
    ∧ OpenKeyMatch
        (open_row 2147483653 "1610" 8300 (.fin (31962 / 1000)) (.fin (34802 / 1000)) 100000)
        (customer_id_of sample_close_frame.dev_id)
        (resolve_city sample_db_big_rowid.prices sample_close_frame.cord_x.round3
          sample_close_frame.cord_y.round3)
        sample_close_frame.cord_x.round3 sample_close_frame.cord_y.round3
    ∧ sqlite3_column_int 2147483653 = -2147483643
    ∧ (handle_frame [] 3700000 3700000 sample_db_big_rowid sample_close_frame).2
        = "OK CLOSED\n"
    ∧ (handle_frame [] 3700000 3700000 sample_db_big_rowid sample_close_frame).1
        = sample_db_big_rowid
    ∧ ∀ q ∈ (handle_frame [] 3700000 3700000 sample_db_big_rowid
              sample_close_frame).1.customer_data, q.status = 1 := by
  refine ⟨rfl, rfl, sample_big_rowid_matches, by decide, ?_, ?_, ?_⟩
  · rw [sample_big_rowid_close]
  · rw [sample_big_rowid_close]
  · rw [sample_big_rowid_close]
    intro q hq
    simp only [sample_db_big_rowid, List.mem_singleton] at hq
    subst hq
    rfl

/-- C8: the hourly rate of a close is the cache entry for the code when
`prices_cache` has one; when it has none, it is the `price_per_hour` of a
`prices` row with that `city_code` if such a row exists (the first in scan
order), and `0.0` if no such row exists. -/
theorem rate_cache_first (cache : PriceCache) (prices : List PriceRow) (city_code : Int) :
    (∀ cached : ℚ, cache_find cache city_code = some cached →
        price_per_hour cache prices city_code = cached)
    ∧ (cache_find cache city_code = none →
        ((∃ p ∈ prices, p.city_code = city_code) →
          ∃ p ∈ prices, p.city_code = city_code
            ∧ prices.find? (fun q => decide (q.city_code = city_code)) = some p
            ∧ price_per_hour cache prices city_code = p.price_per_hour)
        ∧ ((∀ p ∈ prices, p.city_code ≠ city_code) →
          price_per_hour cache prices city_code = 0)) := by
  refine ⟨fun cached h => by simp [price_per_hour, h], fun hnone => ⟨?_, ?_⟩⟩
  · rintro ⟨p0, hp0, hc0⟩
    cases hf : prices.find? (fun q => decide (q.city_code = city_code)) with
    | none =>
      rw [List.find?_eq_none] at hf
      exact absurd hc0 (by simpa using hf p0 hp0)
    | some p =>
      have hm := List.mem_of_find?_eq_some hf
      have hp := List.find?_some hf
      exact ⟨p, hm, by simpa using hp, rfl, by simp [price_per_hour, hnone, sql_price, hf]⟩
  · intro hall
    have := (sql_price_eq_none_iff prices city_code).mpr hall
    simp [price_per_hour, hnone, this]

/-- Witness of C8: code 8300 with a cache entry 6.0, and with an empty cache over the
seeded table. -/
theorem rate_cache_first_witness :
    cache_find [(8300, 6)] 8300 = some 6
    ∧ price_per_hour [(8300, 6)] (seed_prices 0) 8300 = 6
    ∧ cache_find [] 8300 = none
    ∧ (∃ p ∈ seed_prices 0, p.city_code = 8300)
    ∧ (∃ p ∈ seed_prices 0, p.city_code = 8300
        ∧ (seed_prices 0).find? (fun q => decide (q.city_code = 8300)) = some p
        ∧ price_per_hour [] (seed_prices 0) 8300 = p.price_per_hour) :=
  have hc : cache_find [(8300, 6)] 8300 = some 6 := by simp [cache_find]
  have hex : ∃ p ∈ seed_prices 0, p.city_code = 8300 :=
    ⟨⟨"Rishon Lezion", 8300, 31962 / 1000, 34802 / 1000, 5, 0⟩, by simp [seed_prices], rfl⟩
  ⟨hc, (rate_cache_first [(8300, 6)] (seed_prices 0) 8300).1 6 hc, rfl, hex,
    ((rate_cache_first [] (seed_prices 0) 8300).2 rfl).1 hex⟩

/-- C9 (as it holds): for a `status=0` frame with a matching Open row, on a
ledger whose rowids fit an `int`, if no rate exists for the resolved city
code (no cache entry and no `prices` row with that code; the code is `0`
when no catalog entry matches the coordinates), the close is carried out: the
acknowledgement is sent and the row found is set to closed with its duration
and `ticket_fee = 0.0`. -/
theorem close_without_rate_is_free (cache : PriceCache) (sql_now now : Timestamp) (db : Db)
    (f : DecodedFrame) (hs : f.status = 0)
    (hint : ∀ r ∈ db.customer_data, r.id < 2147483648)
    (hex : ∃ r ∈ db.customer_data,
      OpenKeyMatch r (customer_id_of f.dev_id)
        (resolve_city db.prices f.cord_x.round3 f.cord_y.round3)
        f.cord_x.round3 f.cord_y.round3)
    (hcache : cache_find cache
        (resolve_city db.prices f.cord_x.round3 f.cord_y.round3) = none)
    (htable : ∀ p ∈ db.prices,
        p.city_code ≠ resolve_city db.prices f.cord_x.round3 f.cord_y.round3) :
    ∃ r ∈ db.customer_data,
      OpenKeyMatch r (customer_id_of f.dev_id)
        (resolve_city db.prices f.cord_x.round3 f.cord_y.round3)
        f.cord_x.round3 f.cord_y.round3
      ∧ handle_frame cache sql_now now db f =
        ({ db with
            customer_data := db.customer_data.map (fun q =>
              if q.id = r.id then
                { q with
                  status := 0
                  parking_duration_minutes := sql_minutes sql_now r.created_at
                  ticket_fee := 0
                  ended_at := some now }
              else q) },
          "OK CLOSED\n") := by
  obtain ⟨r0, hr0, hm0⟩ := hex
  obtain ⟨r, hr, hm, hres⟩ := handle_close_present cache sql_now now db f hs
    ⟨r0, hr0, (openKeyMatch_iff _ _ _ _ _).mp hm0⟩
  refine ⟨r, hr, (openKeyMatch_iff _ _ _ _ _).mpr hm, ?_⟩
  have hp : price_per_hour cache db.prices
      (resolve_city db.prices f.cord_x.round3 f.cord_y.round3) = 0 := by
    have := (sql_price_eq_none_iff _ _).mpr htable
    simp [price_per_hour, hcache, this]
  rw [hres, hp, ticket_fee_zero_rate, sqlite3_column_int_small r.id (hint r hr)]
  simp only [sql_update_close, close_row, Nat.cast_inj]
  rfl

/-- Witness of C9: device 7 closes its session at (0, 0), a place with city code 0 and
no rate, with an empty cache. -/
theorem close_without_rate_is_free_witness :
    sample_unmapped_close.status = 0
    ∧ (∀ r ∈ sample_unmapped_db.customer_data, r.id < 2147483648)
    ∧ (∃ r ∈ sample_unmapped_db.customer_data,
        OpenKeyMatch r (customer_id_of sample_unmapped_close.dev_id)
          (resolve_city sample_unmapped_db.prices sample_unmapped_close.cord_x.round3
            sample_unmapped_close.cord_y.round3)
          sample_unmapped_close.cord_x.round3 sample_unmapped_close.cord_y.round3)
    ∧ cache_find []
        (resolve_city sample_unmapped_db.prices sample_unmapped_close.cord_x.round3
          sample_unmapped_close.cord_y.round3) = none
    ∧ (∀ p ∈ sample_unmapped_db.prices,
        p.city_code ≠ resolve_city sample_unmapped_db.prices
          sample_unmapped_close.cord_x.round3 sample_unmapped_close.cord_y.round3)
    ∧ ∃ r ∈ sample_unmapped_db.customer_data,
      OpenKeyMatch r (customer_id_of sample_unmapped_close.dev_id)
        (resolve_city sample_unmapped_db.prices sample_unmapped_close.cord_x.round3
          sample_unmapped_close.cord_y.round3)
        sample_unmapped_close.cord_x.round3 sample_unmapped_close.cord_y.round3
      ∧ handle_frame [] 3600000 3600000 sample_unmapped_db sample_unmapped_close =
        ({ sample_unmapped_db with
            customer_data := sample_unmapped_db.customer_data.map (fun q =>
              if q.id = r.id then
                { q with
                  status := 0
                  parking_duration_minutes := sql_minutes 3600000 r.created_at
                  ticket_fee := 0
                  ended_at := some 3600000 }
              else q) },
          "OK CLOSED\n") :=
  have hint : ∀ r ∈ sample_unmapped_db.customer_data, r.id < 2147483648 := by
    intro r hr
    simp only [sample_unmapped_db, List.mem_singleton] at hr
    subst hr
    decide
  have hex : ∃ r ∈ sample_unmapped_db.customer_data,
      OpenKeyMatch r (customer_id_of sample_unmapped_close.dev_id)
        (resolve_city sample_unmapped_db.prices sample_unmapped_close.cord_x.round3
          sample_unmapped_close.cord_y.round3)
        sample_unmapped_close.cord_x.round3 sample_unmapped_close.cord_y.round3 :=
    ⟨open_row 1 "7" 0 (.fin 0) (.fin 0) 0, by simp [sample_unmapped_db], sample_unmapped_matches⟩
  have htable : ∀ p ∈ sample_unmapped_db.prices,
      p.city_code ≠ resolve_city sample_unmapped_db.prices
        sample_unmapped_close.cord_x.round3 sample_unmapped_close.cord_y.round3 := by
    intro p hp
    simp only [sample_unmapped_close, sample_unmapped_db, round3_fin_zero,
      resolve_city_seed_origin]
    exact seed_prices_no_code_zero 0 p hp
  ⟨rfl, hint, hex, rfl, htable,
    close_without_rate_is_free [] 3600000 3600000 sample_unmapped_db sample_unmapped_close
      rfl hint hex rfl htable⟩

/-- C9 (as stated) fails: the coordinates (0, 0) resolve to no entry of the
seeded catalog (city code 0), yet with a price cache holding 6.0 for code 0
the close of the matching Open row after 60 minutes stores fee 6.00, not
0.0. -/
theorem unmapped_close_is_charged :
    resolve_city sample_unmapped_db.prices sample_unmapped_close.cord_x.round3
        sample_unmapped_close.cord_y.round3 = 0
    ∧ sql_find_city sample_unmapped_db.prices 0 0 = none
    ∧ handle_frame [(0, 6)] 3600000 3600000 sample_unmapped_db sample_unmapped_close
      = (⟨seed_prices 0,
          [{ id := 1, customer_id := "7", city_code := 0, gps_lat := .fin 0,
             gps_lng := .fin 0, status := 0, parking_duration_minutes := 60, ticket_fee := 6,
             created_at := 0, ended_at := some 3600000 }], 1⟩, "OK CLOSED\n") := by
  refine ⟨?_, sql_find_city_seed_origin, ?_⟩
  · simp only [sample_unmapped_db, sample_unmapped_close, round3_fin_zero]
    exact resolve_city_seed_origin
  · have hfind := sql_find_open_append_fresh [] "7" 0 0 0 1 0 (by intro r hr; simp at hr)
    have h := handle_close_found [(0, 6)] 3600000 3600000 sample_unmapped_db
      sample_unmapped_close rfl 1 0
      (by
        simp only [sample_unmapped_close, sample_unmapped_db, round3_fin_zero,
          resolve_city_seed_origin, customer_id_of_7]
        simpa using hfind)
    rw [h]
    simp only [sample_unmapped_close, sample_unmapped_db, round3_fin_zero,
      resolve_city_seed_origin]
    have hm : sql_minutes 3600000 0 = 60 := by decide
    have hp : price_per_hour [(0, 6)] (seed_prices 0) 0 = 6 := by
      simp [price_per_hour, cache_find]
    have hint : sqlite3_column_int ((1 : Nat) : Int) = 1 := by decide
    rw [hm, hp, ticket_fee_6_60, hint]
    norm_num [sql_update_close, open_row, close_row, ok_closed]

theorem sql_minutes_elapsed (sql_now created_at : Timestamp) (h : created_at ≤ sql_now) :
    ⌊((sql_now : ℚ) - created_at) / 60000⌋ ≤ sql_minutes sql_now created_at
    ∧ sql_minutes sql_now created_at ≤ ⌊((sql_now : ℚ) - created_at) / 60000⌋ + 1 := by
  have hfl : ⌊((sql_now : ℚ) - created_at) / 60000⌋
      = (((sql_now : Int) - created_at) / 60000 : Int) := by
    have hq : ((sql_now : ℚ) - created_at) / 60000
        = (((sql_now : Int) - created_at : Int) : ℚ) / ((60000 : Nat) : ℚ) := by
      push_cast
      rfl
    rw [hq, Rat.floor_intCast_div_natCast]
    rfl
  have h2 : ((created_at : Nat) : Int) ≤ ((sql_now : Nat) : Int) := by exact_mod_cast h
  have hs : strftime_s created_at ≤ strftime_s sql_now := by
    unfold strftime_s
    omega
  rw [hfl]
  unfold sql_minutes
  rw [Int.tdiv_eq_ediv (by omega) (by norm_num)]
  unfold strftime_s at hs ⊢
  omega

/-- C10 (as it holds): the minutes computed by `sql_minutes` are the
difference of the two timestamps, each cut to whole seconds, divided by 60
and truncated toward zero: the floor of that quotient when the close time is
not before `created_at`, its ceiling when it is.  For a close time not
before `created_at` the result is the floor of the elapsed time in minutes
(timestamps in milliseconds, so the elapsed time over 60000) or one more. -/
theorem sql_minutes_truncates (sql_now created_at : Timestamp) :
    (strftime_s created_at ≤ strftime_s sql_now →
      sql_minutes sql_now created_at
        = ⌊((strftime_s sql_now - strftime_s created_at : Int) : ℚ) / 60⌋)
    ∧ (strftime_s sql_now < strftime_s created_at →
      sql_minutes sql_now created_at
        = ⌈((strftime_s sql_now - strftime_s created_at : Int) : ℚ) / 60⌉)
    ∧ (created_at ≤ sql_now →
      ⌊((sql_now : ℚ) - created_at) / 60000⌋ ≤ sql_minutes sql_now created_at
      ∧ sql_minutes sql_now created_at ≤ ⌊((sql_now : ℚ) - created_at) / 60000⌋ + 1) :=
  ⟨sql_minutes_nonneg_floor sql_now created_at, sql_minutes_neg_ceil sql_now created_at,
    sql_minutes_elapsed sql_now created_at⟩

/-- Witness of C10: a close 7530 seconds after the open, a close 30 seconds before it,
and a close 59.203 seconds after an open at 0.9 seconds. -/
theorem sql_minutes_truncates_witness :
    strftime_s 1000000000 ≤ strftime_s 1007530000
    ∧ sql_minutes 1007530000 1000000000
        = ⌊((strftime_s 1007530000 - strftime_s 1000000000 : Int) : ℚ) / 60⌋
    ∧ strftime_s 1000000000 < strftime_s 1000030000
    ∧ sql_minutes 1000000000 1000030000
        = ⌈((strftime_s 1000000000 - strftime_s 1000030000 : Int) : ℚ) / 60⌉
    ∧ (900 : Timestamp) ≤ 60103
    ∧ ⌊(((60103 : Timestamp) : ℚ) - (900 : Timestamp)) / 60000⌋ ≤ sql_minutes 60103 900
    ∧ sql_minutes 60103 900 ≤ ⌊(((60103 : Timestamp) : ℚ) - (900 : Timestamp)) / 60000⌋ + 1 :=
  have h1 : strftime_s 1000000000 ≤ strftime_s 1007530000 := by decide
  have h2 : strftime_s 1000000000 < strftime_s 1000030000 := by decide
  have h3 : (900 : Timestamp) ≤ 60103 := by decide
  ⟨h1, (sql_minutes_truncates 1007530000 1000000000).1 h1, h2,
    (sql_minutes_truncates 1000000000 1000030000).2.1 h2, h3,
    ((sql_minutes_truncates 60103 900).2.2 h3).1,
    ((sql_minutes_truncates 60103 900).2.2 h3).2⟩

/-- C10 (as stated) fails: a session stored with `created_at` at 0.900 s and
closed at 60.103 s has lasted 59.203 s, so `floor((now - created_at) / 60)`
is 0, but the statement subtracts the whole seconds 60 and 0 and yields 1
minute.  For a close time 30 seconds before the stored `created_at` the
statement yields 0 minutes, whereas the floor is -1. -/
theorem sql_minutes_not_floor :
    sql_minutes 60103 900 = 1
    ∧ ⌊(((60103 : Timestamp) : ℚ) - (900 : Timestamp)) / 60000⌋ = 0
    ∧ sql_minutes 1000000000 1000030000 = 0
    ∧ ⌊((strftime_s 1000000000 - strftime_s 1000030000 : Int) : ℚ) / 60⌋ = -1 := by
  refine ⟨by decide, ?_, by decide, ?_⟩
  · norm_num [Int.floor_eq_iff]
  · norm_num [strftime_s, Int.floor_eq_iff]

/-! ## Lemmas on the ledger invariants -/

theorem not_conflict_close_row_left (a b : CustomerRow) (minutes : Int) (fee : ℚ)
    (ended_at : Timestamp) : ¬ OpenConflict (close_row a minutes fee ended_at) b := by
  intro h
  have := h.1
  simp [close_row] at this

theorem not_conflict_close_row_right (a b : CustomerRow) (minutes : Int) (fee : ℚ)
    (ended_at : Timestamp) : ¬ OpenConflict a (close_row b minutes fee ended_at) := by
  intro h
  have := h.2.1
  simp [close_row] at this

theorem singleOpen_update_close (rows : List CustomerRow) (minutes : Int) (fee : ℚ)
    (ended_at : Timestamp) (rowid : Int) (h : SingleOpen rows) :
    SingleOpen (sql_update_close rows minutes fee ended_at rowid) := by
  unfold SingleOpen sql_update_close at *
  rw [List.pairwise_map]
  refine h.imp ?_
  intro a b hab
  by_cases ha : (a.id : Int) = rowid
  · rw [if_pos ha]; exact not_conflict_close_row_left _ _ _ _ _
  · rw [if_neg ha]
    by_cases hb : (b.id : Int) = rowid
    · rw [if_pos hb]; exact not_conflict_close_row_right _ _ _ _ _
    · rw [if_neg hb]; exact hab

theorem singleOpen_insert (rows : List CustomerRow) (id : Nat) (customer_id : String)
    (city_code : Int) (x y : CDouble) (now : Timestamp) (h : SingleOpen rows)
    (hno : ∀ r ∈ rows, open_where customer_id city_code x y r = false) :
    SingleOpen (rows ++ [open_row id customer_id city_code x y now]) := by
  unfold SingleOpen at *
  rw [List.pairwise_append]
  refine ⟨h, List.pairwise_singleton _ _, ?_⟩
  intro a ha b hb
  rw [List.mem_singleton] at hb
  subst hb
  intro hc
  have hf := hno a ha
  rw [← not_openKeyMatch_iff] at hf
  apply hf
  obtain ⟨h1, _, h3, h4, h5, h6⟩ := hc
  exact ⟨h3, h4, h5, h6, h1⟩

theorem handle_frame_cases (cache : PriceCache) (sql_now now : Timestamp) (db : Db)
    (f : DecodedFrame) :
    (handle_frame cache sql_now now db f).1 = db
    ∨ ((∀ r ∈ db.customer_data,
          open_where (customer_id_of f.dev_id)
            (resolve_city db.prices f.cord_x.round3 f.cord_y.round3)
            f.cord_x.round3 f.cord_y.round3 r = false)
        ∧ (handle_frame cache sql_now now db f).1 =
          sql_insert_open db (customer_id_of f.dev_id)
            (resolve_city db.prices f.cord_x.round3 f.cord_y.round3)
            f.cord_x.round3 f.cord_y.round3 now)
    ∨ (∃ r ∈ db.customer_data, ∃ (minutes : Int) (fee : ℚ),
        r.status = 1
        ∧ (handle_frame cache sql_now now db f).1 =
          { db with
            customer_data :=
              sql_update_close db.customer_data minutes fee now (sqlite3_column_int r.id) }) := by
  by_cases hex : ∃ r ∈ db.customer_data,
      open_where (customer_id_of f.dev_id)
        (resolve_city db.prices f.cord_x.round3 f.cord_y.round3)
        f.cord_x.round3 f.cord_y.round3 r = true
  · by_cases h1 : f.status = 1
    · obtain ⟨r, hr, hm⟩ := hex
      left; rw [handle_open_present cache sql_now now db f h1 r hr hm]
    · by_cases h0 : f.status = 0
      · obtain ⟨r, hr, hm, hres⟩ := handle_close_present cache sql_now now db f h0 hex
        right; right
        refine ⟨r, hr, _, _, ?_, by rw [hres]⟩
        exact ((open_where_iff _ _ _ _ _).mp hm).2.2.2.2
      · left; rw [handle_frame_other_status cache sql_now now db f h1 h0]
  · have hno : ∀ r ∈ db.customer_data,
        open_where (customer_id_of f.dev_id)
          (resolve_city db.prices f.cord_x.round3 f.cord_y.round3)
          f.cord_x.round3 f.cord_y.round3 r = false := by
      intro r hr
      by_contra hc
      exact hex ⟨r, hr, by simpa using hc⟩
    by_cases h1 : f.status = 1
    · right; left
      exact ⟨hno, by rw [handle_open_absent cache sql_now now db f h1 hno]⟩
    · by_cases h0 : f.status = 0
      · left; rw [handle_close_absent cache sql_now now db f h0 hno]
      · left; rw [handle_frame_other_status cache sql_now now db f h1 h0]

theorem handle_frame_singleOpen (cache : PriceCache) (sql_now now : Timestamp) (db : Db)
    (f : DecodedFrame) (h : SingleOpen db.customer_data) :
    SingleOpen (handle_frame cache sql_now now db f).1.customer_data := by
  rcases handle_frame_cases cache sql_now now db f with h1 | ⟨hno, h1⟩ | ⟨r, _, m, fee, _, h1⟩
  · rw [h1]; exact h
  · rw [h1]; exact singleOpen_insert _ _ _ _ _ _ _ h hno
  · rw [h1]; exact singleOpen_update_close _ _ _ _ _ h

theorem round3_grid (v : ℚ) : ∃ k : Int, round3 v = k / 1000 := by
  obtain ⟨k, hk⟩ := c_round_int (v * 1000)
  exact ⟨k, by unfold round3; rw [hk]⟩

theorem round3_fin_grid (v : CDouble) (a : ℚ) (h : v.round3 = .fin a) :
    ∃ k : Int, a = k / 1000 := by
  obtain ⟨q, _, hq⟩ := (round3_finite_iff v a).mp h
  obtain ⟨k, hk⟩ := round3_grid q
  exact ⟨k, by rw [← hq, hk]⟩

theorem handle_frame_onGrid (cache : PriceCache) (sql_now now : Timestamp) (db : Db)
    (f : DecodedFrame) (h : ∀ r ∈ db.customer_data, OnGrid r) :
    ∀ r ∈ (handle_frame cache sql_now now db f).1.customer_data, OnGrid r := by
  rcases handle_frame_cases cache sql_now now db f with h1 | ⟨_, h1⟩ | ⟨r0, _, m, fee, _, h1⟩
  · rw [h1]; exact h
  · rw [h1]
    intro r hr
    simp only [sql_insert_open, List.mem_append, List.mem_singleton] at hr
    rcases hr with hr | hr
    · exact h r hr
    · subst hr
      exact ⟨fun a ha => round3_fin_grid f.cord_x a ha,
        fun b hb => round3_fin_grid f.cord_y b hb⟩
  · rw [h1]
    intro r hr
    simp only [sql_update_close, List.mem_map] at hr
    obtain ⟨q, hq, hqr⟩ := hr
    by_cases hid : (q.id : Int) = sqlite3_column_int r0.id
    · rw [if_pos hid] at hqr
      subst hqr
      exact h q hq
    · rw [if_neg hid] at hqr
      subst hqr
      exact h q hq

theorem grid_close_eq (a b x : ℚ) (ha : ∃ k : Int, a = k / 1000) (hb : ∃ k : Int, b = k / 1000)
    (h1 : |a - x| < 1 / 10000) (h2 : |b - x| < 1 / 10000) : a = b := by
  obtain ⟨k, rfl⟩ := ha
  obtain ⟨l, rfl⟩ := hb
  rw [abs_lt] at h1 h2
  have h3 : ((k - l : Int) : ℚ) < 1 := by push_cast; linarith
  have h4 : (-1 : ℚ) < ((k - l : Int) : ℚ) := by push_cast; linarith
  have h5 : k - l < 1 := by exact_mod_cast h3
  have h6 : -1 < k - l := by exact_mod_cast h4
  have : k = l := by omega
  rw [this]

theorem grid_near_eq (u v w : CDouble) (hu : ∀ a : ℚ, u = .fin a → ∃ k : Int, a = k / 1000)
    (hv : ∀ a : ℚ, v = .fin a → ∃ k : Int, a = k / 1000)
    (h1 : u.near w = true) (h2 : v.near w = true) : u = v ∧ u.near v = true := by
  obtain ⟨p, x, hp, hx, hpx⟩ := (near_eq_true_iff u w).mp h1
  obtain ⟨q, x2, hq, hx2, hqx⟩ := (near_eq_true_iff v w).mp h2
  rw [hx] at hx2
  cases hx2
  have e : p = q := grid_close_eq p q x (hu p hp) (hv q hq) hpx hqx
  subst e
  rw [hp, hq]
  exact ⟨rfl, by rw [near_fin]; exact near_self p⟩

theorem conflict_of_matches (a b : CustomerRow) (customer_id : String) (city_code : Int)
    (x y : CDouble) (ha : OnGrid a) (hb : OnGrid b)
    (h1 : OpenKeyMatch a customer_id city_code x y)
    (h2 : OpenKeyMatch b customer_id city_code x y) : OpenConflict a b := by
  obtain ⟨a1, a2, a3, a4, a5⟩ := h1
  obtain ⟨b1, b2, b3, b4, b5⟩ := h2
  exact ⟨a5, b5, by rw [a1, b1], by rw [a2, b2],
    (grid_near_eq _ _ x ha.1 hb.1 a3 b3).2, (grid_near_eq _ _ y ha.2 hb.2 a4 b4).2⟩

theorem singleOpen_filter_le_one (rows : List CustomerRow) (customer_id : String)
    (city_code : Int) (x y : CDouble) (hs : SingleOpen rows) (hg : ∀ r ∈ rows, OnGrid r) :
    (rows.filter (open_where customer_id city_code x y)).length ≤ 1 := by
  induction rows with
  | nil => simp
  | cons a rs ih =>
    unfold SingleOpen at hs
    rw [List.pairwise_cons] at hs
    have ih' := ih hs.2 (fun r hr => hg r (List.mem_cons_of_mem _ hr))
    by_cases ha : open_where customer_id city_code x y a = true
    · have hnil : rs.filter (open_where customer_id city_code x y) = [] := by
        rw [List.filter_eq_nil_iff]
        intro b hb hbm
        apply hs.1 b hb
        exact conflict_of_matches a b customer_id city_code x y
          (hg a (List.mem_cons_self _ _)) (hg b (List.mem_cons_of_mem _ hb))
          ((openKeyMatch_iff _ _ _ _ _).mpr ha) ((openKeyMatch_iff _ _ _ _ _).mpr hbm)
      rw [List.filter_cons_of_pos ha, hnil]
      simp
    · rw [List.filter_cons_of_neg ha]
      exact ih'

theorem run_frames_invariant (events : List FrameEvent) (db : Db)
    (hs : SingleOpen db.customer_data) (hg : ∀ r ∈ db.customer_data, OnGrid r) :
    SingleOpen (run_frames db events).customer_data
      ∧ ∀ r ∈ (run_frames db events).customer_data, OnGrid r := by
  induction events generalizing db with
  | nil => exact ⟨hs, hg⟩
  | cons e es ih =>
    simp only [run_frames]
    apply ih
    · exact handle_frame_singleOpen e.cache e.sql_now e.now { db with prices := e.prices } e.frame hs
    · exact handle_frame_onGrid e.cache e.sql_now e.now { db with prices := e.prices } e.frame hg

theorem run_frames_one_match (prices : List PriceRow) (seq : Nat) (events : List FrameEvent)
    (customer_id : String) (city_code : Int) (x y : CDouble) :
    (run_frames ⟨prices, [], seq⟩ events).customer_data.Pairwise
      (fun a b => ¬ (OpenKeyMatch a customer_id city_code x y
        ∧ OpenKeyMatch b customer_id city_code x y)) := by
  obtain ⟨hs, hg⟩ := run_frames_invariant events ⟨prices, [], seq⟩ List.Pairwise.nil
    (by intro r hr; simp at hr)
  refine List.Pairwise.imp_of_mem ?_ hs
  intro a b ha hb hab hc
  exact hab (conflict_of_matches a b customer_id city_code x y (hg a ha) (hg b hb) hc.1 hc.2)

theorem mem_of_getElem?_eq_some (l : List CustomerRow) (i : Nat) (r : CustomerRow)
    (h : l[i]? = some r) : r ∈ l := by
  obtain ⟨hi, hr⟩ := List.getElem?_eq_some.mp h
  rw [← hr]
  exact List.getElem_mem hi

theorem sql_update_close_keeps (rows : List CustomerRow) (minutes : Int) (fee : ℚ)
    (ended_at : Timestamp) (r0 : CustomerRow) (hr0 : r0 ∈ rows) (hopen : r0.status = 1)
    (hkey : (rows.map (fun r => r.id)).Nodup) (i : Nat) (r : CustomerRow)
    (h : rows[i]? = some r) :
    ∃ q, (sql_update_close rows minutes fee ended_at r0.id)[i]? = some q ∧ q.id = r.id
      ∧ (r.status = 0 → q = r) := by
  unfold sql_update_close
  rw [List.getElem?_map, h]
  by_cases hid : r.id = r0.id
  · refine ⟨close_row r minutes fee ended_at, by simp [hid], rfl, ?_⟩
    intro hc
    have hmem := mem_of_getElem?_eq_some rows i r h
    have := List.inj_on_of_nodup_map hkey hmem hr0 hid
    rw [this, hopen] at hc
    exact absurd hc (by decide)
  · exact ⟨r, by simp [hid], rfl, fun _ => rfl⟩

theorem sql_update_close_ids (rows : List CustomerRow) (minutes : Int) (fee : ℚ)
    (ended_at : Timestamp) (rowid : Int) :
    (sql_update_close rows minutes fee ended_at rowid).map (fun r => r.id)
      = rows.map (fun r => r.id) := by
  unfold sql_update_close
  rw [List.map_map]
  apply List.map_congr_left
  intro r _
  by_cases h : (r.id : Int) = rowid <;> simp [h, close_row]

theorem sql_insert_open_ids_nodup (db : Db) (customer_id : String) (city_code : Int)
    (x y : CDouble) (now : Timestamp) (hkey : (db.customer_data.map (fun r => r.id)).Nodup) :
    ((sql_insert_open db customer_id city_code x y now).customer_data.map
      (fun r => r.id)).Nodup := by
  simp only [sql_insert_open, List.map_append, List.map_cons, List.map_nil]
  rw [List.nodup_append]
  refine ⟨hkey, List.nodup_singleton _, ?_⟩
  intro a ha hb
  rw [List.mem_singleton] at hb
  rw [List.mem_map] at ha
  obtain ⟨r, hr, hra⟩ := ha
  have := id_lt_next_rowid db r hr
  simp only [open_row] at hb
  omega

theorem handle_frame_nodup (cache : PriceCache) (sql_now now : Timestamp) (db : Db)
    (f : DecodedFrame) (hkey : (db.customer_data.map (fun r => r.id)).Nodup) :
    ((handle_frame cache sql_now now db f).1.customer_data.map (fun r => r.id)).Nodup := by
  rcases handle_frame_cases cache sql_now now db f with h1 | ⟨_, h1⟩ | ⟨r0, _, m, fee, _, h1⟩
  · rw [h1]; exact hkey
  · rw [h1]; exact sql_insert_open_ids_nodup db _ _ _ _ _ hkey
  · rw [h1]
    simp only
    rw [sql_update_close_ids]
    exact hkey

theorem handle_frame_keeps (cache : PriceCache) (sql_now now : Timestamp) (db : Db)
    (f : DecodedFrame) (hkey : (db.customer_data.map (fun r => r.id)).Nodup)
    (hint : ∀ r ∈ db.customer_data, r.id < 2147483648)
    (i : Nat) (r : CustomerRow) (h : db.customer_data[i]? = some r) :
    ∃ q, (handle_frame cache sql_now now db f).1.customer_data[i]? = some q ∧ q.id = r.id
      ∧ (r.status = 0 → q = r) := by
  rcases handle_frame_cases cache sql_now now db f with h1 | ⟨_, h1⟩ | ⟨r0, hr0, m, fee, ho, h1⟩
  · rw [h1]; exact ⟨r, h, rfl, fun _ => rfl⟩
  · rw [h1]
    refine ⟨r, ?_, rfl, fun _ => rfl⟩
    simp only [sql_insert_open]
    rw [List.getElem?_append_left (List.getElem?_eq_some.mp h).1]
    exact h
  · rw [h1, sqlite3_column_int_small r0.id (hint r0 hr0)]
    exact sql_update_close_keeps db.customer_data m fee now r0 hr0 ho hkey i r h

theorem handle_open_keeps (cache : PriceCache) (sql_now now : Timestamp) (db : Db)
    (f : DecodedFrame) (hs : f.status = 1) (i : Nat) (r : CustomerRow)
    (h : db.customer_data[i]? = some r) :
    (handle_frame cache sql_now now db f).1.customer_data[i]? = some r := by
  by_cases hex : ∃ r ∈ db.customer_data,
      open_where (customer_id_of f.dev_id)
        (resolve_city db.prices f.cord_x.round3 f.cord_y.round3)
        f.cord_x.round3 f.cord_y.round3 r = true
  · obtain ⟨q, hq, hm⟩ := hex
    rw [handle_open_present cache sql_now now db f hs q hq hm]
    exact h
  · have hno : ∀ r ∈ db.customer_data,
        open_where (customer_id_of f.dev_id)
          (resolve_city db.prices f.cord_x.round3 f.cord_y.round3)
          f.cord_x.round3 f.cord_y.round3 r = false := by
      intro r hr
      by_contra hc
      exact hex ⟨r, hr, by simpa using hc⟩
    rw [handle_open_absent cache sql_now now db f hs hno]
    simp only [sql_insert_open]
    rw [List.getElem?_append_left (List.getElem?_eq_some.mp h).1]
    exact h

theorem closed_rows_kept_small_ids (cache : PriceCache) (sql_now now : Timestamp) (db : Db)
    (f : DecodedFrame) (hkey : (db.customer_data.map (fun r => r.id)).Nodup)
    (hint : ∀ r ∈ db.customer_data, r.id < 2147483648) :
    (∀ (i : Nat) (r : CustomerRow), db.customer_data[i]? = some r →
      ∃ q, (handle_frame cache sql_now now db f).1.customer_data[i]? = some q ∧ q.id = r.id
        ∧ (r.status = 0 → q = r))
    ∧ (f.status = 1 → ∀ (i : Nat) (r : CustomerRow), db.customer_data[i]? = some r →
      (handle_frame cache sql_now now db f).1.customer_data[i]? = some r)
    ∧ ((handle_frame cache sql_now now db f).1.customer_data.map (fun r => r.id)).Nodup :=
  ⟨fun i r h => handle_frame_keeps cache sql_now now db f hkey hint i r h,
    fun hs i r h => handle_open_keeps cache sql_now now db f hs i r h,
    handle_frame_nodup cache sql_now now db f hkey⟩

theorem windowsOverlap_symm (p q : PriceRow) (h : WindowsOverlap p q) : WindowsOverlap q p := by
  obtain ⟨x, y, hp, hq⟩ := h
  exact ⟨x, y, hq, hp⟩

theorem not_overlap_of_lat_far (p q : PriceRow) (h : 2 / 10000 ≤ |p.gps_lat - q.gps_lat|) :
    ¬ WindowsOverlap p q := by
  rintro ⟨x, y, ⟨h1, _⟩, h2, _⟩
  rw [abs_lt] at h1 h2
  rw [le_abs] at h
  rcases h with h | h <;> linarith [h1.1, h1.2, h2.1, h2.2]

theorem seed_prices_noOverlap (t : Timestamp) : NoOverlap (seed_prices t) := by
  unfold NoOverlap
  refine List.Pairwise.imp (fun {p q} h => not_overlap_of_lat_far p q h) ?_
  simp only [seed_prices, List.pairwise_cons, List.mem_cons, List.mem_singleton,
    List.not_mem_nil, forall_eq_or_imp, List.Pairwise.nil]
  norm_num [le_abs]

theorem resolve_city_unique (prices : List PriceRow) (hcat : NoOverlap prices) (p : PriceRow)
    (x y : ℚ) (hp : p ∈ prices)
    (hx : |p.gps_lat - x| < 1 / 10000) (hy : |p.gps_lng - y| < 1 / 10000) :
    resolve_city prices (.fin x) (.fin y) = p.city_code := by
  rcases resolve_city_cases prices x y with ⟨q, hq, h1, h2, h3⟩ | ⟨hno, _⟩
  · rw [h3]
    by_cases hpq : p = q
    · rw [hpq]
    · have hsym : Symmetric (fun p q : PriceRow => ¬ WindowsOverlap p q) :=
        fun a b hab hba => hab (windowsOverlap_symm b a hba)
      exact absurd ⟨x, y, ⟨hx, hy⟩, h1, h2⟩ (hcat.forall hsym hp hq hpq)
  · exact absurd ⟨hx, hy⟩ (hno p hp)

/-! ## Claims on location resolution and ledger invariants -/

/-- C11: in a catalog whose entries have no overlapping tolerance windows (the
invariant of the catalog), a pair at distance 0.00005 on each axis from an
entry resolves to that entry's city code; an entry at distance 0.0002 on each
axis from a pair fails the test of the statement and is not the row found;
a pair with no entry within `0.0001` on both axes resolves to code 0, and so
does every pair with an infinity or a NaN in it. -/
theorem resolve_city_by_proximity (prices : List PriceRow) (hcat : NoOverlap prices)
    (x y : ℚ) :
    (∀ p ∈ prices, |p.gps_lat - x| = 5 / 100000 → |p.gps_lng - y| = 5 / 100000 →
      resolve_city prices (.fin x) (.fin y) = p.city_code)
    ∧ (∀ p : PriceRow, |p.gps_lat - x| = 2 / 10000 → |p.gps_lng - y| = 2 / 10000 →
      (near p.gps_lat x && near p.gps_lng y) = false
      ∧ prices.find? (fun q => near q.gps_lat x && near q.gps_lng y) ≠ some p)
    ∧ ((∀ p ∈ prices, ¬ (|p.gps_lat - x| < 1 / 10000 ∧ |p.gps_lng - y| < 1 / 10000)) →
      resolve_city prices (.fin x) (.fin y) = 0)
    ∧ (∀ u v : CDouble, ((∀ a : ℚ, u ≠ .fin a) ∨ (∀ b : ℚ, v ≠ .fin b)) →
      resolve_city prices u v = 0) := by
  refine ⟨?_, ?_, ?_, ?_⟩
  · intro p hp hx hy
    exact resolve_city_unique prices hcat p x y hp (by rw [hx]; norm_num) (by rw [hy]; norm_num)
  · intro p hx _
    have hfalse : (near p.gps_lat x && near p.gps_lng y) = false := by
      have : near p.gps_lat x = false := by
        rw [← Bool.not_eq_true, near_iff, hx]
        norm_num
      rw [this]
      rfl
    refine ⟨hfalse, fun hfind => ?_⟩
    have hp := List.find?_some hfind
    rw [hfalse] at hp
    exact absurd hp (by decide)
  · intro hno
    rcases resolve_city_cases prices x y with ⟨p, hp, h1, h2, _⟩ | ⟨_, h⟩
    · exact absurd ⟨h1, h2⟩ (hno p hp)
    · exact h
  · rintro u v (h | h)
    · cases hu : u with
      | fin a => exact absurd hu (h a)
      | pos_inf => rfl
      | neg_inf => rfl
      | nan => rfl
    · cases hv : v with
      | fin b => exact absurd hv (h b)
      | pos_inf => cases u <;> rfl
      | neg_inf => cases u <;> rfl
      | nan => cases u <;> rfl

/-- Witness of C11: the seeded catalog has no overlapping windows, and the pair
(31.96205, 34.80205) resolves to 8300, the code of the Rishon Lezion entry at
(31.962, 34.802). -/
theorem resolve_city_by_proximity_witness :
    NoOverlap (seed_prices 0)
    ∧ (⟨"Rishon Lezion", 8300, 31962 / 1000, 34802 / 1000, 5, 0⟩ : PriceRow) ∈ seed_prices 0
    ∧ |(31962 / 1000 : ℚ) - 3196205 / 100000| = 5 / 100000
    ∧ |(34802 / 1000 : ℚ) - 3480205 / 100000| = 5 / 100000
    ∧ resolve_city (seed_prices 0) (.fin (3196205 / 100000)) (.fin (3480205 / 100000)) = 8300 :=
  have hmem : (⟨"Rishon Lezion", 8300, 31962 / 1000, 34802 / 1000, 5, 0⟩ : PriceRow)
      ∈ seed_prices 0 := by simp [seed_prices]
  have hx : |(31962 / 1000 : ℚ) - 3196205 / 100000| = 5 / 100000 := by
    rw [abs_eq (by norm_num)]; norm_num
  have hy : |(34802 / 1000 : ℚ) - 3480205 / 100000| = 5 / 100000 := by
    rw [abs_eq (by norm_num)]; norm_num
  ⟨seed_prices_noOverlap 0, hmem, hx, hy,
    (resolve_city_by_proximity (seed_prices 0) (seed_prices_noOverlap 0)
      (3196205 / 100000) (3480205 / 100000)).1
      ⟨"Rishon Lezion", 8300, 31962 / 1000, 34802 / 1000, 5, 0⟩ hmem hx hy⟩

theorem sample_wrapped_rowid_close (cache : PriceCache) (sql_now now : Timestamp) :
    handle_frame cache sql_now now sample_db_wrapped_rowid sample_close_frame
      = (⟨seed_prices 0,
          [close_row sample_closed_row (sql_minutes sql_now 100000)
              (ticket_fee (price_per_hour cache (seed_prices 0) 8300)
                (sql_minutes sql_now 100000)) now,
            open_row 4294967297 "1610" 8300 (.fin (31962 / 1000)) (.fin (34802 / 1000))
              100000], 4294967297⟩, ok_closed) := by
  have hfind : sql_find_open sample_db_wrapped_rowid.customer_data (customer_id_of 1610)
      (resolve_city (seed_prices 0) (CDouble.fin (31962 / 1000)).round3
        (CDouble.fin (34802 / 1000)).round3)
      (CDouble.fin (31962 / 1000)).round3 (CDouble.fin (34802 / 1000)).round3
      = some (4294967297, 100000) := by
    rw [round3_fin_rishon_lat, round3_fin_rishon_lng, resolve_city_seed_rishon,
      customer_id_of_1610]
    simp [sql_find_open, sample_db_wrapped_rowid, sample_closed_row, open_row,
      open_where, near_fin, near_self, latest]
  rw [handle_close_found cache sql_now now sample_db_wrapped_rowid sample_close_frame rfl
    4294967297 100000 hfind]
  have hint : sqlite3_column_int ((4294967297 : Nat) : Int) = 1 := by decide
  rw [hint]
  simp only [sample_close_frame, sample_db_wrapped_rowid, round3_fin_rishon_lat,
    round3_fin_rishon_lng, resolve_city_seed_rishon]
  simp [sql_update_close, sample_closed_row, open_row]

/-- C13 (the code at the failing input): the ledger holds the closed session
of rowid 1 (30 minutes, fee 2.50) and an Open session of device 1610 with
rowid 4294967297; the close frame of the device finds the Open row,
`sqlite3_column_int` turns its rowid into 1, and the UPDATE rewrites the
closed row (60 minutes, fee 5.00, a new `ended_at`) while the Open row stays
as it was. -/
theorem wrapped_rowid_rewrites_closed_row :
    (sample_db_wrapped_rowid.customer_data.map (fun r => r.id)).Nodup
    ∧ sample_db_wrapped_rowid.customer_data[0]? = some sample_closed_row
    ∧ sample_closed_row.status = 0
    ∧ sqlite3_column_int 4294967297 = 1
    ∧ handle_frame [] 3700000 3700000 sample_db_wrapped_rowid sample_close_frame
      = (⟨seed_prices 0,
          [{ id := 1, customer_id := "1610", city_code := 8300,
             gps_lat := .fin (31962 / 1000), gps_lng := .fin (34802 / 1000), status := 0,
             parking_duration_minutes := 60, ticket_fee := 5, created_at := 1000,
             ended_at := some 3700000 },
           { id := 4294967297, customer_id := "1610", city_code := 8300,
             gps_lat := .fin (31962 / 1000), gps_lng := .fin (34802 / 1000), status := 1,
             parking_duration_minutes := 0, ticket_fee := 0, created_at := 100000,
             ended_at := none }], 4294967297⟩, "OK CLOSED\n")
    ∧ (handle_frame [] 3700000 3700000 sample_db_wrapped_rowid
        sample_close_frame).1.customer_data[0]? ≠ some sample_closed_row := by
  have hm : sql_minutes 3700000 100000 = 60 := by decide
  have hp : price_per_hour [] (seed_prices 0) 8300 = 5 := by
    simp [price_per_hour, cache_find, sql_price_seed_rishon]
  have hfee : ticket_fee 5 60 = 5 := by rw [ticket_fee_5_60]; norm_num
  have hres := sample_wrapped_rowid_close [] 3700000 3700000
  rw [hm, hp, hfee] at hres
  refine ⟨by simp [sample_db_wrapped_rowid, sample_closed_row, open_row], rfl, rfl,
    by decide, ?_, ?_⟩
  · rw [hres]
    rfl
  · rw [hres]
    simp [close_row, sample_closed_row]

/-! ## Lemmas on the wire frame -/

theorem bytes16 (v : Nat) (h : v < 65536) :
    ∃ b0 b1 : Nat, b0 < 256 ∧ b1 < 256 ∧ v = b0 + 256 * b1 :=
  ⟨v % 256, v / 256, by omega, by omega, by omega⟩

theorem bytes32 (v : Nat) (h : v < 4294967296) :
    ∃ b0 b1 b2 b3 : Nat, b0 < 256 ∧ b1 < 256 ∧ b2 < 256 ∧ b3 < 256
      ∧ v = b0 + 256 * b1 + 65536 * b2 + 16777216 * b3 :=
  ⟨v % 256, v / 256 % 256, v / 65536 % 256, v / 16777216, by omega, by omega, by omega,
    by omega, by omega⟩

theorem htons_bytes (b0 b1 : Nat) (h0 : b0 < 256) (h1 : b1 < 256) :
    htons (b0 + 256 * b1) = b1 + 256 * b0 := by
  unfold htons; omega

theorem ntohs_bytes (b0 b1 : Nat) (h0 : b0 < 256) (h1 : b1 < 256) :
    ntohs (b0 + 256 * b1) = b1 + 256 * b0 := by
  unfold ntohs; omega

theorem le16_bytes (b0 b1 : Nat) (h0 : b0 < 256) (h1 : b1 < 256) :
    le16 (b0 + 256 * b1) = [b0, b1] := by
  unfold le16
  have e0 : (b0 + 256 * b1) % 256 = b0 := by omega
  have e1 : (b0 + 256 * b1) / 256 % 256 = b1 := by omega
  rw [e0, e1]

theorem le32_bytes (b0 b1 b2 b3 : Nat) (h0 : b0 < 256) (h1 : b1 < 256) (h2 : b2 < 256)
    (h3 : b3 < 256) :
    le32 (b0 + 256 * b1 + 65536 * b2 + 16777216 * b3) = [b0, b1, b2, b3] := by
  unfold le32
  have e0 : (b0 + 256 * b1 + 65536 * b2 + 16777216 * b3) % 256 = b0 := by omega
  have e1 : (b0 + 256 * b1 + 65536 * b2 + 16777216 * b3) / 256 % 256 = b1 := by omega
  have e2 : (b0 + 256 * b1 + 65536 * b2 + 16777216 * b3) / 65536 % 256 = b2 := by omega
  have e3 : (b0 + 256 * b1 + 65536 * b2 + 16777216 * b3) / 16777216 % 256 = b3 := by omega
  rw [e0, e1, e2, e3]

theorem ntohl_bytes (b0 b1 b2 b3 : Nat) (h0 : b0 < 256) (h1 : b1 < 256) (h2 : b2 < 256)
    (h3 : b3 < 256) :
    ntohl (b0 + 256 * b1 + 65536 * b2 + 16777216 * b3)
      = b3 + 256 * b2 + 65536 * b1 + 16777216 * b0 := by
  unfold ntohl
  have e0 : (b0 + 256 * b1 + 65536 * b2 + 16777216 * b3) % 256 = b0 := by omega
  have e1 : (b0 + 256 * b1 + 65536 * b2 + 16777216 * b3) / 256 % 256 = b1 := by omega
  have e2 : (b0 + 256 * b1 + 65536 * b2 + 16777216 * b3) / 65536 % 256 = b2 := by omega
  have e3 : (b0 + 256 * b1 + 65536 * b2 + 16777216 * b3) / 16777216 % 256 = b3 := by omega
  rw [e0, e1, e2, e3]
  omega

/-! ## Lemmas on the shared segment -/

theorem cache_find_assign (cache : PriceCache) (code : Int) (price : ℚ) (k : Int) :
    cache_find (cache_assign cache code price) k
      = if k = code then some price else cache_find cache k := by
  unfold cache_find cache_assign
  by_cases h : k = code
  · subst h
    simp
  · rw [if_neg h]
    have h' : ¬ code = k := fun e => h e.symm
    rw [List.find?_cons_of_neg _ (by simpa using h')]
    congr 1
    induction cache with
    | nil => rfl
    | cons a rest ih =>
      by_cases ha : a.1 = code
      · have hak : ¬ a.1 = k := by rw [ha]; exact h'
        rw [List.filter_cons_of_neg (by simpa using ha), ih,
          List.find?_cons_of_neg _ (by simpa using hak)]
      · rw [List.filter_cons_of_pos (by simpa using ha)]
        by_cases hak : a.1 = k
        · rw [List.find?_cons_of_pos _ (by simpa using hak),
            List.find?_cons_of_pos _ (by simpa using hak)]
        · rw [List.find?_cons_of_neg _ (by simpa using hak),
            List.find?_cons_of_neg _ (by simpa using hak), ih]

theorem cache_find_nil (k : Int) : cache_find [] k = none := rfl

theorem cache_find_foldl_assign (recs : List (Int × ℚ)) (cache : PriceCache)
    (hk : (recs.map (fun kv => kv.1)).Nodup) (k : Int) (rate : ℚ) :
    cache_find (recs.foldl (fun c kv => cache_assign c kv.1 kv.2) cache) k = some rate
      ↔ ((k, rate) ∈ recs ∨ ((∀ v, (k, v) ∉ recs) ∧ cache_find cache k = some rate)) := by
  induction recs generalizing cache with
  | nil => simp
  | cons a rest ih =>
    rw [List.map_cons, List.nodup_cons] at hk
    rw [List.foldl_cons, ih _ hk.2, cache_find_assign]
    have hnot : ∀ v, (a.1, v) ∉ rest := by
      intro v hv
      exact hk.1 (List.mem_map.mpr ⟨(a.1, v), hv, rfl⟩)
    constructor
    · rintro (h | ⟨h1, h2⟩)
      · exact Or.inl (List.mem_cons_of_mem _ h)
      · by_cases hka : k = a.1
        · rw [if_pos hka] at h2
          left
          rw [hka]
          simp only [Option.some.injEq] at h2
          rw [← h2]
          exact List.mem_cons_self _ _
        · rw [if_neg hka] at h2
          right
          refine ⟨fun v hv => ?_, h2⟩
          rcases List.mem_cons.mp hv with e | e
          · exact hka (by rw [← e])
          · exact h1 v e
    · rintro (h | ⟨h1, h2⟩)
      · rcases List.mem_cons.mp h with e | e
        · right
          refine ⟨fun v hv => ?_, ?_⟩
          · rw [← e] at hnot
            exact hnot v hv
          · rw [← e]; simp
        · exact Or.inl e
      · right
        have hka : k ≠ a.1 := by
          intro e
          apply h1 a.2
          rw [e]
          exact List.mem_cons_self _ _
        exact ⟨fun v hv => h1 v (List.mem_cons_of_mem _ hv), by rw [if_neg hka]; exact h2⟩

theorem load_loop_some (seg : ShmSegment) (mapped todo i : Nat) (cache : PriceCache)
    (h : record_offset (i + todo) ≤ mapped) :
    load_loop seg mapped todo i cache
      = some (((List.range' i todo).map (read_record seg)).foldl
          (fun c kv => cache_assign c kv.1 kv.2) cache) := by
  induction todo generalizing i cache with
  | zero => simp [load_loop]
  | succ t ih =>
    have h1 : record_offset i + 12 ≤ mapped := by unfold record_offset at *; omega
    have h2 : record_offset (i + 1 + t) ≤ mapped := by unfold record_offset at *; omega
    rw [load_loop, if_pos h1, ih _ _ h2]
    simp [List.range'_succ]

theorem load_loop_none (seg : ShmSegment) (mapped todo i : Nat) (cache : PriceCache)
    (ht : 0 < todo) (h : mapped < record_offset (i + todo)) :
    load_loop seg mapped todo i cache = none := by
  induction todo generalizing i cache with
  | zero => omega
  | succ t ih =>
    rw [load_loop]
    by_cases h1 : record_offset i + 12 ≤ mapped
    · rw [if_pos h1]
      have ht' : 0 < t := by
        rcases Nat.eq_zero_or_pos t with e | e
        · subst e; unfold record_offset at *; omega
        · exact e
      exact ih _ _ ht' (by unfold record_offset at *; omega)
    · rw [if_neg h1]

theorem segment_records_eq (seg : ShmSegment) :
    segment_records seg = (List.range' 0 seg.count).map (read_record seg) := by
  unfold segment_records
  rw [List.range_eq_range']

theorem le_page_ceil (n : Nat) : n ≤ page_ceil n := by
  unfold page_ceil PAGE_SIZE
  omega

theorem min_le_readable_bytes (length size : Nat) :
    min length size ≤ readable_bytes length size := by
  unfold readable_bytes
  have h1 := le_page_ceil length
  have h2 := le_page_ceil size
  omega

theorem readable_bytes_updater : readable_bytes SHM_SIZE UPDATER_SHM_SIZE = 4096 := by
  decide

theorem load_existing_pages (seg : ShmSegment) (cache : PriceCache)
    (hfit : record_offset seg.count ≤ readable_bytes SHM_SIZE seg.size) :
    load_prices_from_shm (some seg) cache
      = some (seg, (segment_records seg).foldl (fun c kv => cache_assign c kv.1 kv.2) []) := by
  have h8 : 8 ≤ readable_bytes SHM_SIZE seg.size := by unfold record_offset at hfit; omega
  unfold load_prices_from_shm
  simp only [h8, if_true]
  rw [load_loop_some seg _ seg.count 0 [] (by rw [Nat.zero_add]; exact hfit),
    segment_records_eq]
  rfl

theorem load_existing (seg : ShmSegment) (cache : PriceCache)
    (hfit : record_offset seg.count ≤ min SHM_SIZE seg.size) :
    load_prices_from_shm (some seg) cache
      = some (seg, (segment_records seg).foldl (fun c kv => cache_assign c kv.1 kv.2) []) :=
  load_existing_pages seg cache (le_trans hfit (min_le_readable_bytes SHM_SIZE seg.size))

theorem of_le_bytes_four (a0 a1 a2 a3 : Nat) :
    of_le_bytes [a0, a1, a2, a3] = a0 + 256 * a1 + 65536 * a2 + 16777216 * a3 := by
  simp only [of_le_bytes]
  omega

theorem reversed_eq_iff (a0 a1 a2 a3 : Nat) (h0 : a0 < 256) (h1 : a1 < 256) (h2 : a2 < 256) :
    a3 + 256 * a2 + 65536 * a1 + 16777216 * a0 = a0 + 256 * a1 + 65536 * a2 + 16777216 * a3
      ↔ [a3, a2, a1, a0] = [a0, a1, a2, a3] := by
  constructor
  · intro h
    have e1 : a3 = a0 := by omega
    subst e1
    have e2 : a2 = a1 := by omega
    subst e2
    rfl
  · intro h
    simp only [List.cons.injEq, and_true] at h
    obtain ⟨e1, e2, _, _⟩ := h
    subst e1
    subst e2
    rfl

/-! ## Claims on the wire frame -/

/-- C14: for every 16-bit `device_id` and `status`, `ntohs` applied to
`htons` gives the value back, and the server's decode of the relay's 12 bytes
returns the `device_id` and the `status` that were encoded. -/
theorem sixteen_bit_round_trip (r : SensorReading) (hid : r.id < 65536)
    (hst : r.status < 65536) :
    ntohs (htons r.id) = r.id ∧ ntohs (htons r.status) = r.status
    ∧ (server_decode (relay_encode r)).dev_id = r.id
    ∧ (server_decode (relay_encode r)).status = r.status := by
  obtain ⟨i0, i1, hi0, hi1, hi⟩ := bytes16 r.id hid
  obtain ⟨s0, s1, hs0, hs1, hs⟩ := bytes16 r.status hst
  refine ⟨?_, ?_, ?_, ?_⟩
  · rw [hi, htons_bytes _ _ hi0 hi1, ntohs_bytes _ _ hi1 hi0]
  · rw [hs, htons_bytes _ _ hs0 hs1, ntohs_bytes _ _ hs1 hs0]
  · simp only [server_decode, relay_encode, hi, htons_bytes _ _ hi0 hi1, le16_bytes _ _ hi1 hi0]
    simp only [List.cons_append, List.nil_append, List.take, of_le_bytes, Nat.mul_zero,
      Nat.add_zero]
    rw [ntohs_bytes _ _ hi1 hi0]
  · simp only [server_decode, relay_encode, hs, htons_bytes _ _ hs0 hs1, le16_bytes _ _ hs1 hs0]
    simp only [le16, le32, List.cons_append, List.nil_append, List.take, List.drop, of_le_bytes,
      Nat.mul_zero, Nat.add_zero]
    rw [ntohs_bytes _ _ hs1 hs0]

/-- Witness of C14: the frame of device 1610 with status 1. -/
theorem sixteen_bit_round_trip_witness :
    sample_reading.id < 65536 ∧ sample_reading.status < 65536
    ∧ (server_decode (relay_encode sample_reading)).dev_id = 1610
    ∧ (server_decode (relay_encode sample_reading)).status = 1 :=
  ⟨by decide, by decide,
    (sixteen_bit_round_trip sample_reading (by decide) (by decide)).2.2.1,
    (sixteen_bit_round_trip sample_reading (by decide) (by decide)).2.2.2⟩

/-- C15: the relay puts the four bytes of each float into the frame as they
lie in memory, and the pattern the server obtains through
`float_from_big_endian` is the one made of these four bytes in reverse order;
it is the sent pattern exactly when the four bytes read the same in both
directions; and `float_from_big_endian` applied twice gives a pattern
back. -/
theorem coordinate_bytes_reversed (r : SensorReading) (hx : r.x_bits < 4294967296)
    (hy : r.y_bits < 4294967296) :
    ((relay_encode r).drop 2).take 4 = le32 r.x_bits
    ∧ ((relay_encode r).drop 6).take 4 = le32 r.y_bits
    ∧ (server_decode (relay_encode r)).x_bits = of_le_bytes (le32 r.x_bits).reverse
    ∧ (server_decode (relay_encode r)).y_bits = of_le_bytes (le32 r.y_bits).reverse
    ∧ ((server_decode (relay_encode r)).x_bits = r.x_bits
        ↔ (le32 r.x_bits).reverse = le32 r.x_bits)
    ∧ ((server_decode (relay_encode r)).y_bits = r.y_bits
        ↔ (le32 r.y_bits).reverse = le32 r.y_bits)
    ∧ float_from_big_endian (float_from_big_endian r.x_bits) = r.x_bits
    ∧ float_from_big_endian (float_from_big_endian r.y_bits) = r.y_bits := by
  obtain ⟨a0, a1, a2, a3, ha0, ha1, ha2, ha3, ha⟩ := bytes32 r.x_bits hx
  obtain ⟨b0, b1, b2, b3, hb0, hb1, hb2, hb3, hb⟩ := bytes32 r.y_bits hy
  have ea : a0 + 256 * (a1 + 256 * (a2 + 256 * a3))
      = a0 + 256 * a1 + 65536 * a2 + 16777216 * a3 := by omega
  have eb : b0 + 256 * (b1 + 256 * (b2 + 256 * b3))
      = b0 + 256 * b1 + 65536 * b2 + 16777216 * b3 := by omega
  have na := ntohl_bytes a0 a1 a2 a3 ha0 ha1 ha2 ha3
  have nb := ntohl_bytes b0 b1 b2 b3 hb0 hb1 hb2 hb3
  have dx : (server_decode (relay_encode r)).x_bits
      = a3 + 256 * a2 + 65536 * a1 + 16777216 * a0 := by
    simp only [server_decode, relay_encode, ha, le32_bytes _ _ _ _ ha0 ha1 ha2 ha3]
    simp only [le16, le32, List.cons_append, List.nil_append, List.take, List.drop, of_le_bytes,
      Nat.mul_zero, Nat.add_zero, float_from_big_endian]
    rw [ea, na]
  have dy : (server_decode (relay_encode r)).y_bits
      = b3 + 256 * b2 + 65536 * b1 + 16777216 * b0 := by
    simp only [server_decode, relay_encode, hb, le32_bytes _ _ _ _ hb0 hb1 hb2 hb3]
    simp only [le16, le32, List.cons_append, List.nil_append, List.take, List.drop, of_le_bytes,
      Nat.mul_zero, Nat.add_zero, float_from_big_endian]
    rw [eb, nb]
  rw [dx, dy, ha, hb, le32_bytes _ _ _ _ ha0 ha1 ha2 ha3, le32_bytes _ _ _ _ hb0 hb1 hb2 hb3]
  have ra : [a0, a1, a2, a3].reverse = [a3, a2, a1, a0] := rfl
  have rb : [b0, b1, b2, b3].reverse = [b3, b2, b1, b0] := rfl
  rw [ra, rb, of_le_bytes_four, of_le_bytes_four]
  refine ⟨?_, ?_, rfl, rfl, reversed_eq_iff a0 a1 a2 a3 ha0 ha1 ha2,
    reversed_eq_iff b0 b1 b2 b3 hb0 hb1 hb2, ?_, ?_⟩
  · simp only [relay_encode, le16, ha, le32_bytes _ _ _ _ ha0 ha1 ha2 ha3]
    rfl
  · simp only [relay_encode, le16, ha, hb, le32_bytes _ _ _ _ ha0 ha1 ha2 ha3,
      le32_bytes _ _ _ _ hb0 hb1 hb2 hb3]
    rfl
  · unfold float_from_big_endian
    rw [na, ntohl_bytes a3 a2 a1 a0 ha3 ha2 ha1 ha0]
  · unfold float_from_big_endian
    rw [nb, ntohl_bytes b3 b2 b1 b0 hb3 hb2 hb1 hb0]

/-- Witness of C15: the float 31.962 is sent as the pattern `0x41FFB22D` and decoded as the
pattern `0x2DB2FF41`. -/
theorem coordinate_bytes_reversed_witness :
    sample_reading.x_bits < 4294967296 ∧ sample_reading.y_bits < 4294967296
    ∧ (server_decode (relay_encode sample_reading)).x_bits
        = of_le_bytes (le32 sample_reading.x_bits).reverse
    ∧ of_le_bytes (le32 sample_reading.x_bits).reverse = 766705473 :=
  ⟨by decide, by decide,
    (coordinate_bytes_reversed sample_reading (by decide) (by decide)).2.2.1, by decide⟩

theorem map_getD_range_append (m rest : List (Int × ℚ)) :
    (List.range m.length).map (fun i => (m ++ rest).getD i (0, 0)) = m := by
  apply List.ext_getElem
  · simp
  · intro i h1 h2
    simp only [List.getElem_map, List.getElem_range]
    rw [List.getD_eq_getElem?_getD, List.getElem?_append_left h2, List.getElem?_eq_getElem h2]
    rfl

theorem segment_records_written (prices : PriceCache) (rest : List (Int × ℚ)) (size : Nat) :
    segment_records ⟨size, prices.length, prices ++ rest⟩ = prices := by
  unfold segment_records read_record
  exact map_getD_range_append prices rest

theorem cache_find_eq_some_iff_mem (m : PriceCache) (hk : (m.map (fun kv => kv.1)).Nodup)
    (k : Int) (rate : ℚ) : cache_find m k = some rate ↔ (k, rate) ∈ m := by
  induction m with
  | nil => simp [cache_find]
  | cons a rest ih =>
    rw [List.map_cons, List.nodup_cons] at hk
    unfold cache_find at ih ⊢
    by_cases ha : a.1 = k
    · rw [List.find?_cons_of_pos _ (by simpa using ha)]
      simp only [Option.map_some', Option.some.injEq, List.mem_cons]
      constructor
      · intro h; left; rw [← ha, ← h]
      · rintro (h | h)
        · rw [← h]
        · exfalso
          apply hk.1
          rw [ha]
          exact List.mem_map.mpr ⟨(k, rate), h, rfl⟩
    · rw [List.find?_cons_of_neg _ (by simpa using ha), ih hk.2, List.mem_cons]
      constructor
      · exact Or.inr
      · rintro (h | h)
        · exact absurd (by rw [← h]) ha
        · exact h

theorem shm_round_trip_stored (prices cache : PriceCache) (shm : Option ShmSegment)
    (hk : (prices.map (fun kv => kv.1)).Nodup)
    (hw : record_offset prices.length ≤ UPDATER_SHM_SIZE) :
    ∃ seg cache1, write_prices_to_shm prices shm = some seg
      ∧ load_prices_from_shm (some seg) cache = some (seg, cache1)
      ∧ ∀ k, cache_find cache1 k = cache_find prices k := by
  refine ⟨⟨UPDATER_SHM_SIZE, prices.length,
      prices ++ ((shm.map (fun seg => seg.records)).getD []).drop prices.length⟩,
    (segment_records ⟨UPDATER_SHM_SIZE, prices.length,
      prices ++ ((shm.map (fun seg => seg.records)).getD []).drop prices.length⟩).foldl
        (fun c kv => cache_assign c kv.1 kv.2) [], ?_, ?_, ?_⟩
  · unfold write_prices_to_shm
    rw [if_pos hw]
  · exact load_existing_pages _ cache (by
      rw [readable_bytes_updater]
      simp only [UPDATER_SHM_SIZE] at hw ⊢
      omega)
  · intro k
    rw [segment_records_written]
    cases h : cache_find prices k with
    | none =>
      cases h2 : cache_find (prices.foldl (fun c kv => cache_assign c kv.1 kv.2) []) k with
      | none => rfl
      | some r =>
        rw [cache_find_foldl_assign prices [] hk k r] at h2
        rcases h2 with h2 | ⟨_, h2⟩
        · rw [← cache_find_eq_some_iff_mem prices hk, h] at h2
          exact absurd h2 (by simp)
        · simp [cache_find] at h2
    | some r =>
      rw [cache_find_foldl_assign prices [] hk k r]
      left
      exact (cache_find_eq_some_iff_mem prices hk k r).mp h

/-! ## Evaluation of the samples -/

theorem sample_short_read : read_n_nonblocking 12 [sample_short_pass, sample_close_pass] ⟨[], false⟩ []
      = some (5, [6, 74, 0, 0, 0], ⟨[], true⟩, []) := by
  decide

theorem sample_short_decode (float_value : Nat → CDouble) :
    decode_frame float_value (raw_after sample_stale_raw [6, 74, 0, 0, 0])
      = ⟨1610, float_value 0, float_value 0, 1⟩ := by
  simp [decode_frame, server_decode, raw_after, sample_stale_raw, of_le_bytes, ntohs,
    float_from_big_endian, ntohl]

theorem resolve_city_nil (x y : CDouble) : resolve_city [] x y = 0 := by
  cases x <;> cases y <;> rfl

theorem sample_short_after (float_value : Nat → CDouble) :
    after_read float_value none 0 0 sample_stale_raw sample_empty_server 5 [6, 74, 0, 0, 0]
      = some (⟨⟨[], [open_row 1 "1610" 0 (float_value 0).round3 (float_value 0).round3 0], 1⟩,
            [], none⟩, "", true) := by
  have h := handle_open_absent [] 0 0 ⟨[], [], 0⟩ ⟨1610, float_value 0, float_value 0, 1⟩ rfl
    (by intro r hr; simp at hr)
  simp only [after_read, sample_empty_server, sample_short_decode, h]
  simp [sql_insert_open, next_rowid, max_rowid, resolve_city_nil, customer_id_of_1610]

theorem sample_reload_no_shm :
    reload (some [some (8300, 15 / 2)]) sample_server_no_shm
      = some ⟨⟨sql_update_price (seed_prices 0) (15 / 2) 8300, [], 0⟩,
          [(8300, 15 / 2), (5000, 5)], some ⟨1024, 0, []⟩⟩ := by
  simp [reload, load_prices_from_shm, update_db_from_prices_file, sync_line, sample_server_no_shm,
    cache_assign, update_changes, seed_prices, SHM_SIZE]

theorem sample_sync_unknown_code :
    update_db_from_prices_file (some [some (9999, 9 / 2)]) ⟨seed_prices 0, [], 0⟩ []
      = (⟨seed_prices 0, [], 0⟩, [(9999, 9 / 2)]) := by
  simp [update_db_from_prices_file, sync_line, cache_assign, update_changes, seed_prices,
    sql_update_price, sql_insert_price]

theorem sample_map_85_length : sample_map_85.length = 85 := by
  unfold sample_map_85
  rw [List.length_map, List.length_range]

theorem sample_write_85 : write_prices_to_shm sample_map_85 none = some ⟨2048, 85, sample_map_85⟩ := by
  unfold write_prices_to_shm
  rw [sample_map_85_length]
  simp [record_offset, UPDATER_SHM_SIZE]

theorem sample_map_85_nodup : (sample_map_85.map (fun kv => kv.1)).Nodup := by
  unfold sample_map_85
  rw [List.map_map]
  exact (List.nodup_range 85).map (fun a b h => by simpa using h)

theorem sample_segment_records : segment_records sample_segment = [(8300, 6)] := by
  rfl

theorem load_existing_lookup (seg : ShmSegment) (cache : PriceCache)
    (hfit : record_offset seg.count ≤ min SHM_SIZE seg.size)
    (hmap : ((segment_records seg).map (fun kv => kv.1)).Nodup) :
    ∃ cache1, load_prices_from_shm (some seg) cache = some (seg, cache1)
      ∧ ∀ (code : Int) (rate : ℚ),
          cache_find cache1 code = some rate ↔ (code, rate) ∈ segment_records seg := by
  refine ⟨_, load_existing seg cache hfit, ?_⟩
  intro code rate
  rw [cache_find_foldl_assign _ [] hmap code rate]
  constructor
  · rintro (h | ⟨_, h⟩)
    · exact h
    · simp [cache_find] at h
  · exact Or.inl

/-! ## Claims on reads, the shared segment and the reload -/

/-- C16 (what the code does): when the peer closes after five bytes of a
frame, `read_n_nonblocking` returns 5, and the inner loop of
`Server::run_loop`, which leaves only for `n <= 0`, decodes the 12 bytes of
`raw` (five received, seven left from before) and handles them as a frame:
here a row is inserted into the empty ledger. -/
theorem short_read_is_handled (float_value : Nat → CDouble) :
    read_n_nonblocking 12 [sample_short_pass, sample_close_pass] ⟨[], false⟩ []
      = some (5, [6, 74, 0, 0, 0], ⟨[], true⟩, [])
    ∧ after_read float_value none 0 0 sample_stale_raw sample_empty_server 5 [6, 74, 0, 0, 0]
      = some (⟨⟨[], [open_row 1 "1610" 0 (float_value 0).round3 (float_value 0).round3 0],
            1⟩, [], none⟩, "", true) :=
  ⟨sample_short_read, sample_short_after float_value⟩

/-- C17: for every previous content of `prices_cache`, loading a segment whose
`count` records lie inside the mapped bytes and carry distinct codes gives
the cache exactly the pairs of these records: a code has a rate in the cache
if and only if the pair is a record of the segment.  For the segment holding
exactly `(8300, 6.0)`, code 8300 is found with 6.0 and no other code is
found. -/
theorem load_replaces_cache (seg : ShmSegment) (cache : PriceCache)
    (hfit : record_offset seg.count ≤ min SHM_SIZE seg.size)
    (hmap : ((segment_records seg).map (fun kv => kv.1)).Nodup) :
    ∃ cache1, load_prices_from_shm (some seg) cache = some (seg, cache1)
      ∧ (∀ (code : Int) (rate : ℚ),
          cache_find cache1 code = some rate ↔ (code, rate) ∈ segment_records seg)
      ∧ (segment_records seg = [(8300, 6)] →
          cache_find cache1 8300 = some 6
          ∧ ∀ code : Int, code ≠ 8300 → cache_find cache1 code = none) := by
  obtain ⟨cache1, hload, hall⟩ := load_existing_lookup seg cache hfit hmap
  refine ⟨cache1, hload, hall, ?_⟩
  intro hrec
  refine ⟨(hall 8300 6).mpr (by rw [hrec]; exact List.mem_singleton.mpr rfl), ?_⟩
  intro code hne
  cases h : cache_find cache1 code with
  | none => rfl
  | some r =>
    have hm := (hall code r).mp h
    rw [hrec, List.mem_singleton] at hm
    exact absurd (congrArg Prod.fst hm) hne

/-- Witness of C17: the segment holding `(8300, 6.0)` loaded over a cache
that held 5.0 for code 5000. -/
theorem load_replaces_cache_witness :
    record_offset sample_segment.count ≤ min SHM_SIZE sample_segment.size
    ∧ ((segment_records sample_segment).map (fun kv => kv.1)).Nodup
    ∧ segment_records sample_segment = [(8300, 6)]
    ∧ ∃ cache1, load_prices_from_shm (some sample_segment) [(5000, 5)]
          = some (sample_segment, cache1)
      ∧ cache_find cache1 8300 = some 6 ∧ cache_find cache1 5000 = none :=
  have hfit : record_offset sample_segment.count ≤ min SHM_SIZE sample_segment.size := by
    decide
  have hrec : segment_records sample_segment = [(8300, 6)] := sample_segment_records
  have hmap : ((segment_records sample_segment).map (fun kv => kv.1)).Nodup := by
    rw [hrec]; simp
  match load_replaces_cache sample_segment [(5000, 5)] hfit hmap with
  | ⟨cache1, h1, _, h3⟩ =>
    ⟨hfit, hmap, hrec, cache1, h1, (h3 hrec).1, (h3 hrec).2 5000 (by decide)⟩

/-- C18 (as it holds): after a reload on a segment that exists, whose `count`
records lie inside the mapped bytes and carry distinct codes, `prices_cache`
holds exactly the pairs of these records, for every previous cache and every
content of the snapshot file: entries from the file or the old cache that are
not in the segment are not in the cache. -/
theorem reload_mirrors_existing_segment (file : Option (List SnapshotLine)) (s : ServerState)
    (seg : ShmSegment) (hshm : s.shm = some seg)
    (hfit : record_offset seg.count ≤ min SHM_SIZE seg.size)
    (hmap : ((segment_records seg).map (fun kv => kv.1)).Nodup) :
    ∃ s1, reload file s = some s1 ∧ s1.shm = some seg
      ∧ ∀ (code : Int) (rate : ℚ),
          cache_find s1.prices_cache code = some rate ↔ (code, rate) ∈ segment_records seg := by
  obtain ⟨cache1, h1, h2⟩ :=
    load_existing_lookup seg (update_db_from_prices_file file s.db s.prices_cache).2 hfit hmap
  refine ⟨⟨(update_db_from_prices_file file s.db s.prices_cache).1, cache1, some seg⟩, ?_, rfl,
    h2⟩
  unfold reload
  rw [hshm, h1]
  rfl

/-- Witness of C18: a reload with the snapshot line `8300,7.5` on a server whose segment
holds `(8300, 6.0)`. -/
theorem reload_mirrors_existing_segment_witness :
    record_offset sample_segment.count ≤ min SHM_SIZE sample_segment.size
    ∧ ((segment_records sample_segment).map (fun kv => kv.1)).Nodup
    ∧ ∃ s1, reload (some [some (8300, 15 / 2)])
              ⟨⟨seed_prices 0, [], 0⟩, [(5000, 5)], some sample_segment⟩ = some s1
      ∧ s1.shm = some sample_segment
      ∧ ∀ (code : Int) (rate : ℚ),
          cache_find s1.prices_cache code = some rate
            ↔ (code, rate) ∈ segment_records sample_segment :=
  have hfit : record_offset sample_segment.count ≤ min SHM_SIZE sample_segment.size := by
    decide
  have hmap : ((segment_records sample_segment).map (fun kv => kv.1)).Nodup := by
    rw [sample_segment_records]; simp
  ⟨hfit, hmap,
    reload_mirrors_existing_segment (some [some (8300, 15 / 2)])
      ⟨⟨seed_prices 0, [], 0⟩, [(5000, 5)], some sample_segment⟩ sample_segment rfl hfit hmap⟩

/-- C18 (as stated) fails: when the segment does not exist, the reload creates
it empty and returns before the cache is cleared, so after a reload with the
snapshot line `8300,7.5` the cache holds 7.5 for 8300 and still 5.0 for
5000, while the segment holds no record. -/
theorem reload_without_segment_keeps_cache :
    ∃ s1, reload (some [some (8300, 15 / 2)]) sample_server_no_shm = some s1
      ∧ s1.shm = some ⟨1024, 0, []⟩
      ∧ segment_records ⟨1024, 0, []⟩ = []
      ∧ cache_find s1.prices_cache 8300 = some (15 / 2)
      ∧ cache_find s1.prices_cache 5000 = some 5 := by
  refine ⟨_, sample_reload_no_shm, rfl, rfl, ?_, ?_⟩
  · simp [cache_find]
  · simp [cache_find]

/-- C19: for every map (a list of pairs with distinct codes) that
`write_prices_to_shm` stores in its segment, whatever the segment held
before, the segment has 2048 bytes, its count is the number of entries and
its first count records are the entries in order (record `i` at offset
`8 + 12 * i`); a following `load_prices_from_shm`, whatever `prices_cache`
held, has a result, leaves the segment as it is and leaves a cache in which
every code has the rate the map gives it, and no rate when the map has
none. -/
theorem shm_round_trip (prices cache : PriceCache) (shm : Option ShmSegment)
    (seg : ShmSegment) (hk : (prices.map (fun kv => kv.1)).Nodup)
    (hw : write_prices_to_shm prices shm = some seg) :
    seg.size = 2048 ∧ seg.count = prices.length ∧ segment_records seg = prices
    ∧ ∃ cache1, load_prices_from_shm (some seg) cache = some (seg, cache1)
      ∧ ∀ code, cache_find cache1 code = cache_find prices code := by
  have hfit : record_offset prices.length ≤ UPDATER_SHM_SIZE := by
    by_contra hc
    unfold write_prices_to_shm at hw
    rw [if_neg hc] at hw
    exact absurd hw (by simp)
  obtain ⟨seg1, cache1, h1, h2, h3⟩ := shm_round_trip_stored prices cache shm hk hfit
  rw [hw] at h1
  cases h1
  refine ⟨?_, ?_, ?_, cache1, h2, h3⟩
  · unfold write_prices_to_shm at hw
    rw [if_pos hfit] at hw
    cases hw
    rfl
  · unfold write_prices_to_shm at hw
    rw [if_pos hfit] at hw
    cases hw
    rfl
  · unfold write_prices_to_shm at hw
    rw [if_pos hfit] at hw
    cases hw
    exact segment_records_written prices _ _

/-- Witness of C19: the map of the 85 codes 0 to 84, whose last record lies at
offsets 1016 to 1027 of the segment, stored and loaded over a cache that held
5.0 for code 5000. -/
theorem shm_round_trip_witness :
    (sample_map_85.map (fun kv => kv.1)).Nodup
    ∧ write_prices_to_shm sample_map_85 none = some ⟨2048, 85, sample_map_85⟩
    ∧ record_offset 84 + 12 = 1028
    ∧ ∃ cache1, load_prices_from_shm (some ⟨2048, 85, sample_map_85⟩) [(5000, 5)]
          = some (⟨2048, 85, sample_map_85⟩, cache1)
      ∧ ∀ code, cache_find cache1 code = cache_find sample_map_85 code :=
  ⟨sample_map_85_nodup, sample_write_85, rfl,
    (shm_round_trip sample_map_85 [(5000, 5)] none ⟨2048, 85, sample_map_85⟩
      sample_map_85_nodup sample_write_85).2.2.2⟩

/-- C20 (what the code does): for the snapshot line `9999,4.5` and the seeded
table, which has no row of code 9999, the UPDATE changes nothing, the INSERT
fails on `city NOT NULL`, and the cache still receives `(9999, 4.5)`: the
cache holds a price for a code the table has no row for. -/
theorem failed_insert_still_reaches_cache :
    update_db_from_prices_file (some [some (9999, 9 / 2)]) ⟨seed_prices 0, [], 0⟩ []
      = (⟨seed_prices 0, [], 0⟩, [(9999, 9 / 2)])
    ∧ cache_find [(9999, 9 / 2)] 9999 = some (9 / 2)
    ∧ sql_price (seed_prices 0) 9999 = none := by
  refine ⟨sample_sync_unknown_code, by simp [cache_find], ?_⟩
  simp [sql_price, seed_prices]

/-! ## Lemmas on the seeding loop -/

theorem seed_loop_extends (clock : Nat → Timestamp) (cs : List City) (i : Nat)
    (prices : List PriceRow) : ∃ added, seed_loop clock i cs prices = prices ++ added := by
  induction cs generalizing i prices with
  | nil => exact ⟨[], by simp [seed_loop]⟩
  | cons c cs ih =>
    simp only [seed_loop]
    by_cases h : seed_count prices c.lat c.lng = 0
    · rw [if_pos h]
      obtain ⟨added, ha⟩ := ih (i + 1) (seed_insert prices c (clock i))
      exact ⟨⟨c.name, c.code, c.lat, c.lng, c.price, clock i⟩ :: added, by
        rw [ha]; simp [seed_insert]⟩
    · rw [if_neg h]
      exact ih (i + 1) prices

theorem seed_count_append (prices added : List PriceRow) (lat lng : ℚ) :
    seed_count (prices ++ added) lat lng = seed_count prices lat lng + seed_count added lat lng := by
  simp [seed_count]

theorem seed_count_insert (prices : List PriceRow) (c : City) (now : Timestamp) :
    seed_count (seed_insert prices c now) c.lat c.lng ≠ 0 := by
  simp [seed_insert, seed_count, near_self]

theorem seed_loop_covers (clock : Nat → Timestamp) (cs : List City) (i : Nat)
    (prices : List PriceRow) :
    ∀ c ∈ cs, seed_count (seed_loop clock i cs prices) c.lat c.lng ≠ 0 := by
  induction cs generalizing i prices with
  | nil => intro c hc; simp at hc
  | cons a cs ih =>
    intro c hc
    simp only [seed_loop]
    rcases List.mem_cons.mp hc with hc | hc
    · subst hc
      obtain ⟨added, ha⟩ := seed_loop_extends clock cs (i + 1)
        (if seed_count prices c.lat c.lng = 0 then seed_insert prices c (clock i) else prices)
      rw [ha, seed_count_append]
      have : seed_count
          (if seed_count prices c.lat c.lng = 0 then seed_insert prices c (clock i) else prices)
          c.lat c.lng ≠ 0 := by
        by_cases h : seed_count prices c.lat c.lng = 0
        · rw [if_pos h]; exact seed_count_insert prices c (clock i)
        · rw [if_neg h]; exact h
      omega
    · exact ih (i + 1) _ c hc

theorem seed_loop_fixed (clock : Nat → Timestamp) (cs : List City) (i : Nat)
    (prices : List PriceRow) (h : ∀ c ∈ cs, seed_count prices c.lat c.lng ≠ 0) :
    seed_loop clock i cs prices = prices := by
  induction cs generalizing i with
  | nil => simp [seed_loop]
  | cons a cs ih =>
    simp only [seed_loop]
    rw [if_neg (h a (List.mem_cons_self a cs))]
    exact ih (i + 1) (fun c hc => h c (List.mem_cons_of_mem a hc))

theorem seed_loop_absent (clock : Nat → Timestamp) (i : Nat) (c : City) (cs : List City)
    (prices : List PriceRow) (h : ∀ p ∈ prices, near p.gps_lat c.lat = false) :
    seed_loop clock i (c :: cs) prices
      = seed_loop clock (i + 1) cs (prices ++ [⟨c.name, c.code, c.lat, c.lng, c.price, clock i⟩]) := by
  have h0 : seed_count prices c.lat c.lng = 0 := by
    unfold seed_count
    rw [List.length_eq_zero, List.filter_eq_nil_iff]
    intro p hp
    simp [h p hp]
  simp only [seed_loop, h0, if_true, seed_insert]

theorem seed_loop_empty (clock : Nat → Timestamp) :
    seed_loop clock 0 cities [] =
      [ ⟨"Rishon Lezion", 8300, 31962 / 1000, 34802 / 1000, 5, clock 0⟩,
        ⟨"Tel Aviv", 5000, 32087 / 1000, 34789 / 1000, 5, clock 1⟩,
        ⟨"Jerusalem", 3000, 31749 / 1000, 35170 / 1000, 7, clock 2⟩,
        ⟨"Eilat", 2600, 29549 / 1000, 34954 / 1000, 10, clock 3⟩,
        ⟨"Dimona", 2200, 31073 / 1000, 35044 / 1000, 6, clock 4⟩,
        ⟨"Nahariyya", 9100, 32999 / 1000, 35091 / 1000, 9, clock 5⟩,
        ⟨"Qiryat Shemona", 2800, 33174 / 1000, 35574 / 1000, 4, clock 6⟩,
        ⟨"Hadera", 6500, 32422 / 1000, 34909 / 1000, 5, clock 7⟩,
        ⟨"Rehovot", 8400, 31883 / 1000, 34794 / 1000, 8, clock 8⟩,
        ⟨"Arad", 2560, 31255 / 1000, 35166 / 1000, 6, clock 9⟩ ] := by
  unfold cities
  rw [seed_loop_absent clock _ _ _ _ (by simp)]
  rw [seed_loop_absent clock _ _ _ _ (by simp [near]; norm_num [le_abs])]
  rw [seed_loop_absent clock _ _ _ _ (by simp [near]; norm_num [le_abs])]
  rw [seed_loop_absent clock _ _ _ _ (by simp [near]; norm_num [le_abs])]
  rw [seed_loop_absent clock _ _ _ _ (by simp [near]; norm_num [le_abs])]
  rw [seed_loop_absent clock _ _ _ _ (by simp [near]; norm_num [le_abs])]
  rw [seed_loop_absent clock _ _ _ _ (by simp [near]; norm_num [le_abs])]
  rw [seed_loop_absent clock _ _ _ _ (by simp [near]; norm_num [le_abs])]
  rw [seed_loop_absent clock _ _ _ _ (by simp [near]; norm_num [le_abs])]
  rw [seed_loop_absent clock _ _ _ _ (by simp [near]; norm_num [le_abs])]
  rfl

theorem init_db_schema_and_seed_eq (clock : Nat → Timestamp) (db : Db) :
    init_db_schema_and_seed clock db
      = ⟨seed_loop clock 0 cities db.prices, db.customer_data, db.customer_seq⟩ := rfl

/-! ## Claims on seeding and signals -/

/-- C21: on a database without `prices` rows `init_db_schema_and_seed` inserts
exactly the ten reference locations, in the order of the array `cities`, each
with its name, city code, coordinates and starting rate and with the time
read at its insertion (with one clock value `t` this is `seed_prices t`); for
every database the rows that existed are kept in place, rows are only
appended, and a second run, whatever its clock, changes nothing: it gives
back the database the first run produced. -/
theorem seeding_is_idempotent (clock clock2 : Nat → Timestamp) (db : Db)
    (customers : List CustomerRow) (seq : Nat) (t : Timestamp) :
    init_db_schema_and_seed clock ⟨[], customers, seq⟩ =
      ⟨[ ⟨"Rishon Lezion", 8300, 31962 / 1000, 34802 / 1000, 5, clock 0⟩,
         ⟨"Tel Aviv", 5000, 32087 / 1000, 34789 / 1000, 5, clock 1⟩,
         ⟨"Jerusalem", 3000, 31749 / 1000, 35170 / 1000, 7, clock 2⟩,
         ⟨"Eilat", 2600, 29549 / 1000, 34954 / 1000, 10, clock 3⟩,
         ⟨"Dimona", 2200, 31073 / 1000, 35044 / 1000, 6, clock 4⟩,
         ⟨"Nahariyya", 9100, 32999 / 1000, 35091 / 1000, 9, clock 5⟩,
         ⟨"Qiryat Shemona", 2800, 33174 / 1000, 35574 / 1000, 4, clock 6⟩,
         ⟨"Hadera", 6500, 32422 / 1000, 34909 / 1000, 5, clock 7⟩,
         ⟨"Rehovot", 8400, 31883 / 1000, 34794 / 1000, 8, clock 8⟩,
         ⟨"Arad", 2560, 31255 / 1000, 35166 / 1000, 6, clock 9⟩ ], customers, seq⟩
    ∧ (init_db_schema_and_seed (fun _ => t) ⟨[], customers, seq⟩).prices = seed_prices t
    ∧ (∃ added, (init_db_schema_and_seed clock db).prices = db.prices ++ added)
    ∧ init_db_schema_and_seed clock2 (init_db_schema_and_seed clock db)
        = init_db_schema_and_seed clock db := by
  refine ⟨?_, ?_, ?_, ?_⟩
  · rw [init_db_schema_and_seed_eq, seed_loop_empty]
  · rw [init_db_schema_and_seed_eq, seed_loop_empty]
    rfl
  · rw [init_db_schema_and_seed_eq]
    dsimp only
    exact seed_loop_extends clock cities 0 db.prices
  · rw [init_db_schema_and_seed_eq clock db, init_db_schema_and_seed_eq clock2]
    dsimp only
    rw [seed_loop_fixed clock2 cities 0 _ (seed_loop_covers clock cities 0 db.prices)]

/-- C22: `SigGuard::handle` only changes the three flags.  Called with `SIGHUP`
it sets `update_prices` and leaves `stop` and `sig_received` as they are;
called with any other signal `sig`, among them the three other signals the
handler is installed for (`SIGINT`, `SIGTERM`, `SIGQUIT`), it sets `stop`,
stores `sig` in `sig_received` and leaves `update_prices` as it is. -/
theorem reload_signal_is_separate (g : SigGuard) (sig : Int) (h : sig ≠ SIGHUP) :
    SigGuard.handle SIGHUP g = ⟨g.stop, g.sig_received, true⟩
    ∧ SigGuard.handle sig g = ⟨true, sig, g.update_prices⟩
    ∧ SIGINT ≠ SIGHUP ∧ SIGTERM ≠ SIGHUP ∧ SIGQUIT ≠ SIGHUP := by
  refine ⟨by simp [SigGuard.handle], by simp [SigGuard.handle, h], ?_, ?_, ?_⟩ <;> decide

/-- Witness of C22: on the initial flags (`false`, `-1`, `false`) `SIGHUP` raises
only `update_prices`, `SIGTERM` raises `stop` and is recorded. -/
theorem reload_signal_is_separate_witness :
    SIGTERM ≠ SIGHUP
    ∧ SigGuard.handle SIGHUP ⟨false, -1, false⟩ = ⟨false, -1, true⟩
    ∧ SigGuard.handle SIGTERM ⟨false, -1, false⟩ = ⟨true, SIGTERM, false⟩ :=
  ⟨by decide, (reload_signal_is_separate ⟨false, -1, false⟩ SIGTERM (by decide)).1,
    (reload_signal_is_separate ⟨false, -1, false⟩ SIGTERM (by decide)).2.1⟩

/-! ## Lemmas on the latest Open row -/

theorem latest_max (l : List CustomerRow) (r : CustomerRow) (h : latest l = some r) :
    ∀ q ∈ l, q.created_at ≤ r.created_at := by
  induction l generalizing r with
  | nil => simp [latest] at h
  | cons a rs ih =>
    simp only [latest] at h
    cases hl : latest rs with
    | none =>
      rw [hl] at h
      simp only [Option.some.injEq] at h
      subst h
      rw [latest_eq_none_iff] at hl
      subst hl
      intro q hq
      simp only [List.mem_singleton] at hq
      rw [hq]
    | some b =>
      rw [hl] at h
      have hb := ih b hl
      by_cases hc : a.created_at < b.created_at
      · simp only [hc, if_true, Option.some.injEq] at h
        subst h
        intro q hq
        rcases List.mem_cons.mp hq with hq | hq
        · rw [hq]; exact Nat.le_of_lt hc
        · exact hb q hq
      · simp only [hc, if_false, Option.some.injEq] at h
        subst h
        intro q hq
        rcases List.mem_cons.mp hq with hq | hq
        · rw [hq]
        · exact Nat.le_trans (hb q hq) (Nat.le_of_not_lt hc)

theorem nodup_ids_index (rows : List CustomerRow)
    (hkey : (rows.map (fun r => r.id)).Nodup) (i j : Nat) (r q : CustomerRow)
    (hi : rows[i]? = some r) (hj : rows[j]? = some q) (hid : q.id = r.id) : j = i := by
  obtain ⟨hil, hir⟩ := List.getElem?_eq_some.mp hi
  obtain ⟨hjl, hjr⟩ := List.getElem?_eq_some.mp hj
  have hil' : i < (rows.map (fun r => r.id)).length := by simpa using hil
  have hjl' : j < (rows.map (fun r => r.id)).length := by simpa using hjl
  have h : (rows.map (fun r => r.id))[j] = (rows.map (fun r => r.id))[i] := by
    simp only [List.getElem_map, hir, hjr, hid]
  exact (List.Nodup.getElem_inj_iff hkey).mp h

theorem sql_find_open_latest (rows : List CustomerRow) (customer_id : String)
    (city_code : Int) (x y : CDouble)
    (hex : ∃ r ∈ rows, open_where customer_id city_code x y r = true) :
    ∃ r ∈ rows, open_where customer_id city_code x y r = true
      ∧ (∀ q ∈ rows, open_where customer_id city_code x y q = true →
          q.created_at ≤ r.created_at)
      ∧ sql_find_open rows customer_id city_code x y = some (r.id, r.created_at) := by
  cases hl : latest (rows.filter (open_where customer_id city_code x y)) with
  | none =>
    rw [latest_eq_none_iff, List.filter_eq_nil_iff] at hl
    obtain ⟨r, hr, hm⟩ := hex
    exact absurd hm (hl r hr)
  | some r =>
    have hm := latest_mem _ _ hl
    rw [List.mem_filter] at hm
    refine ⟨r, hm.1, hm.2, ?_, ?_⟩
    · intro q hq hqm
      exact latest_max _ _ hl q (List.mem_filter.mpr ⟨hq, hqm⟩)
    · simp [sql_find_open, hl]

theorem sample_two_open_close :
    (handle_frame [] 3700000 3700000 sample_db_two_open sample_close_frame).1.customer_data
      = [sample_open_row,
          { open_row 3 "1610" 8300 (.fin (31962 / 1000)) (.fin (34802 / 1000)) 200000 with
            status := 0, parking_duration_minutes := 58, ticket_fee := 483 / 100,
            ended_at := some 3700000 }] := by
  have hfind : sql_find_open sample_db_two_open.customer_data (customer_id_of 1610)
      (resolve_city (seed_prices 0) (CDouble.fin (31962 / 1000)).round3 (CDouble.fin (34802 / 1000)).round3)
      (CDouble.fin (31962 / 1000)).round3 (CDouble.fin (34802 / 1000)).round3 = some (3, 200000) := by
    rw [round3_fin_rishon_lat, round3_fin_rishon_lng, resolve_city_seed_rishon,
      customer_id_of_1610]
    simp [sql_find_open, sample_db_two_open, sample_open_row, open_row, open_where, near_fin,
      near_self, latest]
  rw [handle_close_found [] 3700000 3700000 sample_db_two_open sample_close_frame rfl 3 200000
    hfind]
  have hm : sql_minutes 3700000 200000 = 58 := by decide
  have hp : price_per_hour [] sample_db_two_open.prices
      (resolve_city sample_db_two_open.prices sample_close_frame.cord_x.round3
        sample_close_frame.cord_y.round3) = 5 := by
    simp only [sample_db_two_open, sample_close_frame, round3_fin_rishon_lat,
      round3_fin_rishon_lng, resolve_city_seed_rishon]
    simp [price_per_hour, cache_find, sql_price, seed_prices]
  have hint : sqlite3_column_int ((3 : Nat) : Int) = 3 := by decide
  rw [hm, hp, ticket_fee_5_58, hint]
  simp [sql_update_close, sample_db_two_open, sample_open_row, open_row, close_row]

/-! ## Lemmas on the client loop -/

theorem read_n_nonblocking_rest (n : Nat) (passes : List Pass) (sock : Socket) (got : List Nat)
    (r : Int) (g : List Nat) (s1 : Socket) (rest : List Pass)
    (h : read_n_nonblocking n passes sock got = some (r, g, s1, rest)) :
    rest.length ≤ passes.length ∧ (got.length < n → rest.length < passes.length) := by
  induction passes generalizing sock got with
  | nil =>
    unfold read_n_nonblocking at h
    by_cases hlt : got.length < n
    · rw [if_pos hlt] at h
      exact absurd h (by simp)
    · rw [if_neg hlt] at h
      simp only [Option.some.injEq, Prod.mk.injEq] at h
      obtain ⟨_, _, _, h4⟩ := h
      subst h4
      exact ⟨Nat.le_refl _, fun hc => absurd hc hlt⟩
  | cons p ps ih =>
    have key : ∀ (s2 : Socket) (g2 : List Nat),
        read_n_nonblocking n ps s2 g2 = some (r, g, s1, rest) →
        rest.length ≤ (p :: ps).length ∧ (got.length < n → rest.length < (p :: ps).length) := by
      intro s2 g2 h2
      have := (ih s2 g2 h2).1
      simp only [List.length_cons]
      exact ⟨by omega, fun _ => by omega⟩
    have fin : ∀ (x : Int) (g2 : List Nat) (s2 : Socket),
        some (x, g2, s2, ps) = some (r, g, s1, rest) →
        rest.length ≤ (p :: ps).length ∧ (got.length < n → rest.length < (p :: ps).length) := by
      intro x g2 s2 h2
      simp only [Option.some.injEq, Prod.mk.injEq] at h2
      obtain ⟨_, _, _, h4⟩ := h2
      subst h4
      simp
    unfold read_n_nonblocking at h
    by_cases hlt : got.length < n
    · rw [if_pos hlt] at h
      dsimp only at h
      by_cases h1 : p.stop = true
      · rw [if_pos h1] at h; exact fin _ _ _ h
      · rw [if_neg h1] at h
        by_cases h2 : p.update = true
        · rw [if_pos h2] at h; exact fin _ _ _ h
        · rw [if_neg h2] at h
          cases hf : p.fault with
          | eintr => rw [hf] at h; exact key _ _ h
          | failed => rw [hf] at h; exact fin _ _ _ h
          | no_fault =>
            rw [hf] at h
            dsimp only at h
            by_cases h3 : (sock.inbuf ++ p.arrive).isEmpty = true
            · rw [if_pos h3] at h
              by_cases h4 : (sock.closed || p.peer_closes) = true
              · rw [if_pos h4] at h; exact fin _ _ _ h
              · rw [if_neg h4] at h
                by_cases h5 : p.update_in_spin = true
                · rw [if_pos h5] at h; exact fin _ _ _ h
                · rw [if_neg h5] at h; exact key _ _ h
            · rw [if_neg h3] at h; exact key _ _ h
    · rw [if_neg hlt] at h
      simp only [Option.some.injEq, Prod.mk.injEq] at h
      obtain ⟨_, _, _, h4⟩ := h
      subst h4
      exact ⟨Nat.le_refl _, fun hc => absurd hc hlt⟩

theorem client_frames_fuel_succ (fuel : Nat) (passes : List Pass) (sock : Socket)
    (stale : List Nat) (h : passes.length + 1 ≤ fuel) :
    client_frames (fuel + 1) passes sock stale = client_frames fuel passes sock stale := by
  induction fuel generalizing passes sock stale with
  | zero => omega
  | succ k ih =>
    cases hr : read_n_nonblocking 12 passes sock [] with
    | none => simp only [client_frames, hr]
    | some res =>
      obtain ⟨n, got, sock1, rest⟩ := res
      have hlen := (read_n_nonblocking_rest 12 passes sock [] n got sock1 rest hr).2 (by simp)
      have hk : rest.length + 1 ≤ k := by omega
      have e := ih rest sock1 (raw_after stale got) hk
      rw [client_frames, hr]
      dsimp only
      rw [e]
      conv_rhs => rw [client_frames, hr]

theorem client_frames_fuel (fuel : Nat) (passes : List Pass) (sock : Socket) (stale : List Nat)
    (h : passes.length + 1 ≤ fuel) :
    client_frames fuel passes sock stale = run_loop_frames passes sock stale := by
  unfold run_loop_frames
  induction fuel with
  | zero => omega
  | succ k ih =>
    rcases Nat.eq_or_lt_of_le h with e | e
    · rw [← e]
    · have hk : passes.length + 1 ≤ k := by omega
      rw [client_frames_fuel_succ k passes sock stale hk, ih hk]

theorem read_n_nonblocking_quiet (n : Nat) (passes : List Pass) (sock : Socket) (got : List Nat)
    (r : Int) (g : List Nat) (s1 : Socket) (rest : List Pass)
    (hq : ∀ p ∈ passes, QuietPass p) (hopen : sock.closed = false) (hgot : got.length ≤ n)
    (h : read_n_nonblocking n passes sock got = some (r, g, s1, rest)) :
    (∀ p ∈ rest, QuietPass p) ∧ s1.closed = false ∧ r = (n : Int) ∧ g.length = n
      ∧ g ++ (s1.inbuf ++ arrivals rest) = got ++ (sock.inbuf ++ arrivals passes) := by
  induction passes generalizing sock got with
  | nil =>
    unfold read_n_nonblocking at h
    by_cases hlt : got.length < n
    · rw [if_pos hlt] at h
      exact absurd h (by simp)
    · rw [if_neg hlt] at h
      simp only [Option.some.injEq, Prod.mk.injEq] at h
      obtain ⟨h1, h2, h3, h4⟩ := h
      subst h2 h3 h4
      have : got.length = n := by omega
      exact ⟨hq, hopen, by rw [← h1, this], this, rfl⟩
  | cons p ps ih =>
    have hp := hq p (List.mem_cons_self p ps)
    have hps : ∀ q ∈ ps, QuietPass q := fun q hq1 => hq q (List.mem_cons_of_mem p hq1)
    obtain ⟨q1, q2, q3, q4, q5⟩ := hp
    have harr : arrivals (p :: ps) = p.arrive ++ arrivals ps := rfl
    unfold read_n_nonblocking at h
    by_cases hlt : got.length < n
    · rw [if_pos hlt] at h
      simp only [q1, q2, q3, q4, hopen, Bool.or_false, Bool.false_eq_true, if_false] at h
      cases hf : p.fault with
      | failed => exact absurd hf q5
      | eintr =>
        rw [hf] at h
        dsimp only at h
        obtain ⟨a1, a2, a3, a4, a5⟩ := ih ⟨sock.inbuf ++ p.arrive, false⟩ got hps rfl hgot h
        refine ⟨a1, a2, a3, a4, ?_⟩
        rw [a5, harr]
        simp
      | no_fault =>
        rw [hf] at h
        dsimp only at h
        by_cases h3 : (sock.inbuf ++ p.arrive).isEmpty = true
        · rw [if_pos h3] at h
          obtain ⟨a1, a2, a3, a4, a5⟩ := ih ⟨sock.inbuf ++ p.arrive, false⟩ got hps rfl hgot h
          refine ⟨a1, a2, a3, a4, ?_⟩
          rw [a5, harr]
          simp
        · rw [if_neg h3] at h
          obtain ⟨a1, a2, a3, a4, a5⟩ := ih
            ⟨(sock.inbuf ++ p.arrive).drop (n - got.length), false⟩
            (got ++ (sock.inbuf ++ p.arrive).take (n - got.length)) hps rfl
            (by simp only [List.length_append, List.length_take]; omega) h
          refine ⟨a1, a2, a3, a4, ?_⟩
          rw [a5, harr]
          dsimp only
          rw [List.append_assoc, ← List.append_assoc (List.take _ _),
            List.take_append_drop]
          simp
    · rw [if_neg hlt] at h
      simp only [Option.some.injEq, Prod.mk.injEq] at h
      obtain ⟨h1, h2, h3, h4⟩ := h
      subst h2 h3 h4
      have : got.length = n := by omega
      exact ⟨hq, hopen, by rw [← h1, this], this, rfl⟩

theorem client_frames_quiet (fuel : Nat) (passes : List Pass) (sock : Socket)
    (stale : List Nat) (hq : ∀ p ∈ passes, QuietPass p) (hopen : sock.closed = false)
    (hstale : stale.length ≤ 12) :
    ∃ k : Nat, 12 * k ≤ (sock.inbuf ++ arrivals passes).length
      ∧ client_frames fuel passes sock stale
        = (List.range k).map (fun j => ((sock.inbuf ++ arrivals passes).drop (12 * j)).take 12) := by
  induction fuel generalizing passes sock stale with
  | zero => exact ⟨0, by simp, by simp [client_frames]⟩
  | succ f ih =>
    rw [client_frames]
    cases hr : read_n_nonblocking 12 passes sock [] with
    | none => exact ⟨0, by simp, by simp⟩
    | some res =>
      obtain ⟨n, g, s1, rest⟩ := res
      obtain ⟨a1, a2, a3, a4, a5⟩ :=
        read_n_nonblocking_quiet 12 passes sock [] n g s1 rest hq hopen (by simp) hr
      have hraw : raw_after stale g = g := by
        unfold raw_after
        rw [List.drop_of_length_le (by omega)]
        simp
      dsimp only
      rw [hraw, a3, if_neg (by decide), if_neg (by decide)]
      obtain ⟨k, hk1, hk2⟩ := ih rest s1 g a1 a2 (by omega)
      rw [List.nil_append] at a5
      refine ⟨k + 1, ?_, ?_⟩
      · rw [← a5, List.length_append]; omega
      · rw [hk2, ← a5, List.range_succ_eq_map, List.map_cons, List.map_map]
        congr 1
        · simp [a4]
        · apply List.map_congr_left
          intro j _
          simp only [Function.comp]
          have : 12 * (j + 1) = g.length + 12 * j := by omega
          rw [this, ← List.drop_drop, List.drop_left]

/-! ## Claims on framing and the close of a session -/

/-- C23 (what the code does): five bytes of a frame arrive and are received,
then a reload request is seen at the top of the next pass:
`read_n_nonblocking` returns -2 with these five bytes taken off the socket,
`Server::run_loop` reloads and calls it again with `got = 0`, and the next 12
bytes of the stream, bytes 5 to 16, are decoded as the first frame instead of
bytes 0 to 11 (device 16703 instead of device 1610).  With the same arrivals
and no reload request the first frame is bytes 0 to 11. -/
theorem reload_drops_received_bytes :
    read_n_nonblocking 12 sample_reload_passes ⟨[], false⟩ []
      = some (-2, sample_stream.take 5, ⟨[], false⟩,
          [⟨false, false, sample_stream.drop 5, false, RecvFault.no_fault, false⟩])
    ∧ run_loop_frames sample_reload_passes ⟨[], false⟩ sample_stale_raw
      = [(sample_stream.drop 5).take 12]
    ∧ (sample_stream.drop 5).take 12 ≠ sample_stream.take 12
    ∧ (server_decode (sample_stream.take 12)).dev_id = 1610
    ∧ (server_decode ((sample_stream.drop 5).take 12)).dev_id = 16703
    ∧ run_loop_frames sample_plain_passes ⟨[], false⟩ sample_stale_raw
      = [sample_stream.take 12] := by
  refine ⟨by decide, by decide, by decide, by decide, by decide, by decide⟩

theorem close_one_row_small_ids (cache : PriceCache) (sql_now now : Timestamp) (db : Db)
    (f : DecodedFrame) (hs : f.status = 0)
    (hkey : (db.customer_data.map (fun r => r.id)).Nodup)
    (hint : ∀ r ∈ db.customer_data, r.id < 2147483648)
    (hex : ∃ r ∈ db.customer_data,
      OpenKeyMatch r (customer_id_of f.dev_id)
        (resolve_city db.prices f.cord_x.round3 f.cord_y.round3)
        f.cord_x.round3 f.cord_y.round3) :
    ∃ (i : Nat) (r : CustomerRow),
      db.customer_data[i]? = some r
      ∧ OpenKeyMatch r (customer_id_of f.dev_id)
          (resolve_city db.prices f.cord_x.round3 f.cord_y.round3)
          f.cord_x.round3 f.cord_y.round3
      ∧ (∀ q ∈ db.customer_data,
          OpenKeyMatch q (customer_id_of f.dev_id)
            (resolve_city db.prices f.cord_x.round3 f.cord_y.round3)
            f.cord_x.round3 f.cord_y.round3 → q.created_at ≤ r.created_at)
      ∧ (handle_frame cache sql_now now db f).2 = ok_closed
      ∧ (handle_frame cache sql_now now db f).1.customer_data[i]? =
          some { r with status := 0
                        parking_duration_minutes := sql_minutes sql_now r.created_at
                        ticket_fee := ticket_fee
                          (price_per_hour cache db.prices
                            (resolve_city db.prices f.cord_x.round3 f.cord_y.round3))
                          (sql_minutes sql_now r.created_at)
                        ended_at := some now }
      ∧ (∀ j : Nat, j ≠ i →
          (handle_frame cache sql_now now db f).1.customer_data[j]? = db.customer_data[j]?)
      ∧ (handle_frame cache sql_now now db f).1.customer_data.length
          = db.customer_data.length := by
  have hex' : ∃ r ∈ db.customer_data,
      open_where (customer_id_of f.dev_id)
        (resolve_city db.prices f.cord_x.round3 f.cord_y.round3)
        f.cord_x.round3 f.cord_y.round3 r = true := by
    obtain ⟨r, hr, hm⟩ := hex
    exact ⟨r, hr, (openKeyMatch_iff _ _ _ _ _).mp hm⟩
  obtain ⟨r, hr, hm, hmax, hfind⟩ := sql_find_open_latest _ _ _ _ _ hex'
  obtain ⟨i, hi⟩ := List.mem_iff_getElem?.mp hr
  have hres := handle_close_found cache sql_now now db f hs r.id r.created_at hfind
  rw [sqlite3_column_int_small r.id (hint r hr)] at hres
  refine ⟨i, r, hi, (openKeyMatch_iff _ _ _ _ _).mpr hm, ?_, ?_, ?_, ?_, ?_⟩
  · intro q hq hqm
    exact hmax q hq ((openKeyMatch_iff _ _ _ _ _).mp hqm)
  · rw [hres]
  · rw [hres]
    simp only [sql_update_close, List.getElem?_map, hi, Option.map_some', if_true, close_row]
  · intro j hj
    rw [hres]
    simp only [sql_update_close, List.getElem?_map]
    cases hq : db.customer_data[j]? with
    | none => rfl
    | some q =>
      by_cases hid : q.id = r.id
      · exact absurd (nodup_ids_index _ hkey i j r q hi hq hid) hj
      · simp [hid]
  · rw [hres]
    simp [sql_update_close]

/-- C24 (the code at the failing input): the only row of the ledger is an
Open session of device 1610 with rowid 2147483653, which matches the key of
the close frame and is the latest such row; the close sends the
acknowledgement, but the UPDATE is bound to the rowid as an `int`,
-2147483643, and changes no row: the row found is still Open, with duration
0 and no `ended_at`. -/
theorem close_with_big_rowid_changes_no_row (cache : PriceCache) (sql_now now : Timestamp) :
    sql_find_open sample_db_big_rowid.customer_data (customer_id_of sample_close_frame.dev_id)
        (resolve_city sample_db_big_rowid.prices sample_close_frame.cord_x.round3
          sample_close_frame.cord_y.round3)
        sample_close_frame.cord_x.round3 sample_close_frame.cord_y.round3
      = some (2147483653, 100000)
    ∧ (handle_frame cache sql_now now sample_db_big_rowid sample_close_frame).2
        = "OK CLOSED\n"
    ∧ (handle_frame cache sql_now now sample_db_big_rowid sample_close_frame).1.customer_data
      = [{ id := 2147483653, customer_id := "1610", city_code := 8300,
           gps_lat := .fin (31962 / 1000), gps_lng := .fin (34802 / 1000), status := 1,
           parking_duration_minutes := 0, ticket_fee := 0, created_at := 100000,
           ended_at := none }]
    ∧ sql_update_close sample_db_big_rowid.customer_data 60 5 now
        (sqlite3_column_int 2147483653) = sample_db_big_rowid.customer_data := by
  refine ⟨?_, ?_, ?_, ?_⟩
  · have hfind := sql_find_open_append_fresh [] "1610" 8300 (31962 / 1000) (34802 / 1000)
      2147483653 100000 (by intro r hr; simp at hr)
    simp only [sample_close_frame, sample_db_big_rowid, round3_fin_rishon_lat,
      round3_fin_rishon_lng, resolve_city_seed_rishon, customer_id_of_1610]
    simpa using hfind
  · rw [sample_big_rowid_close]
  · rw [sample_big_rowid_close]
    rfl
  · have hint : sqlite3_column_int 2147483653 = -2147483643 := by decide
    rw [hint]
    simp [sql_update_close, sample_db_big_rowid, open_row]

/-! ## Lemmas on the grid of thousandths and the seeded catalog -/

theorem c_round_intCast (k : Int) : c_round (k : ℚ) = k := by
  unfold c_round
  split_ifs with h
  · have : ⌊(k : ℚ) + 1 / 2⌋ = k := by
      rw [Int.floor_eq_iff]; constructor <;> norm_num
    rw [this]
  · have : ⌊-(k : ℚ) + 1 / 2⌋ = -k := by
      rw [Int.floor_eq_iff]; constructor <;> push_cast <;> norm_num
    rw [this]; push_cast; ring

theorem round3_on_grid (k : Int) : round3 ((k : ℚ) / 1000) = (k : ℚ) / 1000 := by
  unfold round3
  have : (k : ℚ) / 1000 * 1000 = k := by ring
  rw [this, c_round_intCast]

theorem near_grid_iff (m n : Int) :
    near ((m : ℚ) / 1000) ((n : ℚ) / 1000) = true ↔ (m : ℚ) / 1000 = (n : ℚ) / 1000 := by
  constructor
  · intro h
    rw [near_iff] at h
    exact grid_close_eq _ _ ((n : ℚ) / 1000) ⟨m, rfl⟩ ⟨n, rfl⟩ h (by norm_num)
  · intro h
    rw [h]; exact near_self _

theorem seed_prices_mem (t : Timestamp) (p : PriceRow) (hp : p ∈ seed_prices t) :
    p = ⟨"Rishon Lezion", 8300, 31962 / 1000, 34802 / 1000, 5, t⟩
    ∨ p = ⟨"Tel Aviv", 5000, 32087 / 1000, 34789 / 1000, 5, t⟩
    ∨ p = ⟨"Jerusalem", 3000, 31749 / 1000, 35170 / 1000, 7, t⟩
    ∨ p = ⟨"Eilat", 2600, 29549 / 1000, 34954 / 1000, 10, t⟩
    ∨ p = ⟨"Dimona", 2200, 31073 / 1000, 35044 / 1000, 6, t⟩
    ∨ p = ⟨"Nahariyya", 9100, 32999 / 1000, 35091 / 1000, 9, t⟩
    ∨ p = ⟨"Qiryat Shemona", 2800, 33174 / 1000, 35574 / 1000, 4, t⟩
    ∨ p = ⟨"Hadera", 6500, 32422 / 1000, 34909 / 1000, 5, t⟩
    ∨ p = ⟨"Rehovot", 8400, 31883 / 1000, 34794 / 1000, 8, t⟩
    ∨ p = ⟨"Arad", 2560, 31255 / 1000, 35166 / 1000, 6, t⟩ := by
  simpa [seed_prices] using hp

theorem seed_prices_lat_grid (t : Timestamp) (p : PriceRow) (hp : p ∈ seed_prices t) :
    ∃ k : Int, p.gps_lat = k / 1000 := by
  rcases seed_prices_mem t p hp with h | h | h | h | h | h | h | h | h | h <;> subst h
  · exact ⟨31962, by norm_num⟩
  · exact ⟨32087, by norm_num⟩
  · exact ⟨31749, by norm_num⟩
  · exact ⟨29549, by norm_num⟩
  · exact ⟨31073, by norm_num⟩
  · exact ⟨32999, by norm_num⟩
  · exact ⟨33174, by norm_num⟩
  · exact ⟨32422, by norm_num⟩
  · exact ⟨31883, by norm_num⟩
  · exact ⟨31255, by norm_num⟩

theorem seed_prices_lat_inj (t : Timestamp) (p q : PriceRow) (hp : p ∈ seed_prices t)
    (hq : q ∈ seed_prices t) (h : p.gps_lat = q.gps_lat) : p = q := by
  rcases seed_prices_mem t p hp with h1 | h1 | h1 | h1 | h1 | h1 | h1 | h1 | h1 | h1 <;>
  rcases seed_prices_mem t q hq with h2 | h2 | h2 | h2 | h2 | h2 | h2 | h2 | h2 | h2 <;>
  subst h1 <;> subst h2 <;> first | rfl | (exfalso; norm_num at h)

theorem seed_prices_codes_nodup (t : Timestamp) :
    ((seed_prices t).map (fun p => p.city_code)).Nodup := by
  simp [seed_prices]

/-! ## Claims on tolerance matching, other status values and the seeded catalog -/

/-- C25: on whole thousandths the tolerance test is equality.  For integers
`m`, `n` the test `ABS(m/1000 - n/1000) < 0.0001` holds if and only if
`m/1000 = n/1000`; a column holding a whole thousandth passes the test
against a `round3` value if and only if it is equal to it; hence a stored row
with such coordinates matches the key of a frame exactly when its coordinates
are equal to the rounded ones (the other columns agreeing), and a catalog row
with such coordinates is found by `sql_find_city` exactly when its
coordinates are equal to the rounded ones; and `round3` is idempotent. -/
theorem tolerance_is_equality_on_grid (m n : Int) (v w : ℚ) (cid : String) (code : Int)
    (r : CustomerRow) (p : PriceRow) :
    (near ((m : ℚ) / 1000) ((n : ℚ) / 1000) = true ↔ (m : ℚ) / 1000 = (n : ℚ) / 1000)
    ∧ (near ((m : ℚ) / 1000) (round3 v) = true ↔ (m : ℚ) / 1000 = round3 v)
    ∧ (open_where cid code (.fin (round3 v)) (.fin (round3 w))
          { r with gps_lat := .fin ((m : ℚ) / 1000), gps_lng := .fin ((n : ℚ) / 1000) } = true ↔
        (r.customer_id = cid ∧ r.city_code = code ∧ (m : ℚ) / 1000 = round3 v
          ∧ (n : ℚ) / 1000 = round3 w ∧ r.status = 1))
    ∧ (sql_find_city [{ p with gps_lat := (m : ℚ) / 1000, gps_lng := (n : ℚ) / 1000 }]
          (round3 v) (round3 w) = some p.city_code ↔
        ((m : ℚ) / 1000 = round3 v ∧ (n : ℚ) / 1000 = round3 w))
    ∧ round3 (round3 v) = round3 v := by
  obtain ⟨k, hk⟩ := round3_grid v
  obtain ⟨l, hl⟩ := round3_grid w
  have h1 := near_grid_iff m k
  have h2 := near_grid_iff n l
  rw [← hk] at h1
  rw [← hl] at h2
  refine ⟨near_grid_iff m n, h1, ?_, ?_, ?_⟩
  · simp only [open_where, near_fin, Bool.and_eq_true, decide_eq_true_eq, h1, h2]
    tauto
  · by_cases hc : (near ((m : ℚ) / 1000) (round3 v) && near ((n : ℚ) / 1000) (round3 w)) = true
    · have hc' := hc
      rw [Bool.and_eq_true, h1, h2] at hc'
      simp only [sql_find_city, List.find?, hc, Option.map_some', true_iff]
      exact hc'
    · have hc' := hc
      rw [Bool.and_eq_true, h1, h2] at hc'
      rw [Bool.not_eq_true] at hc
      simp only [sql_find_city, List.find?, hc, Option.map_none', false_iff]
      simpa using hc'
  · rw [hk]; exact round3_on_grid k

/-- C26: a frame whose decoded status is neither 0 nor 1 changes nothing and
nothing is sent: `handle_frame` returns the database as it is with no bytes
to send, and the pass of the client loop that decoded it out of `raw` leaves
the whole server state as it is, sends nothing and goes on reading. -/
theorem other_status_is_ignored (float_value : Nat → CDouble) (file : Option (List SnapshotLine))
    (cache : PriceCache) (sql_now now : Timestamp) (db : Db) (f : DecodedFrame)
    (stale got : List Nat) (s : ServerState)
    (h0 : f.status ≠ 0) (h1 : f.status ≠ 1)
    (hraw : decode_frame float_value (raw_after stale got) = f) :
    handle_frame cache sql_now now db f = (db, "")
    ∧ after_read float_value file sql_now now stale s 12 got = some (s, "", true) := by
  refine ⟨handle_frame_other_status cache sql_now now db f h1 h0, ?_⟩
  have h := handle_frame_other_status s.prices_cache sql_now now s.db f h1 h0
  unfold after_read
  rw [hraw, h]
  simp


/-- Witness of C26: a frame of device 1610 with status 2. -/
theorem other_status_is_ignored_witness :
    (decode_frame (fun _ => .fin 0) (raw_after sample_stale_raw sample_other_raw)).status ≠ 0
    ∧ (decode_frame (fun _ => .fin 0) (raw_after sample_stale_raw sample_other_raw)).status ≠ 1
    ∧ handle_frame [] 0 0 sample_db_open
        (decode_frame (fun _ => .fin 0) (raw_after sample_stale_raw sample_other_raw))
      = (sample_db_open, "")
    ∧ after_read (fun _ => .fin 0) none 0 0 sample_stale_raw sample_empty_server 12 sample_other_raw
      = some (sample_empty_server, "", true) :=
  ⟨by decide, by decide,
    other_status_is_ignored (fun _ => .fin 0) none [] 0 0 sample_db_open
      (decode_frame (fun _ => .fin 0) (raw_after sample_stale_raw sample_other_raw))
      sample_stale_raw sample_other_raw sample_empty_server (by decide) (by decide) rfl⟩

/-- C28: the seeded catalog has ten entries with pairwise distinct city codes,
and no coordinate pair lies in the tolerance window of two of them: an entry
`p` within `0.0001` of `(x, y)` on both axes and an entry `q` within `0.0001`
of `x` are the same entry (the ten latitudes alone are more than `0.0002`
apart), so `sql_find_city` yields the code of `p` and no other. -/
theorem seeded_catalog_is_unambiguous (t : Timestamp) (x y : ℚ) (p q : PriceRow)
    (hp : p ∈ seed_prices t) (hq : q ∈ seed_prices t)
    (hpx : |p.gps_lat - x| < 1 / 10000) (hpy : |p.gps_lng - y| < 1 / 10000)
    (hqx : |q.gps_lat - x| < 1 / 10000) :
    (seed_prices t).length = 10
    ∧ ((seed_prices t).map (fun r => r.city_code)).Nodup
    ∧ p = q
    ∧ sql_find_city (seed_prices t) x y = some p.city_code := by
  have huniq : ∀ a b : PriceRow, a ∈ seed_prices t → b ∈ seed_prices t →
      |a.gps_lat - x| < 1 / 10000 → |b.gps_lat - x| < 1 / 10000 → a = b := by
    intro a b ha hb hax hbx
    exact seed_prices_lat_inj t a b ha hb
      (grid_close_eq _ _ x (seed_prices_lat_grid t a ha) (seed_prices_lat_grid t b hb) hax hbx)
  refine ⟨rfl, seed_prices_codes_nodup t, huniq p q hp hq hpx hqx, ?_⟩
  unfold sql_find_city
  cases hf : (seed_prices t).find? (fun r => near r.gps_lat x && near r.gps_lng y) with
  | none =>
    rw [List.find?_eq_none] at hf
    have := hf p hp
    rw [Bool.and_eq_true, near_iff, near_iff] at this
    exact absurd ⟨hpx, hpy⟩ this
  | some r =>
    have hr := List.find?_some hf
    have hm := List.mem_of_find?_eq_some hf
    rw [Bool.and_eq_true, near_iff, near_iff] at hr
    rw [huniq r p hm hp hr.1 hpx]
    rfl

/-- Witness of C28: the Tel Aviv entry at its own coordinates. -/
theorem seeded_catalog_is_unambiguous_witness :
    (seed_prices 0).length = 10
    ∧ ((seed_prices 0).map (fun r => r.city_code)).Nodup
    ∧ (⟨"Tel Aviv", 5000, 32087 / 1000, 34789 / 1000, 5, 0⟩ : PriceRow)
        = ⟨"Tel Aviv", 5000, 32087 / 1000, 34789 / 1000, 5, 0⟩
    ∧ sql_find_city (seed_prices 0) (32087 / 1000) (34789 / 1000) = some 5000 :=
  seeded_catalog_is_unambiguous 0 (32087 / 1000) (34789 / 1000)
    ⟨"Tel Aviv", 5000, 32087 / 1000, 34789 / 1000, 5, 0⟩
    ⟨"Tel Aviv", 5000, 32087 / 1000, 34789 / 1000, 5, 0⟩
    (by simp [seed_prices]) (by simp [seed_prices]) (by norm_num) (by norm_num) (by norm_num)


/-! ## Lemmas on the reads of the segment, the sensor bus and the JSON helper -/

theorem load_reads_inside_iff (count mapped : Nat) :
    (∀ rd ∈ load_reads count, rd.1 + rd.2 ≤ mapped) ↔ record_offset count ≤ mapped := by
  induction count with
  | zero => simp [load_reads, record_offset]
  | succ n ih =>
    simp only [load_reads, List.mem_append, List.mem_cons, List.mem_singleton,
      List.not_mem_nil, or_false]
    constructor
    · intro h
      have := h (record_offset n + 4, 8) (Or.inr (Or.inr rfl))
      unfold record_offset at *
      simp only at this
      omega
    · intro h rd hrd
      rcases hrd with hrd | hrd | hrd
      · exact ih.mpr (by unfold record_offset at *; omega) rd hrd
      · subst hrd; unfold record_offset at *; simp only; omega
      · subst hrd; unfold record_offset at *; simp only; omega

theorem load_isSome_iff (seg : ShmSegment) (cache : PriceCache) :
    (load_prices_from_shm (some seg) cache).isSome = true ↔
      record_offset seg.count ≤ readable_bytes SHM_SIZE seg.size := by
  constructor
  · intro h
    by_contra hfit
    have hnone : load_prices_from_shm (some seg) cache = none := by
      unfold load_prices_from_shm
      by_cases h8 : 8 ≤ readable_bytes SHM_SIZE seg.size
      · simp only [h8, if_true]
        have hpos : 0 < seg.count := by
          rcases Nat.eq_zero_or_pos seg.count with e | e
          · rw [e] at hfit; unfold record_offset at hfit; omega
          · exact e
        rw [load_loop_none seg _ seg.count 0 [] hpos (by rw [Nat.zero_add]; exact Nat.lt_of_not_le hfit)]
        rfl
      · simp only [h8, if_false]
    rw [hnone] at h
    simp at h
  · intro hfit
    rw [load_existing_pages seg cache hfit]
    rfl

theorem swap16_bytes (b0 b1 : Nat) (h0 : b0 < 256) (h1 : b1 < 256) :
    swap16 (b0 + 256 * b1) = b1 + 256 * b0 := by
  unfold swap16
  have e1 : (b0 + 256 * b1) >>> 8 = b1 := by
    rw [Nat.shiftRight_eq_div_pow]; omega
  have e2 : (b0 + 256 * b1) <<< 8 = 2 ^ 8 * (b0 + 256 * b1) := by
    rw [Nat.shiftLeft_eq]; ring
  rw [e1, e2, Nat.lor_comm, ← Nat.mul_add_lt_is_or (by omega : b1 < 2 ^ 8)]
  omega

theorem swapEndian_twelve (a0 a1 a2 a3 a4 a5 a6 a7 a8 a9 a10 a11 : Nat) :
    SwapEndian [a0, a1, a2, a3, a4, a5, a6, a7, a8, a9, a10, a11] 12
      = [a11, a10, a9, a8, a7, a6, a5, a4, a3, a2, a1, a0] := by
  rfl

theorem of_le_bytes_two (a0 a1 : Nat) : of_le_bytes [a0, a1] = a0 + 256 * a1 := by
  simp only [of_le_bytes]
  omega

theorem copy_value_bounds (p : List Char) (i out_sz : Nat) (stores : List (Nat × Char))
    (h : ∀ st ∈ stores, st.1 < out_sz) (hi : i < out_sz) :
    (∀ st ∈ (copy_value p i out_sz stores).2.2, st.1 < out_sz)
    ∧ (copy_value p i out_sz stores).2.1 < out_sz := by
  induction p generalizing i stores with
  | nil => exact ⟨h, hi⟩
  | cons c p ih =>
    unfold copy_value
    by_cases hc : c ≠ NUL ∧ c ≠ '"' ∧ i + 1 < out_sz
    · rw [if_pos hc]
      apply ih
      · intro st hst
        rcases List.mem_append.mp hst with hst | hst
        · exact h st hst
        · simp only [List.mem_singleton] at hst
          subst hst
          exact hi
      · exact hc.2.2
    · rw [if_neg hc]
      exact ⟨h, hi⟩

theorem json_get_string_in_bounds (json key : List Char) (out_sz : Nat) (h : 0 < out_sz) :
    ∀ st ∈ (json_get_string json key out_sz).2, st.1 < out_sz := by
  unfold json_get_string
  cases find_key json key with
  | none => simp
  | some p =>
    dsimp only
    cases skip_ws p with
    | nil => simp
    | cons c v =>
      dsimp only
      by_cases hc : c ≠ '"'
      · rw [if_pos hc]; simp
      · rw [if_neg hc]
        have hb := copy_value_bounds v 0 out_sz [] (by simp) h
        by_cases hr : (copy_value v 0 out_sz []).1.head? ≠ some '"'
        · rw [if_pos hr]
          exact hb.1
        · rw [if_neg hr]
          intro st hst
          rcases List.mem_append.mp hst with hst | hst
          · exact hb.1 st hst
          · simp only [List.mem_singleton] at hst
            subst hst
            exact hb.2

set_option maxRecDepth 100000 in
theorem sample_long_key :
    strstr (['"'] ++ List.replicate 127 'a' ++ "\":\"v\"".toList)
        (['"'] ++ List.replicate 126 'a' ++ ['"']) = none
    ∧ json_get_string (['"'] ++ List.replicate 127 'a' ++ "\":\"v\"".toList)
        (List.replicate 126 'a') 8 = (true, [(0, 'v'), (1, NUL)]) := by
  constructor <;> decide

theorem copy_value_fits (value rest : List Char) (i out_sz : Nat) (stores : List (Nat × Char))
    (hclean : ∀ c ∈ value, c ≠ NUL ∧ c ≠ '"') (hfit : i + value.length < out_sz) :
    copy_value (value ++ '"' :: rest) i out_sz stores
      = ('"' :: rest, i + value.length, stores ++ value.enumFrom i) := by
  induction value generalizing i stores with
  | nil => simp [copy_value]
  | cons c v ih =>
    have hc := hclean c (List.mem_cons_self c v)
    have hlt : i + 1 < out_sz := by simp only [List.length_cons] at hfit; omega
    rw [List.cons_append, copy_value, if_pos ⟨hc.1, hc.2, hlt⟩,
      ih (i + 1) (stores ++ [(i, c)]) (fun d hd => hclean d (List.mem_cons_of_mem c hd))
        (by simp only [List.length_cons] at hfit; omega)]
    simp only [List.length_cons, List.enumFrom_cons, List.append_assoc, List.singleton_append,
      Prod.mk.injEq, true_and, and_true]
    omega

theorem copy_value_too_long (value rest : List Char) (i out_sz : Nat)
    (stores : List (Nat × Char)) (hclean : ∀ c ∈ value, c ≠ NUL ∧ c ≠ '"')
    (hi : i < out_sz) (hlong : out_sz ≤ i + value.length) :
    (copy_value (value ++ '"' :: rest) i out_sz stores).1.head? ≠ some '"' := by
  induction value generalizing i stores with
  | nil => simp only [List.length_nil] at hlong; omega
  | cons c v ih =>
    have hc := hclean c (List.mem_cons_self c v)
    rw [List.cons_append, copy_value]
    by_cases hlt : i + 1 < out_sz
    · rw [if_pos ⟨hc.1, hc.2, hlt⟩]
      exact ih (i + 1) (stores ++ [(i, c)]) (fun d hd => hclean d (List.mem_cons_of_mem c hd))
        hlt (by simp only [List.length_cons] at hlong; omega)
    · rw [if_neg (fun h => hlt h.2.2)]
      simp only [List.head?_cons, ne_eq, Option.some.injEq]
      exact hc.2

theorem json_get_string_value (json key p value rest : List Char) (out_sz : Nat)
    (hk : find_key json key = some p) (hv : skip_ws p = '"' :: (value ++ '"' :: rest))
    (hclean : ∀ c ∈ value, c ≠ NUL ∧ c ≠ '"') (hsz : 0 < out_sz) :
    (value.length < out_sz →
      json_get_string json key out_sz = (true, value.enum ++ [(value.length, NUL)]))
    ∧ (out_sz ≤ value.length → (json_get_string json key out_sz).1 = false) := by
  unfold json_get_string
  rw [hk]
  dsimp only
  rw [hv]
  dsimp only
  rw [if_neg (by simp)]
  constructor
  · intro hfit
    rw [copy_value_fits value rest 0 out_sz [] hclean (by omega)]
    simp [List.enum]
  · intro hlong
    have h := copy_value_too_long value rest 0 out_sz [] hclean hsz (by omega)
    rcases hcv : copy_value (value ++ '"' :: rest) 0 out_sz [] with ⟨r1, i1, st1⟩
    rw [hcv] at h
    dsimp only at h ⊢
    rw [if_pos h]

theorem json_get_string_absent (json key : List Char) (out_sz : Nat)
    (h : strstr json (key_pattern key) = none) :
    json_get_string json key out_sz = (false, []) := by
  simp [json_get_string, find_key, h]

/-! ## Claims on the segment reads, the sensor bus and the JSON helper -/

/-- C27 (what the code does): the count read from the segment is not compared
with the mapped size.  For count 85 the `double` of record 84 is read at
offsets 1020 to 1027, beyond `SHM_SIZE` = 1024; all reads lie inside the
1024 bytes exactly when the count is at most 84; and the load has a defined
result exactly when all its reads lie inside the bytes that can be read
through the mapping, which are the whole pages of it: on the 2048-byte
segment of the updater a count of 341 has none. -/
theorem count_is_not_bounded (seg : ShmSegment) (cache : PriceCache) (count : Nat) :
    (record_offset 84 + 4, 8) ∈ load_reads 85
    ∧ SHM_SIZE < record_offset 84 + 4 + 8
    ∧ ((∀ rd ∈ load_reads count, rd.1 + rd.2 ≤ SHM_SIZE) ↔ count ≤ 84)
    ∧ ((load_prices_from_shm (some seg) cache).isSome = true ↔
        ∀ rd ∈ load_reads seg.count, rd.1 + rd.2 ≤ readable_bytes SHM_SIZE seg.size)
    ∧ load_prices_from_shm (some ⟨2048, 341, []⟩) cache = none := by
  refine ⟨?_, by decide, ?_, ?_, ?_⟩
  · rw [load_reads]
    simp
  · rw [load_reads_inside_iff]
    unfold record_offset SHM_SIZE
    omega
  · rw [load_reads_inside_iff, load_isSome_iff]
  · have h := (load_isSome_iff ⟨2048, 341, []⟩ cache).not.mpr (by decide)
    cases hl : load_prices_from_shm (some ⟨2048, 341, []⟩) cache with
    | none => rfl
    | some v => rw [hl] at h; exact absurd rfl h


/-- C29: for every reading whose `device_id` and `status` are 16-bit and whose
coordinates are 32-bit patterns, `SwapEndian` on the 12 bytes of the packed
`gps_frame` gives their reversal, these are 12 bytes, and `i2c_read_frame`
decodes them back to the same `device_id`, `cord_x`, `cord_y` and `status`. -/
theorem sensor_bus_round_trip (r : SensorReading) (hid : r.id < 65536)
    (hx : r.x_bits < 4294967296) (hy : r.y_bits < 4294967296) (hs : r.status < 65536) :
    SwapEndian (gps_frame_bytes r) 12 = (gps_frame_bytes r).reverse
    ∧ (generator_send r).length = 12
    ∧ i2c_read_frame (generator_send r) = some r := by
  obtain ⟨id, x, y, s⟩ := r
  simp only at hid hx hy hs
  obtain ⟨i0, i1, hi0, hi1, rfl⟩ := bytes16 id hid
  obtain ⟨s0, s1, hs0, hs1, rfl⟩ := bytes16 s hs
  obtain ⟨x0, x1, x2, x3, hx0, hx1, hx2, hx3, rfl⟩ := bytes32 x hx
  obtain ⟨y0, y1, y2, y3, hy0, hy1, hy2, hy3, rfl⟩ := bytes32 y hy
  have hb : gps_frame_bytes ⟨i0 + 256 * i1, x0 + 256 * x1 + 65536 * x2 + 16777216 * x3,
      y0 + 256 * y1 + 65536 * y2 + 16777216 * y3, s0 + 256 * s1⟩
      = [i0, i1, x0, x1, x2, x3, y0, y1, y2, y3, s0, s1] := by
    simp only [gps_frame_bytes, le16_bytes _ _ hi0 hi1, le16_bytes _ _ hs0 hs1,
      le32_bytes _ _ _ _ hx0 hx1 hx2 hx3, le32_bytes _ _ _ _ hy0 hy1 hy2 hy3]
    rfl
  unfold generator_send
  rw [hb, swapEndian_twelve]
  refine ⟨rfl, rfl, ?_⟩
  simp only [i2c_read_frame, List.length_cons, List.length_nil, List.take, List.drop,
    swap_float, List.getD_cons_zero, List.getD_cons_succ, of_le_bytes_four, of_le_bytes_two,
    swap16_bytes _ _ hs1 hs0, swap16_bytes _ _ hi1 hi0]
  simp

/-- Witness of C29: the reading of device 1610 at (31.962, 34.802) with status 1. -/
theorem sensor_bus_round_trip_witness :
    sample_reading.id < 65536 ∧ sample_reading.x_bits < 4294967296
    ∧ sample_reading.y_bits < 4294967296 ∧ sample_reading.status < 65536
    ∧ SwapEndian (gps_frame_bytes sample_reading) 12 = (gps_frame_bytes sample_reading).reverse
    ∧ (generator_send sample_reading).length = 12
    ∧ i2c_read_frame (generator_send sample_reading) = some sample_reading :=
  ⟨by decide, by decide, by decide, by decide,
    sensor_bus_round_trip sample_reading (by decide) (by decide) (by decide) (by decide)⟩


/-- C30 (what the code does): for the text of one member `k` with the empty
string as value and `out_sz = 0`, `json_get_string` returns `true` and stores
the terminating NUL at index 0, which is not below `out_sz`: the loop guard
`i + 1 < out_sz` protects the copied characters only, `out[i] = 0` is stored
unguarded. -/
theorem terminator_store_is_unguarded :
    json_get_string sample_json_empty_value ['k'] 0 = (true, [(0, NUL)])
    ∧ find_key sample_json_empty_value ['k'] = some ['"', '"', '\x7d']
    ∧ copy_value ['"', '\x7d'] 0 0 [] = (['"', '\x7d'], 0, []) := by
  refine ⟨by decide, by decide, by decide⟩

end ParkingServer
